import Mathlib

/-!
# The sender half of the UDT socket

A shallow embedding of `libraries/networking/src/udt/udt4/UdtSocket_send.cpp`.
The class `UdtSocket_send` becomes a record of its member variables, every member
function becomes a function on that record, and every call on the socket facade
(`sendPacket`, the congestion-control handlers, `applyRTT`, `requestShutdown`)
is appended to a call log carried by the record.

Clocks are an explicit millisecond counter `_clock`; a `QDeadlineTimer` is the
absolute deadline it was armed with, a `QTimer` is the interval it is running
with (or `none` while it is not active).
-/

/-! # The cast penalty of the script engine -/

namespace ScriptEngineQtScript

/-- The answers of the type tests of a `QScriptValue` that `computeCastPenalty`
reads. -/
structure QScriptValue where
  isNumber : Bool
  isString : Bool
  isDate : Bool
  isRegExp : Bool
  isBool : Bool
  isBoolean : Bool
deriving DecidableEq, Repr

/-- The value of `QMetaType::Bool` in Qt 5, the library of QtScript. -/
def QMetaType.Bool : ℤ := 1
/-- The value of `QMetaType::Int`. -/
def QMetaType.Int : ℤ := 2
/-- The value of `QMetaType::UInt`. -/
def QMetaType.UInt : ℤ := 3
/-- The value of `QMetaType::LongLong`. -/
def QMetaType.LongLong : ℤ := 4
/-- The value of `QMetaType::ULongLong`. -/
def QMetaType.ULongLong : ℤ := 5
/-- The value of `QMetaType::Double`. -/
def QMetaType.Double : ℤ := 6
/-- The value of `QMetaType::QString`. -/
def QMetaType.QString : ℤ := 10
/-- The value of `QMetaType::QByteArray`. -/
def QMetaType.QByteArray : ℤ := 12
/-- The value of `QMetaType::QDate`. -/
def QMetaType.QDate : ℤ := 14
/-- The value of `QMetaType::QDateTime`. -/
def QMetaType.QDateTime : ℤ := 16
/-- The value of `QMetaType::Long`. -/
def QMetaType.Long : ℤ := 32
/-- The value of `QMetaType::Short`. -/
def QMetaType.Short : ℤ := 33
/-- The value of `QMetaType::ULong`. -/
def QMetaType.ULong : ℤ := 35
/-- The value of `QMetaType::UShort`. -/
def QMetaType.UShort : ℤ := 36
/-- The value of `QMetaType::Float`. -/
def QMetaType.Float : ℤ := 38

/-- The case labels `UInt`, `ULong`, `Int`, `Long`, `Short`, `Double`, `Float`,
`ULongLong`, `LongLong`, `UShort` that the three `switch` statements share. -/
def numericCase (destTypeId : Int) : Prop :=
  destTypeId = QMetaType.UInt ∨ destTypeId = QMetaType.ULong ∨ destTypeId = QMetaType.Int
  ∨ destTypeId = QMetaType.Long ∨ destTypeId = QMetaType.Short ∨ destTypeId = QMetaType.Double
  ∨ destTypeId = QMetaType.Float ∨ destTypeId = QMetaType.ULongLong
  ∨ destTypeId = QMetaType.LongLong ∨ destTypeId = QMetaType.UShort

instance (destTypeId : Int) : Decidable (numericCase destTypeId) := by
  unfold numericCase
  infer_instance

/-- The case labels `QString`, `QByteArray`, `QDateTime`, `QDate`. -/
def textCase (destTypeId : Int) : Prop :=
  destTypeId = QMetaType.QString ∨ destTypeId = QMetaType.QByteArray
  ∨ destTypeId = QMetaType.QDateTime ∨ destTypeId = QMetaType.QDate

instance (destTypeId : Int) : Decidable (textCase destTypeId) := by
  unfold textCase
  infer_instance

/-- The function `ScriptEngineQtScript::computeCastPenalty`. -/
def computeCastPenalty (val : QScriptValue) (destTypeId : Int) : Int :=
  if val.isNumber then
    if destTypeId = QMetaType.Bool then 5
    else if numericCase destTypeId then 0
    else if textCase destTypeId then 100
    else 5
  else if val.isString || val.isDate || val.isRegExp then
    if destTypeId = QMetaType.Bool then 100
    else if numericCase destTypeId then 100
    else if destTypeId = QMetaType.QString then 0
    else if destTypeId = QMetaType.QByteArray ∨ destTypeId = QMetaType.QDateTime
        ∨ destTypeId = QMetaType.QDate then 5
    else 5
  else if val.isBool || val.isBoolean then
    if destTypeId = QMetaType.Bool then 0
    else if numericCase destTypeId then 5
    else if textCase destTypeId then 50
    else 5
  else 0

/-- The first test of `computeCastPenalty` holds: the value is a number. -/
def castsAsNumber (val : QScriptValue) : Prop := val.isNumber = true

/-- The second test is the first to hold: a string, a date or a regular
expression. -/
def castsAsText (val : QScriptValue) : Prop :=
  val.isNumber = false ∧ (val.isString || val.isDate || val.isRegExp) = true

/-- The third test is the first to hold: a boolean. -/
def castsAsBoolean (val : QScriptValue) : Prop :=
  val.isNumber = false ∧ (val.isString || val.isDate || val.isRegExp) = false
  ∧ (val.isBool || val.isBoolean) = true

/-- None of the three tests holds. -/
def castsAsOther (val : QScriptValue) : Prop :=
  val.isNumber = false ∧ (val.isString || val.isDate || val.isRegExp) = false
  ∧ (val.isBool || val.isBoolean) = false

end ScriptEngineQtScript

namespace udt4

/-! ## Sequence arithmetic -/

/-- Modelled from the spec: `PacketID.h` is not among the sources. A PacketID is a
31-bit identifier held in a natural number. -/
abbrev PacketID := Nat

/-- Modelled from the spec: the modulus `2^31` of the PacketID arithmetic. -/
def PacketID.MODULUS : Nat := 2 ^ 31

/-- Modelled from the spec: successor of a PacketID (increment modulo `2^31`),
the `++` of the source. -/
def PacketID.incr (a : PacketID) : PacketID := (a + 1) % PacketID.MODULUS

/-- Modelled from the spec: the PacketID built from a 32-bit word keeps its low
31 bits. -/
def PacketID.ofWord (w : Nat) : PacketID := w % PacketID.MODULUS

/-- Modelled from the spec: `a.blindDifference(b)`, the signed difference `a - b`
modulo `2^31`, read in the window `(-2^30, +2^30]`. -/
def PacketID.blindDifference (a b : PacketID) : Int :=
  let d := (a % PacketID.MODULUS + PacketID.MODULUS - b % PacketID.MODULUS) % PacketID.MODULUS
  if d > 2 ^ 30 then (d : Int) - (PacketID.MODULUS : Int) else (d : Int)

/-- Modelled from the spec: strict modular order, `a < b` when `b` is ahead of `a`. -/
def PacketID.lt (a b : PacketID) : Bool := decide (0 < PacketID.blindDifference b a)

/-- Modelled from the spec: modular order `a <= b`, `b` is `a` or ahead of it. -/
def PacketID.le (a b : PacketID) : Bool := decide (0 ≤ PacketID.blindDifference b a)

/-- Modelled from the spec: the message counter `SequenceNumber`, a 32-bit counter. -/
abbrev SequenceNumber := Nat

/-- Modelled from the spec: the modulus `2^32` of the message counter. -/
def SequenceNumber.MODULUS : Nat := 2 ^ 32

/-- Modelled from the spec: successor of a message number, the `++` of the source. -/
def SequenceNumber.incr (a : SequenceNumber) : SequenceNumber := (a + 1) % SequenceNumber.MODULUS

/-- The modulus of the C++ type `unsigned`. -/
def UINT_MODULUS : Nat := 2 ^ 32

/-! ## Byte slices, packets, records -/

/-- Modelled from the spec: `ByteSlice`, an immutable byte buffer; `substring(0, n)`
is `List.take n`, `substring(n)` is `List.drop n`, `concat` is `++`. Its length is
taken to fit the type `unsigned`. -/
abbrev ByteSlice := List UInt8

/-- The enumeration `DataPacket::MessagePosition`. -/
inductive MessagePosition where
  | Only
  | First
  | Middle
  | Last
deriving DecidableEq, Repr

/-- The fields of `DataPacket` that the sender writes. -/
structure DataPacket where
  _packetID : PacketID
  _messagePosition : MessagePosition
  _isOrdered : Bool
  _messageNumber : SequenceNumber
  _contents : ByteSlice
deriving DecidableEq, Repr

/-- The enumeration `ACKPacket::AckType`. -/
inductive AckType where
  | Light
  | Full
deriving DecidableEq, Repr

/-- The fields of `ACKPacket` that the sender reads. -/
structure ACKPacket where
  _ackType : AckType
  _ackSequence : SequenceNumber
  _lastPacketReceived : PacketID
  _availBufferSize : Nat
  _rtt : Nat
  _packetReceiveRate : Nat
  _estimatedLinkCapacity : Nat
deriving DecidableEq, Repr

/-- The fields of `MessageDropRequestPacket`. -/
structure MessageDropRequestPacket where
  _messageID : SequenceNumber
  _firstPacketID : PacketID
  _lastPacketID : PacketID
deriving DecidableEq, Repr

/-- A packet on the wire, by `PacketType`; a NAK carries its list of 32-bit
loss words, an ACK2 its additional info. -/
inductive Packet where
  | Data (p : DataPacket)
  | Ack (p : ACKPacket)
  | Ack2 (additionalInfo : Nat)
  | Nak (lossData : List Nat)
  | Congestion
  | Shutdown
  | Keepalive
  | MsgDropReq (p : MessageDropRequestPacket)
  | Handshake
deriving DecidableEq, Repr

/-- The states of the socket named by the spec (`enum class UdtSocketState`). -/
inductive UdtSocketState where
  | Init
  | Connected
  | HalfClosed
  | Closed
  | Corrupted
  | Timeout
deriving DecidableEq, Repr

/-- The enumeration `UdtSocket_send::SendState`. -/
inductive SendState where
  | Closed
  | Idle
  | Sending
  | Waiting
  | ProcessDrop
  | Shutdown
deriving DecidableEq, Repr

/-- A `QDeadlineTimer`: the absolute time (ms) of the deadline, `none` for a
timer that never expires (`setRemainingTime(-1)`). -/
abbrev QDeadlineTimer := Option Nat

/-- The call `QDeadlineTimer::hasExpired()` at clock value `now`. -/
def QDeadlineTimer.hasExpired (now : Nat) (t : QDeadlineTimer) : Bool :=
  match t with
  | none => false
  | some deadline => decide (deadline ≤ now)

/-- The struct `UdtSocket_send::MessageEntry`. -/
structure MessageEntry where
  content : ByteSlice
  sendTime : Nat
  expireTime : QDeadlineTimer
deriving DecidableEq, Repr

/-- The struct `UdtSocket_send::SendPacketEntry`. -/
structure SendPacketEntry where
  packet : DataPacket
  sendTime : Nat
  expireTime : QDeadlineTimer
deriving DecidableEq, Repr

/-- A call made on the socket facade `_socket` or on its congestion control. -/
inductive SocketCall where
  | sendPacket (p : Packet)
  | onDataPktSent (id : PacketID)
  | onACK (id : PacketID)
  | onNAK (ids : List PacketID)
  | onTimeout
  | applyRTT (rtt : Nat)
  | applyReceiveRates (packetReceiveRate estimatedLinkCapacity : Nat)
  | requestShutdown (reason : UdtSocketState)
deriving DecidableEq, Repr

/-! ## Pending structures -/

/-- Modelled from the spec: the unacked table `SendPacketEntryMap`, an ordered map
from PacketID to record, kept as a list of pairs sorted by key. -/
abbrev SendPacketEntryMap := List (PacketID × SendPacketEntry)

/-- Modelled from the spec: the loss set `PacketIDSet`, an ordered set of
PacketIDs, kept as a sorted list. -/
abbrev PacketIDSet := List PacketID

/-- The lookup `map.find(key)`. -/
def SendPacketEntryMap.find (m : SendPacketEntryMap) (k : PacketID) : Option SendPacketEntry :=
  match m with
  | [] => none
  | (k1, e) :: rest => if k1 = k then some e else SendPacketEntryMap.find rest k

/-- The call `map.insert(value_type(key, entry))`: an entry already stored under
the key is kept. -/
def SendPacketEntryMap.insert (m : SendPacketEntryMap) (k : PacketID) (e : SendPacketEntry) :
    SendPacketEntryMap :=
  match m with
  | [] => [(k, e)]
  | (k1, e1) :: rest =>
    if k1 = k then (k1, e1) :: rest
    else if k < k1 then (k, e) :: (k1, e1) :: rest
    else (k1, e1) :: SendPacketEntryMap.insert rest k e

/-- The call `map.erase(key)`. -/
def SendPacketEntryMap.erase (m : SendPacketEntryMap) (k : PacketID) : SendPacketEntryMap :=
  m.filter (fun kv => !decide (kv.1 = k))

/-- The call `set.insert(id)`. -/
def PacketIDSet.insert (l : PacketIDSet) (k : PacketID) : PacketIDSet :=
  match l with
  | [] => [k]
  | k1 :: rest =>
    if k1 = k then k1 :: rest
    else if k < k1 then k :: k1 :: rest
    else k1 :: PacketIDSet.insert rest k

/-- The call `set.erase(id)`. -/
def PacketIDSet.erase (l : PacketIDSet) (k : PacketID) : PacketIDSet :=
  l.filter (fun x => !decide (x = k))

/-- The offset of `x` past `low` in the cyclic PacketID order. -/
def PacketID.offset (low x : PacketID) : Nat :=
  (x % PacketID.MODULUS + PacketID.MODULUS - low % PacketID.MODULUS) % PacketID.MODULUS

/-- The candidate of a windowed search that is nearer to `low`. -/
def nearer (low : PacketID) (best : Option PacketID) (x : PacketID) : Option PacketID :=
  match best with
  | none => some x
  | some b => if PacketID.offset low x < PacketID.offset low b then some x else some b

/-- Modelled from the spec: `findFirstEntry(container, low, high)`, the first key of
the container in the window `(low, high]`, in sequence order past a wrap. -/
def findFirstEntry (keys : List PacketID) (low high : PacketID) : Option PacketID :=
  (keys.filter (fun x =>
      decide (0 < PacketID.offset low x) && decide (PacketID.offset low x ≤ PacketID.offset low high))).foldl
    (nearer low) none

/-! ## The sender -/

/-- A record of `ReceivedPacket`: the packet and the clock value at its arrival. -/
structure ReceivedPacket where
  udtPacket : Packet
  timeReceived : Nat
deriving DecidableEq, Repr

/-- The member variables of `UdtSocket_send`, the values the sender reads from
its surroundings (`_clock`, the RTT the socket reports), and the log of the calls
made on the socket facade, oldest first. -/
structure UdtSocket_send where
  _socketState : UdtSocketState
  _flagRecentReceivedPacket : Bool
  _flagRecentEXPevent : Bool
  _flagRecentSNDevent : Bool
  _flagSendDisconnect : Bool
  _pendingMessages : List MessageEntry
  _receivedPacketList : List ReceivedPacket
  _sendState : SendState
  _sendPktPend : SendPacketEntryMap
  _sendPacketID : PacketID
  _msgPartialSend : Option MessageEntry
  _messageSequence : SequenceNumber
  _expCount : Nat
  _lastReceiveTime : Nat
  _lastAckPacketID : PacketID
  _sentAck2 : SequenceNumber
  _sendLossList : PacketIDSet
  _sndPeriod : Int
  _rtoPeriod : Int
  _congestWindow : Nat
  _flowWindowSize : Nat
  _mtu : Nat
  _isDatagram : Bool
  _SNDtimer : Option Int
  _EXPtimer : Option Int
  _ACK2SentTimer : QDeadlineTimer
  _clock : Nat
  _rtt : Nat
  _rttVariance : Nat
  _socket : List SocketCall
deriving DecidableEq, Repr

/-- The sender as its constructor and default member initialisers leave it, on
a socket that has made no call yet. The members whose declaration is not among
the sources (`_mtu`, `_isDatagram`, the atomics `_sndPeriod`, `_rtoPeriod`,
`_congestWindow`) and the clock start from the values chosen here. -/
def UdtSocket_send.new : UdtSocket_send where
  _socketState := UdtSocketState.Init
  _flagRecentReceivedPacket := false
  _flagRecentEXPevent := false
  _flagRecentSNDevent := false
  _flagSendDisconnect := false
  _pendingMessages := []
  _receivedPacketList := []
  _sendState := SendState.Closed
  _sendPktPend := []
  _sendPacketID := 0
  _msgPartialSend := none
  _messageSequence := 0
  _expCount := 1
  _lastReceiveTime := 0
  _lastAckPacketID := 0
  _sentAck2 := 0
  _sendLossList := []
  _sndPeriod := 0
  _rtoPeriod := 0
  _congestWindow := 16
  _flowWindowSize := 16
  _mtu := 1500
  _isDatagram := false
  _SNDtimer := none
  _EXPtimer := none
  _ACK2SentTimer := some 0
  _clock := 0
  _rtt := 0
  _rttVariance := 0
  _socket := []

/-- The function `UdtSocket_send::reevalSendState`. -/
def reevalSendState (s : UdtSocket_send) : SendState :=
  if s._SNDtimer.isSome then
    SendState.Sending
  else
    if !s._sendPktPend.isEmpty then
      let congestWindow := s._congestWindow
      let cwnd := s._flowWindowSize
      let cwnd := if cwnd > congestWindow then congestWindow else cwnd
      if cwnd ≥ s._sendPktPend.length then SendState.Waiting else SendState.Idle
    else
      SendState.Idle

/-- The inner loop of `processSendExpire`: every record of the snapshot that
belongs to message `messageNumber` widens the drop range and is erased from the
loss set and from the unacked table. -/
def processSendExpire_collect (messageNumber : SequenceNumber) :
    List (PacketID × SendPacketEntry) → MessageDropRequestPacket × UdtSocket_send →
      MessageDropRequestPacket × UdtSocket_send
  | [], acc => acc
  | (packetID, entry) :: rest, (dropMessage, s) =>
    if entry.packet._messageNumber = messageNumber then
      let dropMessage :=
        if PacketID.lt packetID dropMessage._firstPacketID then
          { dropMessage with _firstPacketID := packetID }
        else dropMessage
      let dropMessage :=
        if PacketID.lt dropMessage._lastPacketID packetID then
          { dropMessage with _lastPacketID := packetID }
        else dropMessage
      let s :=
        if packetID ∈ s._sendLossList then
          { s with _sendLossList := PacketIDSet.erase s._sendLossList packetID }
        else s
      let s := { s with _sendPktPend := SendPacketEntryMap.erase s._sendPktPend packetID }
      processSendExpire_collect messageNumber rest (dropMessage, s)
    else
      processSendExpire_collect messageNumber rest (dropMessage, s)

/-- The outer loop of `processSendExpire` over the snapshot `ourSendPktPend`. -/
def processSendExpire_scan (ourSendPktPend : SendPacketEntryMap) :
    List (PacketID × SendPacketEntry) → UdtSocket_send → Bool × UdtSocket_send
  | [], s => (false, s)
  | (key, thisEntry) :: rest, s =>
    if (SendPacketEntryMap.find s._sendPktPend key).isNone then
      processSendExpire_scan ourSendPktPend rest s
    else if QDeadlineTimer.hasExpired s._clock thisEntry.expireTime then
      let messageNumber := thisEntry.packet._messageNumber
      let dropMessage : MessageDropRequestPacket :=
        { _messageID := messageNumber, _firstPacketID := key, _lastPacketID := key }
      let r := processSendExpire_collect messageNumber ourSendPktPend (dropMessage, s)
      (true, { r.2 with _socket := r.2._socket ++ [SocketCall.sendPacket (Packet.MsgDropReq r.1)] })
    else
      processSendExpire_scan ourSendPktPend rest s

/-- The function `UdtSocket_send::processSendExpire`. -/
def processSendExpire (s : UdtSocket_send) : Bool × UdtSocket_send :=
  if s._sendPktPend.isEmpty then (false, s)
  else processSendExpire_scan s._sendPktPend s._sendPktPend s

/-- The first three statements of `sendDataPacket`: insert the record into the
unacked table, call `onDataPktSent`, hand the packet to the socket. -/
def sendDataPacket_emit (dataPacketEntry : SendPacketEntry) (s : UdtSocket_send) : UdtSocket_send :=
  { s with
    _sendPktPend :=
      SendPacketEntryMap.insert s._sendPktPend dataPacketEntry.packet._packetID dataPacketEntry,
    _socket := s._socket ++
      [SocketCall.onDataPktSent dataPacketEntry.packet._packetID,
       SocketCall.sendPacket (Packet.Data dataPacketEntry.packet)] }

/-- The function `UdtSocket_send::sendDataPacket`. -/
def sendDataPacket (dataPacketEntry : SendPacketEntry) (isResend : Bool) (s : UdtSocket_send) :
    UdtSocket_send :=
  let s := sendDataPacket_emit dataPacketEntry s
  let s := { s with _sendState := reevalSendState s }
  if s._sendState = SendState.Waiting then s
  else if !isResend && decide (dataPacketEntry.packet._packetID % UINT_MODULUS % 16 = 0) then
    (processSendExpire s).2
  else
    let snd := s._sndPeriod
    if snd > 0 then { s with _SNDtimer := some snd, _sendState := SendState.Sending } else s

/-- The loop of `UdtSocket_send::processDataMsg`; the list argument is the
pending-messages FIFO `_pendingMessages`, from which stream mode takes more
content. -/
def processDataMsg_loop (isFirst : Bool) : List MessageEntry → UdtSocket_send → UdtSocket_send
  | pending, s =>
    match s._msgPartialSend with
    | none => s
    | some msgEntry =>
      let state :=
        if s._isDatagram then
          (if isFirst then MessagePosition.First else MessagePosition.Middle)
        else MessagePosition.Only
      let s :=
        if isFirst || !s._isDatagram then
          { s with _messageSequence := SequenceNumber.incr s._messageSequence }
        else s
      let msgLen := msgEntry.content.length
      if msgLen ≥ s._mtu then
        let dataPacket : DataPacket :=
          { _packetID := s._sendPacketID
            _messagePosition := state
            _isOrdered := !s._isDatagram
            _messageNumber := s._messageSequence
            _contents := if msgLen = s._mtu then msgEntry.content else msgEntry.content.take s._mtu }
        let s :=
          if msgLen = s._mtu then { s with _msgPartialSend := none }
          else { s with _msgPartialSend := some { msgEntry with content := msgEntry.content.drop s._mtu } }
        let s := { s with _sendPacketID := PacketID.incr s._sendPacketID }
        sendDataPacket
          { packet := dataPacket, sendTime := msgEntry.sendTime, expireTime := msgEntry.expireTime }
          false s
      else
        let sendRest (state : MessagePosition) : UdtSocket_send :=
          let dataPacket : DataPacket :=
            { _packetID := s._sendPacketID
              _contents := msgEntry.content
              _messagePosition := state
              _isOrdered := !s._isDatagram
              _messageNumber := s._messageSequence }
          let s := { s with _msgPartialSend := none, _sendPacketID := PacketID.incr s._sendPacketID }
          sendDataPacket
            { packet := dataPacket, sendTime := msgEntry.sendTime, expireTime := msgEntry.expireTime }
            false s
        if s._isDatagram then
          sendRest (if isFirst then MessagePosition.Only else MessagePosition.Last)
        else
          match pending with
          | morePending :: rest =>
            processDataMsg_loop isFirst rest
              { s with
                _pendingMessages := rest
                _msgPartialSend :=
                  some { msgEntry with content := msgEntry.content ++ morePending.content } }
          | [] => sendRest state

/-- The function `UdtSocket_send::processDataMsg`. -/
def processDataMsg (isFirst : Bool) (s : UdtSocket_send) : UdtSocket_send :=
  processDataMsg_loop isFirst s._pendingMessages s

/-- Modelled from the spec: the constant `UdtSocket::SYN`, the synchronisation
interval in milliseconds. -/
def SYN : Nat := 10

/-- The constant `MIN_EXP_INTERVAL` of `UdtSocket_send.h`, in milliseconds. -/
def MIN_EXP_INTERVAL : Nat := 300

/-- Modelled from the spec: the constant `MIN_CONNECTION_TIMEOUT` (10 s), in
milliseconds; its declaration is not among the sources. -/
def MIN_CONNECTION_TIMEOUT : Nat := 10000

/-- The function `UdtSocket_send::assertValidSentPktID`. -/
def assertValidSentPktID (packetID : PacketID) (s : UdtSocket_send) : Bool × UdtSocket_send :=
  if PacketID.blindDifference s._sendPacketID packetID < 0 then
    (false, { s with _socket := s._socket ++ [SocketCall.requestShutdown UdtSocketState.Corrupted] })
  else
    (true, s)

/-- The first release loop of `ingestAck`, over the unacked table; every round
erases the key it found, so `fuel` rounds suffice for a table of `fuel` keys. -/
def ingestAck_releasePend (oldAckSeq lastPacketReceived : PacketID) :
    Nat → UdtSocket_send → UdtSocket_send
  | 0, s => s
  | fuel + 1, s =>
    match findFirstEntry (s._sendPktPend.map Prod.fst) oldAckSeq s._sendPacketID with
    | none => s
    | some minLossFind =>
      if PacketID.le lastPacketReceived minLossFind then s
      else
        ingestAck_releasePend oldAckSeq lastPacketReceived fuel
          { s with _sendPktPend := SendPacketEntryMap.erase s._sendPktPend minLossFind }

/-- The second release loop of `ingestAck`, over the loss set. -/
def ingestAck_releaseLoss (oldAckSeq lastPacketReceived : PacketID) :
    Nat → UdtSocket_send → UdtSocket_send
  | 0, s => s
  | fuel + 1, s =>
    match findFirstEntry s._sendLossList oldAckSeq s._sendPacketID with
    | none => s
    | some minLossFind =>
      if PacketID.le lastPacketReceived minLossFind then s
      else
        ingestAck_releaseLoss oldAckSeq lastPacketReceived fuel
          { s with _sendLossList := PacketIDSet.erase s._sendLossList minLossFind }

/-- The first block of `ingestAck`, taken for a Light ACK only; the flag is false
when the block returns from `ingestAck`. -/
def ingestAck_light (ackPacket : ACKPacket) (s : UdtSocket_send) : Bool × UdtSocket_send :=
  if ackPacket._ackType = AckType.Light then
    let lastPacketReceived := ackPacket._lastPacketReceived
    let v := assertValidSentPktID lastPacketReceived s
    if !v.1 then (false, v.2)
    else
      let s := v.2
      let diff := PacketID.blindDifference lastPacketReceived s._lastAckPacketID
      if diff > 0 then
        (true, { s with
          _flowWindowSize := (((s._flowWindowSize : Int) + diff) % (UINT_MODULUS : Int)).toNat
          _lastAckPacketID := lastPacketReceived })
      else (true, s)
  else (true, s)

/-- The ACK2 block of `ingestAck`. -/
def ingestAck_ack2 (ackPacket : ACKPacket) (s : UdtSocket_send) : UdtSocket_send :=
  if QDeadlineTimer.hasExpired s._clock s._ACK2SentTimer && decide (ackPacket._ackSequence = s._sentAck2) then
    { s with
      _sentAck2 := ackPacket._ackSequence
      _socket := s._socket ++ [SocketCall.sendPacket (Packet.Ack2 (ackPacket._ackSequence % UINT_MODULUS))]
      _ACK2SentTimer := some (s._clock + SYN) }
  else s

/-- The function `UdtSocket_send::ingestAck`. -/
def ingestAck (ackPacket : ACKPacket) (_timeReceived : Nat) (s : UdtSocket_send) : UdtSocket_send :=
  let r := ingestAck_light ackPacket s
  if !r.1 then r.2
  else
    let s := ingestAck_ack2 ackPacket r.2
    let lastPacketReceived := ackPacket._lastPacketReceived
    let v := assertValidSentPktID lastPacketReceived s
    if !v.1 then v.2
    else
      let s := v.2
      if PacketID.le s._lastAckPacketID lastPacketReceived then s
      else
        let oldAckSeq := s._lastAckPacketID
        let s := { s with
          _flowWindowSize := ackPacket._availBufferSize
          _lastAckPacketID := lastPacketReceived
          _socket := s._socket ++ [SocketCall.applyRTT ackPacket._rtt] }
        let s :=
          if ackPacket._ackType = AckType.Full then
            { s with _socket := s._socket ++
                [SocketCall.applyReceiveRates ackPacket._packetReceiveRate ackPacket._estimatedLinkCapacity] }
          else s
        let s := { s with _socket := s._socket ++ [SocketCall.onACK lastPacketReceived] }
        let s := ingestAck_releasePend oldAckSeq lastPacketReceived s._sendPktPend.length s
        ingestAck_releaseLoss oldAckSeq lastPacketReceived s._sendLossList.length s

/-- The identifiers visited by `for (span = first; span != last; span++)`. -/
def spanList (first last : PacketID) : List PacketID :=
  (List.range (PacketID.offset first last)).map (fun i => (first + i) % PacketID.MODULUS)

/-- The loop of `ingestNak` over the loss words; the first component is `none`
when the loop returned from `ingestNak`, else the list `newLossList`. -/
def ingestNak_loop : List Nat → List PacketID → UdtSocket_send → Option (List PacketID) × UdtSocket_send
  | [], newLossList, s => (some newLossList, s)
  | thisEntry :: rest, newLossList, s =>
    if thisEntry &&& 0x80000000 ≠ 0 then
      let thisPacketID := PacketID.ofWord thisEntry
      match rest with
      | [] =>
        (none, { s with _socket := s._socket ++ [SocketCall.requestShutdown UdtSocketState.Corrupted] })
      | lastEntry :: rest2 =>
        let v := assertValidSentPktID thisPacketID s
        if !v.1 then (none, v.2)
        else if lastEntry &&& 0x80000000 ≠ 0 then
          (none, { s with _socket := s._socket ++ [SocketCall.requestShutdown UdtSocketState.Corrupted] })
        else
          let lastPacketID := PacketID.ofWord lastEntry
          let v := assertValidSentPktID lastPacketID s
          if !v.1 then (none, v.2)
          else
            let span := spanList thisPacketID lastPacketID
            ingestNak_loop rest2 (newLossList ++ span)
              { s with _sendLossList := span.foldl PacketIDSet.insert s._sendLossList }
    else
      let thisPacketID := PacketID.ofWord thisEntry
      let v := assertValidSentPktID thisPacketID s
      if !v.1 then (none, v.2)
      else
        ingestNak_loop rest (newLossList ++ [thisPacketID])
          { s with _sendLossList := PacketIDSet.insert s._sendLossList thisPacketID }

/-- The function `UdtSocket_send::ingestNak`. -/
def ingestNak (lossData : List Nat) (_timeReceived : Nat) (s : UdtSocket_send) : UdtSocket_send :=
  match ingestNak_loop lossData [] s with
  | (none, s) => s
  | (some newLossList, s) =>
    { s with
      _socket := s._socket ++ [SocketCall.onNAK newLossList]
      _sendState := SendState.ProcessDrop }

/-- Modelled from the spec: the declaration of the atomic `_sndPeriod` is not
among the sources. `setPacketSendPeriod` stores the count of a
`std::chrono::milliseconds` in it, a signed 64-bit integer, so an arithmetic
result `x` on it is kept modulo 2^64 in the range from -2^63 up to 2^63 - 1. -/
def wrapInt64 (x : Int) : Int :=
  (x + 9223372036854775808) % 18446744073709551616 - 9223372036854775808

/-- The function `UdtSocket_send::ingestCongestion`: the product
`_sndPeriod.load() * 1125` is formed in the 64-bit type of the atomic and then
divided by 1000 with truncation. -/
def ingestCongestion (_timeReceived : Nat) (s : UdtSocket_send) : UdtSocket_send :=
  { s with _sndPeriod := Int.tdiv (wrapInt64 (s._sndPeriod * 1125)) 1000 }

/-- The function `UdtSocket_send::resetEXP`. -/
def resetEXP (s : UdtSocket_send) : UdtSocket_send :=
  let s := { s with _lastReceiveTime := s._clock }
  let rtoPeriod := s._rtoPeriod
  let nextExpDurn : Int :=
    if rtoPeriod > 0 then rtoPeriod
    else
      let nextExpDurn : Int :=
        Int.tdiv ((s._expCount : Int) * ((s._rtt : Int) + 4 * (s._rttVariance : Int))) 1000 + (SYN : Int)
      let minExpTime : Int := (s._expCount : Int) * (MIN_EXP_INTERVAL : Int)
      if nextExpDurn < minExpTime then minExpTime else nextExpDurn
  { s with _EXPtimer := some nextExpDurn }

/-- The function `UdtSocket_send::processExpEvent`. -/
def processExpEvent (s : UdtSocket_send) : UdtSocket_send :=
  if decide (s._expCount > 16) && decide (s._clock - s._lastReceiveTime > MIN_CONNECTION_TIMEOUT) then
    { s with _socket := s._socket ++ [SocketCall.requestShutdown UdtSocketState.Timeout] }
  else
    let s :=
      if !s._sendPktPend.isEmpty then
        let s :=
          if s._sendLossList.isEmpty then
            let span := spanList (PacketID.incr s._lastAckPacketID) (PacketID.incr s._sendPacketID)
            { s with _sendLossList := span.foldl PacketIDSet.insert s._sendLossList }
          else s
        { s with
          _socket := s._socket ++ [SocketCall.onTimeout]
          _sendState := SendState.ProcessDrop }
      else
        { s with _socket := s._socket ++ [SocketCall.sendPacket Packet.Keepalive] }
    let s := { s with _expCount := (s._expCount + 1) % UINT_MODULUS }
    resetEXP s

/-- The retry loop of `processSendLoss`. The local `dataPacketEntry` of the source
is a null pointer that no statement assigns; it is the first argument here, and
dereferencing it while it is `none` is the fault `Except.error`, carrying the
state at that point. Every round erases the key it found, so `fuel` rounds
suffice for a loss set of `fuel` keys. -/
def processSendLoss_loop (dataPacketEntry : Option SendPacketEntry) :
    Nat → UdtSocket_send → Except UdtSocket_send (Bool × UdtSocket_send)
  | 0, s => Except.ok (false, s)
  | fuel + 1, s =>
    match findFirstEntry s._sendLossList s._lastAckPacketID s._sendPacketID with
    | none => Except.ok (false, s)
    | some minLossFind =>
      let s := { s with _sendLossList := PacketIDSet.erase s._sendLossList minLossFind }
      match SendPacketEntryMap.find s._sendPktPend minLossFind with
      | none => processSendLoss_loop dataPacketEntry fuel s
      | some _ =>
        match dataPacketEntry with
        | none => Except.error s
        | some entry =>
          if QDeadlineTimer.hasExpired s._clock entry.expireTime then
            processSendLoss_loop dataPacketEntry fuel s
          else
            Except.ok (true, sendDataPacket entry true s)

/-- The function `UdtSocket_send::processSendLoss`. -/
def processSendLoss (s : UdtSocket_send) : Except UdtSocket_send (Bool × UdtSocket_send) :=
  if s._sendLossList.isEmpty || s._sendPktPend.isEmpty then Except.ok (false, s)
  else processSendLoss_loop none s._sendLossList.length s

/-- The statement `if (!processSendLoss() || _sendPacketID % 16 == 0) processSendExpire();`
of `processEvent`, followed by `return true`. -/
def processEvent_resend (s : UdtSocket_send) : Except UdtSocket_send (Bool × UdtSocket_send) :=
  match processSendLoss s with
  | Except.error e => Except.error e
  | Except.ok (r, s) =>
    if !r || decide (s._sendPacketID % UINT_MODULUS % 16 = 0) then
      Except.ok (true, (processSendExpire s).2)
    else
      Except.ok (true, s)

/-- The dispatch of one received packet in `processEvent`. -/
def processEvent_dispatch (recvPacket : ReceivedPacket) (s : UdtSocket_send) : UdtSocket_send :=
  match recvPacket.udtPacket with
  | Packet.Ack ackPacket => ingestAck ackPacket recvPacket.timeReceived s
  | Packet.Nak lossData => ingestNak lossData recvPacket.timeReceived s
  | Packet.Congestion => ingestCongestion recvPacket.timeReceived s
  | _ => s

/-- The part of `processEvent` from the received-packet FIFO to its end. -/
def processEvent_events (s : UdtSocket_send) : Except UdtSocket_send (Bool × UdtSocket_send) :=
  let s :=
    match s._receivedPacketList with
    | recvPacket :: rest =>
      let s := processEvent_dispatch recvPacket { s with _receivedPacketList := rest }
      { s with _sendState := reevalSendState s }
    | [] => s
  if s._flagRecentEXPevent then
    Except.ok (true, processExpEvent { s with _flagRecentEXPevent := false })
  else if s._flagRecentSNDevent then
    let s := { s with _flagRecentSNDevent := false }
    if s._sendState = SendState.Sending then
      processEvent_resend { s with _sendState := reevalSendState s }
    else Except.ok (false, s)
  else Except.ok (false, s)

/-- The part of `processEvent` guarded by `canSendPacket`, and what follows it. -/
def processEvent_send (canSendPacket : Bool) (s : UdtSocket_send) :
    Except UdtSocket_send (Bool × UdtSocket_send) :=
  if canSendPacket then
    match s._msgPartialSend with
    | some _ => Except.ok (true, processDataMsg false s)
    | none =>
      match s._pendingMessages with
      | first :: rest =>
        Except.ok (true, processDataMsg true { s with _msgPartialSend := some first, _pendingMessages := rest })
      | [] =>
        if s._flagSendDisconnect then
          Except.ok (true, { s with
            _flagSendDisconnect := false
            _socket := s._socket ++ [SocketCall.sendPacket Packet.Shutdown] })
        else processEvent_events s
  else processEvent_events s

/-- The two `switch` statements of `processEvent`, on the send state and on the
socket state, and what follows them. -/
def processEvent_switch (s : UdtSocket_send) : Except UdtSocket_send (Bool × UdtSocket_send) :=
  match s._sendState with
  | SendState.ProcessDrop => processEvent_resend { s with _sendState := reevalSendState s }
  | sendState =>
    let canSendPacket := decide (sendState = SendState.Idle)
    match s._socketState with
    | UdtSocketState.Connected => processEvent_send canSendPacket s
    | UdtSocketState.HalfClosed =>
      if s._sendState ≠ SendState.Shutdown then
        Except.ok (true, { s with
          _sendState := SendState.Shutdown
          _flagRecentEXPevent := false
          _EXPtimer := none })
      else processEvent_send canSendPacket s
    | _ => Except.ok (false, { s with _sendState := SendState.Closed })

/-- The function `UdtSocket_send::processEvent`: one pass of the event loop. The
result is `Except.error` when the pass dereferences the null `dataPacketEntry` of
`processSendLoss`. -/
def processEvent (s : UdtSocket_send) : Except UdtSocket_send (Bool × UdtSocket_send) :=
  let s :=
    if s._flagRecentReceivedPacket && decide (s._sendState ≠ SendState.Shutdown) then
      resetEXP { s with _flagRecentReceivedPacket := false, _flagRecentEXPevent := false, _expCount := 1 }
    else s
  processEvent_switch s

/-- The function `UdtSocket_send::startupInit`. -/
def startupInit (s : UdtSocket_send) : UdtSocket_send :=
  resetEXP { s with
    _flagRecentReceivedPacket := false
    _flagRecentEXPevent := false
    _flagRecentSNDevent := false
    _flagSendDisconnect := false
    _lastReceiveTime := s._clock
    _msgPartialSend := none
    _expCount := 1
    _messageSequence := 0
    _sentAck2 := 0
    _ACK2SentTimer := some s._clock
    _receivedPacketList := []
    _sendLossList := []
    _sendPktPend := [] }

/-- The function `UdtSocket_send::sendMessage`. -/
def sendMessage (content : ByteSlice) (expireTime : QDeadlineTimer) (s : UdtSocket_send) :
    UdtSocket_send :=
  let message : MessageEntry := { content := content, sendTime := s._clock, expireTime := expireTime }
  { s with _pendingMessages := s._pendingMessages ++ [message] }

/-- The function `UdtSocket_send::packetReceived`. -/
def packetReceived (udtPacket : Packet) (timeReceived : Nat) (s : UdtSocket_send) : UdtSocket_send :=
  { s with _receivedPacketList := s._receivedPacketList ++ [{ udtPacket := udtPacket, timeReceived := timeReceived }] }

/-- What can happen to a running sender: a call of its public interface, a
timer firing, a setter called by congestion control, a change of the values it
reads from its surroundings, or one pass of the event loop. -/
inductive SenderEvent where
  | sendMessage (content : ByteSlice) (expireTime : QDeadlineTimer)
  | packetReceived (udtPacket : Packet) (timeReceived : Nat)
  | setState (newState : UdtSocketState)
  | resetReceiveTimer
  | EXPevent
  | SNDevent
  | queueDisconnect
  | setPacketSendPeriod (stored : Int)
  | setCongestionWindow (pkt : Nat)
  | setRTOperiod (rto : Int)
  | clockAdvance (ms : Nat)
  | socketRTT (rtt rttVariance : Nat)
  | startupInit
  | processEvent
deriving DecidableEq, Repr

/-- The effect of one event on the sender; `Except.error` is the fault of
`processSendLoss`. -/
def applyEvent (s : UdtSocket_send) : SenderEvent → Except UdtSocket_send UdtSocket_send
  | SenderEvent.sendMessage content expireTime => Except.ok (sendMessage content expireTime s)
  | SenderEvent.packetReceived udtPacket timeReceived => Except.ok (packetReceived udtPacket timeReceived s)
  | SenderEvent.setState newState => Except.ok { s with _socketState := newState }
  | SenderEvent.resetReceiveTimer => Except.ok { s with _flagRecentReceivedPacket := true }
  | SenderEvent.EXPevent => Except.ok { s with _flagRecentEXPevent := true, _EXPtimer := none }
  | SenderEvent.SNDevent => Except.ok { s with _flagRecentSNDevent := true, _SNDtimer := none }
  | SenderEvent.queueDisconnect => Except.ok { s with _flagSendDisconnect := true }
  | SenderEvent.setPacketSendPeriod stored => Except.ok { s with _sndPeriod := stored }
  | SenderEvent.setCongestionWindow pkt => Except.ok { s with _congestWindow := pkt }
  | SenderEvent.setRTOperiod rto => Except.ok { s with _rtoPeriod := rto }
  | SenderEvent.clockAdvance ms => Except.ok { s with _clock := s._clock + ms }
  | SenderEvent.socketRTT rtt rttVariance => Except.ok { s with _rtt := rtt, _rttVariance := rttVariance }
  | SenderEvent.startupInit => Except.ok (startupInit s)
  | SenderEvent.processEvent =>
    match processEvent s with
    | Except.ok r => Except.ok r.2
    | Except.error e => Except.error e

/-- The sender after a sequence of events; a fault ends the run in the state
that was reached. -/
def runEvents : List SenderEvent → UdtSocket_send → UdtSocket_send
  | [], s => s
  | e :: es, s =>
    match applyEvent s e with
    | Except.ok s1 => runEvents es s1
    | Except.error s1 => s1

/-- The fields of `HandshakePacket` that `configureHandshake` reads; `_isDGRAM`
stands for `_sockType == SocketType::DGRAM`. -/
structure HandshakePacket where
  _initPktSeq : PacketID
  _isDGRAM : Bool
  _maxFlowWinSize : Nat
deriving DecidableEq, Repr

/-- The function `UdtSocket_send::configureHandshake`. -/
def configureHandshake (hsPacket : HandshakePacket) (resetSequence : Bool) (mtu : Nat)
    (s : UdtSocket_send) : UdtSocket_send :=
  let s :=
    if resetSequence then
      { s with _lastAckPacketID := hsPacket._initPktSeq, _sendPacketID := hsPacket._initPktSeq }
    else s
  { s with _mtu := mtu, _isDatagram := hsPacket._isDGRAM, _flowWindowSize := hsPacket._maxFlowWinSize }

/-! ## Observations on a run -/

/-- The data packets among the calls `sendPacket` of a call log, oldest first. -/
def dataPackets : List SocketCall → List DataPacket
  | [] => []
  | SocketCall.sendPacket (Packet.Data p) :: rest => p :: dataPackets rest
  | _ :: rest => dataPackets rest

/-- Successive calls of `processDataMsg`: the first with the given `isFirst`,
the later ones with `isFirst = false`, as `processEvent` makes them for one
message. -/
def processDataMsg_calls (isFirst : Bool) : Nat → UdtSocket_send → UdtSocket_send
  | 0, s => s
  | n + 1, s => processDataMsg_calls false n (processDataMsg isFirst s)

/-- The two sending branches of `processEvent` under `canSendPacket`: continue the
message in the partial-send slot, else take the head of the pending FIFO into
the slot and send its first packet. -/
def fragmentStep (s : UdtSocket_send) : UdtSocket_send :=
  match s._msgPartialSend with
  | some _ => processDataMsg false s
  | none =>
    match s._pendingMessages with
    | first :: rest => processDataMsg true { s with _msgPartialSend := some first, _pendingMessages := rest }
    | [] => s

/-- Repeated sending steps. -/
def fragmentSteps : Nat → UdtSocket_send → UdtSocket_send
  | 0, s => s
  | n + 1, s => fragmentSteps n (fragmentStep s)

/-- A message entry with the given content that never expires. -/
def MessageEntry.ofContent (content : ByteSlice) : MessageEntry :=
  { content := content, sendTime := 0, expireTime := none }

/-- A sent-packet record for a packet that never expires. -/
def SendPacketEntry.ofPacket (packet : DataPacket) : SendPacketEntry :=
  { packet := packet, sendTime := 0, expireTime := none }

/-- A sender about to send PacketID 100 with message number 0, the start of
the end-to-end scenarios of the spec. -/
def scenarioStart (isDatagram : Bool) (mtu : Nat) : UdtSocket_send :=
  { UdtSocket_send.new with
    _socketState := UdtSocketState.Connected
    _sendState := SendState.Idle
    _sendPacketID := 100
    _lastAckPacketID := 100
    _messageSequence := 0
    _mtu := mtu
    _isDatagram := isDatagram }

/-- The data packets that datagram fragmentation sends in at most `n` calls for
a message with content `content`: the reference list used in the proofs about
`processDataMsg_calls`. -/
def datagramFragments (mtu : Nat) (messageNumber : SequenceNumber) :
    Nat → Bool → PacketID → ByteSlice → List DataPacket
  | 0, _, _, _ => []
  | n + 1, isFirst, id, content =>
    { _packetID := id
      _messagePosition :=
        if content.length < mtu then
          (if isFirst then MessagePosition.Only else MessagePosition.Last)
        else (if isFirst then MessagePosition.First else MessagePosition.Middle)
      _isOrdered := false
      _messageNumber := messageNumber
      _contents := content.take mtu }
    :: (if mtu < content.length then
          datagramFragments mtu messageNumber n false (PacketID.incr id) (content.drop mtu)
        else [])

/-- The datagram scenario of the spec: a 2500-byte message in the partial-send
slot, MTU 1000, next PacketID 100, message number 0. -/
def datagramScenario : UdtSocket_send :=
  { scenarioStart true 1000 with
    _msgPartialSend := some (MessageEntry.ofContent (List.replicate 2500 0)) }

/-- The stream scenario of the spec: a 3000-byte message in the partial-send
slot, MTU 1000, next PacketID 100, message number 0. -/
def streamScenario : UdtSocket_send :=
  { scenarioStart false 1000 with
    _msgPartialSend := some (MessageEntry.ofContent (List.replicate 3000 0)) }

/-- The bytes not yet handed to the socket: the content of the partial-send
slot followed by the contents of the pending FIFO, in order. -/
def unsentContent (s : UdtSocket_send) : ByteSlice :=
  (match s._msgPartialSend with
    | some m => m.content
    | none => []) ++ (s._pendingMessages.map (fun m => m.content)).flatten

/-- A bound on the number of sending steps that the unsent content still needs. -/
def unsentWeight (s : UdtSocket_send) : Nat :=
  (unsentContent s).length + s._pendingMessages.length + (if s._msgPartialSend.isSome then 1 else 0)

/-- A Light ACK with the given ACK sequence number, last-received PacketID and
advertised buffer size. -/
def lightAck (ackSequence : SequenceNumber) (lastPacketReceived : PacketID) (availBufferSize : Nat) :
    ACKPacket :=
  { _ackType := AckType.Light, _ackSequence := ackSequence, _lastPacketReceived := lastPacketReceived,
    _availBufferSize := availBufferSize, _rtt := 0, _packetReceiveRate := 0,
    _estimatedLinkCapacity := 0 }

/-- The record of a sent stream packet with a 1000-byte payload. -/
def sentPacket (id : PacketID) (messageNumber : SequenceNumber) : PacketID × SendPacketEntry :=
  (id, SendPacketEntry.ofPacket
    { _packetID := id, _messagePosition := MessagePosition.Only, _isOrdered := true,
      _messageNumber := messageNumber, _contents := List.replicate 1000 0 })

/-- The sender after the stream scenario: the packets 100, 101, 102 sent and
unacknowledged, acked frontier 100, flow window 16. -/
def threeSent : UdtSocket_send :=
  { scenarioStart false 1000 with
    _sendState := SendState.Waiting
    _sendPacketID := 103
    _messageSequence := 3
    _sendPktPend := [sentPacket 100 1, sentPacket 101 2, sentPacket 102 3]
    _socket :=
      [SocketCall.onDataPktSent 100, SocketCall.sendPacket (Packet.Data (sentPacket 100 1).2.packet),
       SocketCall.onDataPktSent 101, SocketCall.sendPacket (Packet.Data (sentPacket 101 2).2.packet),
       SocketCall.onDataPktSent 102, SocketCall.sendPacket (Packet.Data (sentPacket 102 3).2.packet)] }

/-- The step from `s` to `t` sends no data packet and keeps the send PacketID. -/
def Quiet (s t : UdtSocket_send) : Prop :=
  dataPackets t._socket = dataPackets s._socket ∧ t._sendPacketID = s._sendPacketID

/-- The step from `s` to `t` sends no data packet, or sends exactly one, which
carries the send PacketID of `s`, and moves the send PacketID to its successor. -/
def SendsAtMostOne (s t : UdtSocket_send) : Prop :=
  Quiet s t
  ∨ ∃ p, dataPackets t._socket = dataPackets s._socket ++ [p]
      ∧ p._packetID = s._sendPacketID ∧ t._sendPacketID = PacketID.incr s._sendPacketID

/-- The state in which a call that may fault ends. -/
def outcomeState (r : Except UdtSocket_send (Bool × UdtSocket_send)) : UdtSocket_send :=
  match r with
  | Except.ok x => x.2
  | Except.error e => e

/-- The PacketIDs of the data packets handed to the socket, oldest first. -/
def sentPacketIDs (s : UdtSocket_send) : List PacketID :=
  (dataPackets s._socket).map (fun p => p._packetID)

/-- A Full ACK with the given ACK sequence number, last-received PacketID and
advertised buffer size. -/
def fullAck (ackSequence : SequenceNumber) (lastPacketReceived : PacketID) (availBufferSize : Nat) :
    ACKPacket :=
  { _ackType := AckType.Full, _ackSequence := ackSequence, _lastPacketReceived := lastPacketReceived,
    _availBufferSize := availBufferSize, _rtt := 0, _packetReceiveRate := 0,
    _estimatedLinkCapacity := 0 }

/-- The calls `applyRTT`, `applyReceiveRates` and `onACK` of a call log. -/
def ackNotifications (calls : List SocketCall) : List SocketCall :=
  calls.filter (fun c =>
    match c with
    | SocketCall.applyRTT _ => true
    | SocketCall.applyReceiveRates _ _ => true
    | SocketCall.onACK _ => true
    | _ => false)

/-- The reasons of the calls `requestShutdown` of a call log. -/
def shutdownRequests : List SocketCall → List UdtSocketState
  | [] => []
  | SocketCall.requestShutdown reason :: rest => reason :: shutdownRequests rest
  | _ :: rest => shutdownRequests rest

/-- The identifiers stored in the unacked table. -/
def unackedIDs (s : UdtSocket_send) : List PacketID := s._sendPktPend.map Prod.fst

/-- A loss word of a NAK is a range start when its high bit is set. -/
def isRangeStart (w : Nat) : Prop := w &&& 0x80000000 ≠ 0

instance (w : Nat) : Decidable (isRangeStart w) := by
  unfold isRangeStart
  infer_instance

/-- The identifiers that the loop of `ingestNak` appends to `newLossList` for a
loss list that it decodes to its end. -/
def nakIdentifiers : List Nat → List PacketID
  | [] => []
  | thisEntry :: rest =>
    if thisEntry &&& 0x80000000 ≠ 0 then
      match rest with
      | [] => []
      | lastEntry :: rest2 =>
        spanList (PacketID.ofWord thisEntry) (PacketID.ofWord lastEntry) ++ nakIdentifiers rest2
    else PacketID.ofWord thisEntry :: nakIdentifiers rest

/-- The loss list holds a range start that is its last word or that is followed
at once by another range start. -/
def NakMalformed (l : List Nat) : Prop :=
  ∃ pre w post, l = pre ++ w :: post ∧ isRangeStart w
    ∧ (post = [] ∨ ∃ w2 post2, post = w2 :: post2 ∧ isRangeStart w2)

/-- The calls `onNAK` of a call log, by their argument. -/
def nakNotifications : List SocketCall → List (List PacketID)
  | [] => []
  | SocketCall.onNAK ids :: rest => ids :: nakNotifications rest
  | _ :: rest => nakNotifications rest

/-- A call that may fault has faulted. -/
def faulted (r : Except UdtSocket_send (Bool × UdtSocket_send)) : Bool :=
  match r with
  | Except.ok _ => false
  | Except.error _ => true

/-- The Boolean a call that may fault returns, `none` when it faults. -/
def returned (r : Except UdtSocket_send (Bool × UdtSocket_send)) : Option Bool :=
  match r with
  | Except.ok x => some x.1
  | Except.error _ => none

/-- The handshake of the wrap-around scenario: initial sequence `2^31 - 2`,
datagram mode, flow window 16. -/
def wrapHandshake : HandshakePacket :=
  { _initPktSeq := 2147483646, _isDGRAM := true, _maxFlowWinSize := 16 }

/-- The sender of the wrap-around scenario: after `configureHandshake` with
`resetSequence = true`, five one-byte messages queued and five sending steps. -/
def wrapSent : UdtSocket_send :=
  fragmentSteps 5
    ([[1], [2], [3], [4], [5]].foldl (fun s content => sendMessage content none s)
      (configureHandshake wrapHandshake true 1000 (scenarioStart false 1500)))

/-- The condition under which `processExpEvent` gives the connection up. -/
def expTimedOut (s : UdtSocket_send) : Prop :=
  s._expCount > 16 ∧ s._clock - s._lastReceiveTime > MIN_CONNECTION_TIMEOUT

instance (s : UdtSocket_send) : Decidable (expTimedOut s) := by
  unfold expTimedOut
  infer_instance

/-- The PacketIDs of the records of an unacked table that belong to message
`messageNumber`, in table order. -/
def messagePacketIDs (messageNumber : SequenceNumber) (pend : SendPacketEntryMap) : List PacketID :=
  (pend.filter (fun kv => decide (kv.2.packet._messageNumber = messageNumber))).map Prod.fst

/-- A sent-packet record of message `messageNumber` with a two-byte payload and
the given deadline. -/
def sentRecord (id : PacketID) (messageNumber : SequenceNumber) (expireTime : QDeadlineTimer) :
    PacketID × SendPacketEntry :=
  (id,
    { packet :=
        { _packetID := id, _messagePosition := MessagePosition.Middle, _isOrdered := false,
          _messageNumber := messageNumber, _contents := [0, 0] }
      sendTime := 0
      expireTime := expireTime })

/-- A sender at clock 10 whose unacked table holds 100 and 101 of message 1,
with a deadline at 5, and 102 of message 2 without a deadline; 101 and 102 are
in the loss set. -/
def expiredSent : UdtSocket_send :=
  { scenarioStart true 2 with
    _clock := 10
    _sendState := SendState.Waiting
    _sendPacketID := 103
    _messageSequence := 2
    _sendPktPend := [sentRecord 100 1 (some 5), sentRecord 101 1 (some 5), sentRecord 102 2 none]
    _sendLossList := [101, 102] }

/-- The number of Shutdown packets handed to the socket in a call log. -/
def shutdownPackets : List SocketCall → Nat
  | [] => 0
  | SocketCall.sendPacket Packet.Shutdown :: rest => shutdownPackets rest + 1
  | _ :: rest => shutdownPackets rest

/-- The step from `s` to `t` leaves the pending-messages FIFO, the partial-send
slot and the send-disconnect flag as they were and hands no Shutdown packet to
the socket. -/
def Steady (s t : UdtSocket_send) : Prop :=
  t._pendingMessages = s._pendingMessages
  ∧ t._msgPartialSend = s._msgPartialSend
  ∧ t._flagSendDisconnect = s._flagSendDisconnect
  ∧ shutdownPackets t._socket = shutdownPackets s._socket

/-- A sender on a HalfClosed socket, Idle, with one message in the pending FIFO
and one in the partial-send slot. -/
def halfClosedQueued : UdtSocket_send :=
  { scenarioStart false 1000 with
    _socketState := UdtSocketState.HalfClosed
    _msgPartialSend := some (MessageEntry.ofContent [1, 2, 3])
    _pendingMessages := [MessageEntry.ofContent [4, 5]] }

/-- Every member of the loss set is a key of the unacked table. -/
def LossInTable (s : UdtSocket_send) : Prop :=
  ∀ k ∈ s._sendLossList, k ∈ unackedIDs s

instance (s : UdtSocket_send) : Decidable (LossInTable s) := by
  unfold LossInTable
  infer_instance

/-- The release loops of `ingestAck` read on a list of keys alone: the loop over
the unacked table acts like this on its keys, the loop over the loss set like
this on its members. -/
def releaseKeys (oldAckSeq lastPacketReceived high : PacketID) : Nat → List PacketID → List PacketID
  | 0, keys => keys
  | fuel + 1, keys =>
    match findFirstEntry keys oldAckSeq high with
    | none => keys
    | some minLossFind =>
      if PacketID.le lastPacketReceived minLossFind then keys
      else
        releaseKeys oldAckSeq lastPacketReceived high fuel
          (keys.filter (fun x => !decide (x = minLossFind)))

/-- The key `x` lies in the window `(low, high]` of `findFirstEntry`. -/
def inWindow (low high x : PacketID) : Bool :=
  decide (0 < PacketID.offset low x) && decide (PacketID.offset low x ≤ PacketID.offset low high)

/-- The key `x` is released by the loop `releaseKeys` over `keys`: it lies in
the window, and no key of the window up to it stops the loop. -/
def released (oldAckSeq lastPacketReceived high : PacketID) (keys : List PacketID) (x : PacketID) :
    Prop :=
  inWindow oldAckSeq high x = true
  ∧ ∀ y ∈ keys, inWindow oldAckSeq high y = true →
      PacketID.offset oldAckSeq y ≤ PacketID.offset oldAckSeq x →
      PacketID.le lastPacketReceived y = false

instance (oldAckSeq lastPacketReceived high : PacketID) (keys : List PacketID) (x : PacketID) :
    Decidable (released oldAckSeq lastPacketReceived high keys x) := by
  unfold released
  infer_instance

/-- The test of `run` after a pass: `processEvent` returned false and the send
state is Closed, on which `run` returns and the sender thread ends. -/
def run_returns (s : UdtSocket_send) : Bool :=
  decide (returned (processEvent s) = some false)
    && decide ((outcomeState (processEvent s))._sendState = SendState.Closed)

/-- A sender as `run` finds it on a Connected socket: the constructor's state,
the socket state set by `setState(Connected)`, and `startupInit` executed. -/
def freshSender : UdtSocket_send :=
  startupInit { UdtSocket_send.new with _socketState := UdtSocketState.Connected }

/-- The sender after 100, 101, 102 with two NAK packets in the received-packet
FIFO, for 101 and for 102. -/
def twoNaksQueued : UdtSocket_send :=
  packetReceived (Packet.Nak [102]) 0 (packetReceived (Packet.Nak [101]) 0 threeSent)

/-- The additional-info words of the ACK2 packets handed to the socket, oldest
first. -/
def ack2Packets : List SocketCall → List Nat
  | [] => []
  | SocketCall.sendPacket (Packet.Ack2 info) :: rest => info :: ack2Packets rest
  | _ :: rest => ack2Packets rest

/-- The test of the ACK2 block of `ingestAck`: the ACK2-sent deadline has
expired and the sequence number of the ACK equals `_sentAck2`. -/
def ack2Due (ackPacket : ACKPacket) (s : UdtSocket_send) : Prop :=
  QDeadlineTimer.hasExpired s._clock s._ACK2SentTimer = true ∧ ackPacket._ackSequence = s._sentAck2

instance (ackPacket : ACKPacket) (s : UdtSocket_send) : Decidable (ack2Due ackPacket s) := by
  unfold ack2Due
  infer_instance

/-- The step from `s` to `t` hands no ACK2 packet to the socket and leaves the
ACK2-sent deadline, `_sentAck2` and the clock as they were. -/
def SameAck2 (s t : UdtSocket_send) : Prop :=
  ack2Packets t._socket = ack2Packets s._socket
  ∧ t._ACK2SentTimer = s._ACK2SentTimer
  ∧ t._sentAck2 = s._sentAck2
  ∧ t._clock = s._clock

/-- The loss words `rest` begin with an entry at which the loop of `ingestNak`
returns: a range start that is the last word, a word whose identifier is ahead
of the send PacketID, or a range start followed by a range start or by such a
word. -/
def nakOffending (s : UdtSocket_send) : List Nat → Prop
  | [] => False
  | [w] => isRangeStart w ∨ PacketID.blindDifference s._sendPacketID (PacketID.ofWord w) < 0
  | w :: w2 :: _ =>
    if isRangeStart w then
      PacketID.blindDifference s._sendPacketID (PacketID.ofWord w) < 0
      ∨ isRangeStart w2
      ∨ PacketID.blindDifference s._sendPacketID (PacketID.ofWord w2) < 0
    else PacketID.blindDifference s._sendPacketID (PacketID.ofWord w) < 0

/-- One firing of the EXP timer `ms` milliseconds after the last event, and the
`processEvent` pass that handles it. -/
def expRound (ms : Nat) : List SenderEvent :=
  [SenderEvent.clockAdvance ms, SenderEvent.EXPevent, SenderEvent.processEvent]

/-- The first `n` firings of the EXP timer with no peer contact and no RTO
override: the `k`-th comes `k * 300` ms after the one before, the interval for
which `resetEXP` arms the timer at `_expCount = k` with a small RTT. -/
def expRounds : Nat → List SenderEvent
  | 0 => []
  | n + 1 => expRounds n ++ expRound ((n + 1) * 300)

/-- A started sender on a Connected socket, Idle, with nothing sent, at clock 0. -/
def idleSender : UdtSocket_send := startupInit (scenarioStart false 1000)

/-! ## Theorems -/

/-! ### Frame lemmas -/

theorem dataPackets_append (a b : List SocketCall) :
    dataPackets (a ++ b) = dataPackets a ++ dataPackets b := by
  induction a with
  | nil => rfl
  | cons c rest ih =>
    cases c with
    | sendPacket p => cases p <;> simp [dataPackets, ih]
    | _ => simp [dataPackets, ih]

theorem processSendExpire_collect_frame (n : SequenceNumber) (l : List (PacketID × SendPacketEntry))
    (d : MessageDropRequestPacket) (s : UdtSocket_send) :
    ∃ pend loss, (processSendExpire_collect n l (d, s)).2 =
      { s with _sendPktPend := pend, _sendLossList := loss } := by
  induction l generalizing d s with
  | nil => exact ⟨s._sendPktPend, s._sendLossList, rfl⟩
  | cons kv rest ih =>
    obtain ⟨k, e⟩ := kv
    simp only [processSendExpire_collect]
    split_ifs
    all_goals first
      | (obtain ⟨pend, loss, h⟩ := ih d s; exact ⟨pend, loss, h⟩)
      | (obtain ⟨pend, loss, h⟩ := ih _ _; rw [h]; exact ⟨pend, loss, rfl⟩)

theorem processSendExpire_scan_frame (snap l : List (PacketID × SendPacketEntry)) (s : UdtSocket_send) :
    ∃ pend loss extra, (processSendExpire_scan snap l s).2 =
      { s with _sendPktPend := pend, _sendLossList := loss, _socket := s._socket ++ extra }
      ∧ dataPackets extra = [] := by
  induction l generalizing s with
  | nil => exact ⟨s._sendPktPend, s._sendLossList, [], by simp [processSendExpire_scan], rfl⟩
  | cons kv rest ih =>
    obtain ⟨k, e⟩ := kv
    simp only [processSendExpire_scan]
    split_ifs
    · exact ih s
    · obtain ⟨pend, loss, h⟩ := processSendExpire_collect_frame e.packet._messageNumber snap
        { _messageID := e.packet._messageNumber, _firstPacketID := k, _lastPacketID := k } s
      refine ⟨pend, loss, [SocketCall.sendPacket (Packet.MsgDropReq (processSendExpire_collect
        e.packet._messageNumber snap
        ({ _messageID := e.packet._messageNumber, _firstPacketID := k, _lastPacketID := k }, s)).1)], ?_, rfl⟩
      simp only [h]
    · exact ih s

theorem processSendExpire_frame (s : UdtSocket_send) :
    ∃ pend loss extra, (processSendExpire s).2 =
      { s with _sendPktPend := pend, _sendLossList := loss, _socket := s._socket ++ extra }
      ∧ dataPackets extra = [] := by
  unfold processSendExpire
  split_ifs
  · exact ⟨s._sendPktPend, s._sendLossList, [], by simp, rfl⟩
  · exact processSendExpire_scan_frame _ _ s

theorem sendDataPacket_frame (e : SendPacketEntry) (r : Bool) (s : UdtSocket_send) :
    ∃ pend loss st timer extra, sendDataPacket e r s =
      { s with
        _sendPktPend := pend, _sendLossList := loss, _sendState := st, _SNDtimer := timer,
        _socket := s._socket ++ ([SocketCall.onDataPktSent e.packet._packetID,
          SocketCall.sendPacket (Packet.Data e.packet)] ++ extra) }
      ∧ dataPackets extra = [] := by
  unfold sendDataPacket
  simp only []
  split_ifs with h1 h2 h3
  · exact ⟨_, _, _, _, [], rfl, rfl⟩
  · obtain ⟨pend, loss, extra, h, hx⟩ := processSendExpire_frame
      { sendDataPacket_emit e s with _sendState := reevalSendState (sendDataPacket_emit e s) }
    refine ⟨pend, loss, reevalSendState (sendDataPacket_emit e s), s._SNDtimer, extra, ?_, hx⟩
    rw [h]
    simp only [sendDataPacket_emit, List.append_assoc]
  · exact ⟨_, _, _, _, [], rfl, rfl⟩
  · exact ⟨_, _, _, _, [], rfl, rfl⟩

theorem processDataMsg_datagram (isFirst : Bool) (s : UdtSocket_send) (m : MessageEntry)
    (hd : s._isDatagram = true) (hs : s._msgPartialSend = some m) :
    processDataMsg isFirst s =
      sendDataPacket
        { packet :=
            { _packetID := s._sendPacketID
              _messagePosition :=
                if m.content.length < s._mtu then
                  (if isFirst then MessagePosition.Only else MessagePosition.Last)
                else (if isFirst then MessagePosition.First else MessagePosition.Middle)
              _isOrdered := false
              _messageNumber :=
                if isFirst then SequenceNumber.incr s._messageSequence else s._messageSequence
              _contents := m.content.take s._mtu }
          sendTime := m.sendTime
          expireTime := m.expireTime }
        false
        { s with
          _messageSequence :=
            if isFirst then SequenceNumber.incr s._messageSequence else s._messageSequence
          _msgPartialSend :=
            if s._mtu < m.content.length then some { m with content := m.content.drop s._mtu } else none
          _sendPacketID := PacketID.incr s._sendPacketID } := by
  unfold processDataMsg
  rw [processDataMsg_loop]
  simp only [hs, hd]
  rcases Nat.lt_trichotomy m.content.length s._mtu with h | h | h
  · have h1 : ¬ (m.content.length ≥ s._mtu) := by omega
    have h2 : ¬ (s._mtu < m.content.length) := by omega
    have h3 : List.take s._mtu m.content = m.content := List.take_of_length_le (by omega)
    cases isFirst <;> simp [hd, h, h1, h2, h3]
  · have h2 : ¬ (s._mtu < m.content.length) := by omega
    have h3 : List.take s._mtu m.content = m.content := List.take_of_length_le (by omega)
    have h4 : ¬ (m.content.length < s._mtu) := by omega
    cases isFirst <;> simp [hd, h, h2, h3, h4]
  · have h1 : (m.content.length ≥ s._mtu) := by omega
    have h4 : ¬ (m.content.length < s._mtu) := by omega
    have h5 : ¬ (m.content.length = s._mtu) := by omega
    cases isFirst <;> simp [hd, h, h1, h4, h5]


theorem processDataMsg_none (isFirst : Bool) (s : UdtSocket_send) (hs : s._msgPartialSend = none) :
    processDataMsg isFirst s = s := by
  unfold processDataMsg
  rw [processDataMsg_loop]
  simp only [hs]

theorem processDataMsg_calls_none (isFirst : Bool) (n : Nat) (s : UdtSocket_send)
    (hs : s._msgPartialSend = none) : processDataMsg_calls isFirst n s = s := by
  induction n generalizing isFirst with
  | zero => rfl
  | succ n ih => rw [processDataMsg_calls, processDataMsg_none isFirst s hs, ih]

theorem processDataMsg_datagram_frame (isFirst : Bool) (s : UdtSocket_send) (m : MessageEntry)
    (hd : s._isDatagram = true) (hs : s._msgPartialSend = some m) :
    ∃ pend loss st timer extra, processDataMsg isFirst s =
      { s with
        _messageSequence :=
          if isFirst then SequenceNumber.incr s._messageSequence else s._messageSequence
        _msgPartialSend :=
          if s._mtu < m.content.length then some { m with content := m.content.drop s._mtu } else none
        _sendPacketID := PacketID.incr s._sendPacketID
        _sendPktPend := pend, _sendLossList := loss, _sendState := st, _SNDtimer := timer
        _socket := s._socket ++ ([SocketCall.onDataPktSent s._sendPacketID,
          SocketCall.sendPacket (Packet.Data
            { _packetID := s._sendPacketID
              _messagePosition :=
                if m.content.length < s._mtu then
                  (if isFirst then MessagePosition.Only else MessagePosition.Last)
                else (if isFirst then MessagePosition.First else MessagePosition.Middle)
              _isOrdered := false
              _messageNumber :=
                if isFirst then SequenceNumber.incr s._messageSequence else s._messageSequence
              _contents := m.content.take s._mtu })] ++ extra) }
      ∧ dataPackets extra = [] := by
  rw [processDataMsg_datagram isFirst s m hd hs]
  exact sendDataPacket_frame _ _ _

theorem processDataMsg_datagram_step (isFirst : Bool) (s : UdtSocket_send) (m : MessageEntry)
    (hd : s._isDatagram = true) (hs : s._msgPartialSend = some m) :
    (processDataMsg isFirst s)._isDatagram = true
    ∧ (processDataMsg isFirst s)._mtu = s._mtu
    ∧ (processDataMsg isFirst s)._pendingMessages = s._pendingMessages
    ∧ (processDataMsg isFirst s)._sendPacketID = PacketID.incr s._sendPacketID
    ∧ (processDataMsg isFirst s)._messageSequence =
        (if isFirst then SequenceNumber.incr s._messageSequence else s._messageSequence)
    ∧ (processDataMsg isFirst s)._msgPartialSend =
        (if s._mtu < m.content.length then some { m with content := m.content.drop s._mtu } else none)
    ∧ dataPackets (processDataMsg isFirst s)._socket = dataPackets s._socket ++
        [{ _packetID := s._sendPacketID
           _messagePosition :=
             if m.content.length < s._mtu then
               (if isFirst then MessagePosition.Only else MessagePosition.Last)
             else (if isFirst then MessagePosition.First else MessagePosition.Middle)
           _isOrdered := false
           _messageNumber :=
             if isFirst then SequenceNumber.incr s._messageSequence else s._messageSequence
           _contents := m.content.take s._mtu }] := by
  obtain ⟨pend, loss, st, timer, extra, hfr, hx⟩ := processDataMsg_datagram_frame isFirst s m hd hs
  rw [hfr]
  refine ⟨hd, rfl, rfl, rfl, rfl, rfl, ?_⟩
  simp [dataPackets_append, dataPackets, hx]

theorem processDataMsg_calls_datagram (n : Nat) (isFirst : Bool) (s : UdtSocket_send) (m : MessageEntry)
    (hd : s._isDatagram = true) (hs : s._msgPartialSend = some m) :
    dataPackets (processDataMsg_calls isFirst n s)._socket =
        dataPackets s._socket ++
          datagramFragments s._mtu
            (if isFirst then SequenceNumber.incr s._messageSequence else s._messageSequence)
            n isFirst s._sendPacketID m.content
      ∧ (processDataMsg_calls isFirst n s)._msgPartialSend =
          (if n = 0 ∨ n * s._mtu < m.content.length then
            some { m with content := m.content.drop (n * s._mtu) } else none)
      ∧ (processDataMsg_calls isFirst n s)._messageSequence =
          (if n = 0 then s._messageSequence
           else if isFirst then SequenceNumber.incr s._messageSequence else s._messageSequence) := by
  induction n generalizing isFirst s m with
  | zero => simp [processDataMsg_calls, datagramFragments, hs]
  | succ n ih =>
    rw [processDataMsg_calls]
    obtain ⟨e1, e2, -, e4, e5, e6, e7⟩ := processDataMsg_datagram_step isFirst s m hd hs
    by_cases hlt : s._mtu < m.content.length
    · have hmul : (n + 1) * s._mtu < m.content.length ↔
          n = 0 ∨ n * s._mtu < m.content.length - s._mtu := by
        rcases Nat.eq_zero_or_pos n with h0 | h0
        · subst h0; simp; omega
        · constructor
          · intro h; right; rw [Nat.add_mul] at h; omega
          · intro h
            rcases h with h | h
            · omega
            · rw [Nat.add_mul]; omega
      rw [if_pos hlt] at e6
      obtain ⟨h1, h2, h3⟩ := ih false (processDataMsg isFirst s) _ e1 e6
      rw [h1, h2, h3, e7, e2, e4, e5]
      refine ⟨?_, ?_, ?_⟩
      · simp [datagramFragments, hlt]
      · simp only [List.length_drop, List.drop_drop, hmul]
        simp [Nat.add_mul, Nat.add_comm]
      · simp
    · rw [if_neg hlt] at e6
      rw [processDataMsg_calls_none false n _ e6, e7, e6, e5]
      refine ⟨?_, ?_, ?_⟩
      · simp [datagramFragments, hlt]
      · have : ¬ ((n + 1) * s._mtu < m.content.length) := by
          rw [Nat.add_mul]; omega
        simp [this]
      · simp

/-! ### The reference list of datagram fragments -/

theorem datagramFragments_mem (mtu : Nat) (num : SequenceNumber) (n : Nat) (isFirst : Bool)
    (id : PacketID) (c : ByteSlice) :
    ∀ p ∈ datagramFragments mtu num n isFirst id c,
      p._messageNumber = num ∧ p._isOrdered = false ∧ p._contents.length ≤ mtu := by
  induction n generalizing isFirst id c with
  | zero => simp [datagramFragments]
  | succ n ih =>
    intro p hp
    simp only [datagramFragments, List.mem_cons] at hp
    rcases hp with hp | hp
    · subst hp
      refine ⟨rfl, rfl, ?_⟩
      simp only [List.length_take]
      omega
    · split_ifs at hp
      · exact ih _ _ _ p hp
      · simp at hp

theorem datagramFragments_ids (mtu : Nat) (num : SequenceNumber) (n : Nat) (isFirst : Bool)
    (id : PacketID) (c : ByteSlice) :
    (datagramFragments mtu num n isFirst id c).map (fun p => p._packetID) =
      (List.range (datagramFragments mtu num n isFirst id c).length).map
        (fun i => PacketID.incr^[i] id) := by
  induction n generalizing isFirst id c with
  | zero => simp [datagramFragments]
  | succ n ih =>
    by_cases h : mtu < c.length
    · simp only [datagramFragments, h, if_true, List.map_cons, List.length_cons,
        List.range_succ_eq_map, List.map_map, ih]
      simp [Function.comp_def]
    · simp [datagramFragments, h]

theorem datagramFragments_flatten (mtu : Nat) (num : SequenceNumber) (n : Nat) (isFirst : Bool)
    (id : PacketID) (c : ByteSlice) :
    ((datagramFragments mtu num n isFirst id c).map (fun p => p._contents)).flatten =
      c.take (n * mtu) := by
  induction n generalizing isFirst id c with
  | zero => simp [datagramFragments]
  | succ n ih =>
    by_cases h : mtu < c.length
    · simp only [datagramFragments, h, if_true, List.map_cons, List.flatten_cons, ih]
      rw [Nat.add_mul, Nat.one_mul, Nat.add_comm, List.take_add]
    · simp only [datagramFragments, h, if_false, List.map_cons, List.map_nil, List.flatten_cons,
        List.flatten_nil, List.append_nil]
      rw [List.take_of_length_le (by omega), List.take_of_length_le]
      rw [Nat.add_mul]; omega

theorem datagramFragments_length (mtu : Nat) (num : SequenceNumber) (n : Nat) (isFirst : Bool)
    (id : PacketID) (c : ByteSlice) (hM : 1 ≤ mtu) (hL : 1 ≤ c.length) :
    (datagramFragments mtu num n isFirst id c).length = min n ((c.length + mtu - 1) / mtu) := by
  induction n generalizing isFirst id c with
  | zero => simp [datagramFragments]
  | succ n ih =>
    by_cases h : mtu < c.length
    · simp only [datagramFragments, h, if_true, List.length_cons]
      rw [ih false _ _ (by simp only [List.length_drop]; omega)]
      simp only [List.length_drop]
      have hk : (c.length + mtu - 1) / mtu = (c.length - mtu + mtu - 1) / mtu + 1 := by
        have : c.length + mtu - 1 = (c.length - mtu + mtu - 1) + mtu := by omega
        rw [this, Nat.add_div_right _ (by omega)]
      rw [hk]
      omega
    · have hk : (c.length + mtu - 1) / mtu = 1 := by
        have h1 : c.length + mtu - 1 = (c.length - 1) + mtu := by omega
        rw [h1, Nat.add_div_right _ (by omega), Nat.div_eq_of_lt (by omega)]
      rw [hk]
      simp [datagramFragments, h]

theorem datagramFragments_nonempty (mtu : Nat) (num : SequenceNumber) (n : Nat) (isFirst : Bool)
    (id : PacketID) (c : ByteSlice) (hM : 1 ≤ mtu) (hL : 1 ≤ c.length) :
    ∀ p ∈ datagramFragments mtu num n isFirst id c, 1 ≤ p._contents.length := by
  induction n generalizing isFirst id c with
  | zero => simp [datagramFragments]
  | succ n ih =>
    intro p hp
    simp only [datagramFragments, List.mem_cons] at hp
    rcases hp with hp | hp
    · subst hp
      simp only [List.length_take]
      omega
    · split_ifs at hp with h
      · exact ih false _ _ (by simp only [List.length_drop]; omega) p hp
      · simp at hp

theorem processDataMsg_datagram_exact_fit (isFirst : Bool) (s : UdtSocket_send) (m : MessageEntry)
    (hd : s._isDatagram = true) (hs : s._msgPartialSend = some m)
    (hlen : m.content.length = s._mtu) :
    dataPackets (processDataMsg isFirst s)._socket = dataPackets s._socket ++
        [{ _packetID := s._sendPacketID
           _messagePosition := if isFirst then MessagePosition.First else MessagePosition.Middle
           _isOrdered := false
           _messageNumber :=
             if isFirst then SequenceNumber.incr s._messageSequence else s._messageSequence
           _contents := m.content }]
      ∧ (processDataMsg isFirst s)._msgPartialSend = none := by
  obtain ⟨-, -, -, -, -, e6, e7⟩ := processDataMsg_datagram_step isFirst s m hd hs
  rw [e6, e7, List.take_of_length_le (by omega)]
  simp [hlen]

theorem datagram_scenario (c : ByteSlice) (hc : c.length = 2500) :
    dataPackets (processDataMsg_calls true 3
        { scenarioStart true 1000 with _msgPartialSend := some (MessageEntry.ofContent c) })._socket =
      [{ _packetID := 100, _messagePosition := MessagePosition.First, _isOrdered := false,
         _messageNumber := 1, _contents := c.take 1000 },
       { _packetID := 101, _messagePosition := MessagePosition.Middle, _isOrdered := false,
         _messageNumber := 1, _contents := (c.drop 1000).take 1000 },
       { _packetID := 102, _messagePosition := MessagePosition.Last, _isOrdered := false,
         _messageNumber := 1, _contents := c.drop 2000 }]
    ∧ (c.take 1000).length = 1000 ∧ ((c.drop 1000).take 1000).length = 1000
    ∧ (c.drop 2000).length = 500 := by
  have h := (processDataMsg_calls_datagram 3 true
    { scenarioStart true 1000 with _msgPartialSend := some (MessageEntry.ofContent c) }
    (MessageEntry.ofContent c) rfl rfl).1
  refine ⟨?_, ?_, ?_, ?_⟩
  · rw [h]
    have h1 : (scenarioStart true 1000)._socket = [] := rfl
    have h2 : PacketID.incr 100 = 101 := by decide
    have h3 : PacketID.incr 101 = 102 := by decide
    have h4 : SequenceNumber.incr 0 = 1 := by decide
    have h5 : List.take 1000 (List.drop 2000 c) = List.drop 2000 c :=
      List.take_of_length_le (by simp only [List.length_drop]; omega)
    simp [datagramFragments, scenarioStart, UdtSocket_send.new, MessageEntry.ofContent, dataPackets,
      hc, h2, h3, h4, h5]
  · simp only [List.length_take]; omega
  · simp only [List.length_take, List.length_drop]; omega
  · simp only [List.length_drop]; omega

/-! ### Stream mode -/

theorem sendDataPacket_fields (e : SendPacketEntry) (r : Bool) (s : UdtSocket_send) :
    (sendDataPacket e r s)._isDatagram = s._isDatagram
    ∧ (sendDataPacket e r s)._mtu = s._mtu
    ∧ (sendDataPacket e r s)._pendingMessages = s._pendingMessages
    ∧ (sendDataPacket e r s)._msgPartialSend = s._msgPartialSend
    ∧ (sendDataPacket e r s)._sendPacketID = s._sendPacketID
    ∧ (sendDataPacket e r s)._messageSequence = s._messageSequence
    ∧ dataPackets (sendDataPacket e r s)._socket = dataPackets s._socket ++ [e.packet] := by
  obtain ⟨pend, loss, st, timer, extra, hfr, hx⟩ := sendDataPacket_frame e r s
  rw [hfr]
  refine ⟨rfl, rfl, rfl, rfl, rfl, rfl, ?_⟩
  simp [dataPackets_append, dataPackets, hx]

theorem processDataMsg_loop_stream_send (isFirst : Bool) (pending : List MessageEntry)
    (s : UdtSocket_send) (m : MessageEntry) (hd : s._isDatagram = false)
    (hs : s._msgPartialSend = some m) (h : s._mtu ≤ m.content.length ∨ pending = []) :
    processDataMsg_loop isFirst pending s =
      sendDataPacket
        { packet :=
            { _packetID := s._sendPacketID
              _messagePosition := MessagePosition.Only
              _isOrdered := true
              _messageNumber := SequenceNumber.incr s._messageSequence
              _contents := m.content.take s._mtu }
          sendTime := m.sendTime
          expireTime := m.expireTime }
        false
        { s with
          _messageSequence := SequenceNumber.incr s._messageSequence
          _msgPartialSend :=
            if s._mtu < m.content.length then some { m with content := m.content.drop s._mtu } else none
          _sendPacketID := PacketID.incr s._sendPacketID } := by
  rw [processDataMsg_loop]
  simp only [hs, hd]
  rcases Nat.lt_trichotomy m.content.length s._mtu with h1 | h1 | h1
  · have hp : pending = [] := by
      rcases h with h | h
      · omega
      · exact h
    subst hp
    have h2 : ¬ (m.content.length ≥ s._mtu) := by omega
    have h3 : ¬ (s._mtu < m.content.length) := by omega
    have h4 : List.take s._mtu m.content = m.content := List.take_of_length_le (by omega)
    simp [hd, h2, h3, h4]
  · have h3 : ¬ (s._mtu < m.content.length) := by omega
    have h4 : List.take s._mtu m.content = m.content := List.take_of_length_le (by omega)
    simp [hd, h1, h3, h4]
  · have h2 : (m.content.length ≥ s._mtu) := by omega
    have h5 : ¬ (m.content.length = s._mtu) := by omega
    simp [hd, h1, h2, h5]

theorem processDataMsg_loop_stream_merge (isFirst : Bool) (more : MessageEntry)
    (rest : List MessageEntry) (s : UdtSocket_send) (m : MessageEntry)
    (hd : s._isDatagram = false) (hs : s._msgPartialSend = some m)
    (hlt : m.content.length < s._mtu) :
    processDataMsg_loop isFirst (more :: rest) s =
      processDataMsg_loop isFirst rest
        { s with
          _messageSequence := SequenceNumber.incr s._messageSequence
          _pendingMessages := rest
          _msgPartialSend := some { m with content := m.content ++ more.content } } := by
  rw [processDataMsg_loop]
  simp only [hs, hd]
  have h2 : ¬ (m.content.length ≥ s._mtu) := by omega
  simp [hd, h2]

theorem processDataMsg_loop_stream_send_step (isFirst : Bool) (pending : List MessageEntry)
    (s : UdtSocket_send) (m : MessageEntry) (hd : s._isDatagram = false)
    (hs : s._msgPartialSend = some m) (h : s._mtu ≤ m.content.length ∨ pending = []) :
    (processDataMsg_loop isFirst pending s)._isDatagram = false
    ∧ (processDataMsg_loop isFirst pending s)._mtu = s._mtu
    ∧ (processDataMsg_loop isFirst pending s)._pendingMessages = s._pendingMessages
    ∧ (processDataMsg_loop isFirst pending s)._sendPacketID = PacketID.incr s._sendPacketID
    ∧ (processDataMsg_loop isFirst pending s)._messageSequence =
        SequenceNumber.incr s._messageSequence
    ∧ (processDataMsg_loop isFirst pending s)._msgPartialSend =
        (if s._mtu < m.content.length then some { m with content := m.content.drop s._mtu } else none)
    ∧ dataPackets (processDataMsg_loop isFirst pending s)._socket = dataPackets s._socket ++
        [{ _packetID := s._sendPacketID
           _messagePosition := MessagePosition.Only
           _isOrdered := true
           _messageNumber := SequenceNumber.incr s._messageSequence
           _contents := m.content.take s._mtu }] := by
  rw [processDataMsg_loop_stream_send isFirst pending s m hd hs h]
  obtain ⟨pend, loss, st, timer, extra, hfr, hx⟩ := sendDataPacket_frame
    { packet :=
        { _packetID := s._sendPacketID
          _messagePosition := MessagePosition.Only
          _isOrdered := true
          _messageNumber := SequenceNumber.incr s._messageSequence
          _contents := m.content.take s._mtu }
      sendTime := m.sendTime
      expireTime := m.expireTime }
    false
    { s with
      _messageSequence := SequenceNumber.incr s._messageSequence
      _msgPartialSend :=
        if s._mtu < m.content.length then some { m with content := m.content.drop s._mtu } else none
      _sendPacketID := PacketID.incr s._sendPacketID }
  rw [hfr]
  refine ⟨hd, rfl, rfl, rfl, rfl, rfl, ?_⟩
  simp [dataPackets_append, dataPackets, hx]

theorem processDataMsg_loop_stream_of_send (isFirst : Bool) (pending : List MessageEntry)
    (s : UdtSocket_send) (m : MessageEntry) (hd : s._isDatagram = false)
    (hs : s._msgPartialSend = some m) (h : s._mtu ≤ m.content.length ∨ pending = []) :
    ∃ p, dataPackets (processDataMsg_loop isFirst pending s)._socket = dataPackets s._socket ++ [p]
      ∧ p._contents ++ unsentContent (processDataMsg_loop isFirst pending s) = unsentContent s
      ∧ (processDataMsg_loop isFirst pending s)._isDatagram = false
      ∧ (processDataMsg_loop isFirst pending s)._mtu = s._mtu
      ∧ (1 ≤ s._mtu → unsentWeight (processDataMsg_loop isFirst pending s) < unsentWeight s) := by
  obtain ⟨e1, e2, e3, -, -, e6, e7⟩ := processDataMsg_loop_stream_send_step isFirst pending s m hd hs h
  refine ⟨_, e7, ?_, e1, e2, ?_⟩
  · simp only [unsentContent, e3, e6, hs]
    by_cases hlt : s._mtu < m.content.length
    · simp only [hlt, if_true]
      rw [← List.append_assoc, List.take_append_drop]
    · simp [hlt, List.take_of_length_le (Nat.le_of_not_lt hlt)]
  · intro hM
    simp only [unsentWeight, unsentContent, e3, e6, hs]
    by_cases hlt : s._mtu < m.content.length
    · simp [hlt]; omega
    · simp [hlt]; omega

theorem processDataMsg_loop_stream (isFirst : Bool) (pending : List MessageEntry) (s : UdtSocket_send)
    (m : MessageEntry) (hd : s._isDatagram = false) (hs : s._msgPartialSend = some m)
    (hp : s._pendingMessages = pending) :
    ∃ p, dataPackets (processDataMsg_loop isFirst pending s)._socket = dataPackets s._socket ++ [p]
      ∧ p._contents ++ unsentContent (processDataMsg_loop isFirst pending s) = unsentContent s
      ∧ (processDataMsg_loop isFirst pending s)._isDatagram = false
      ∧ (processDataMsg_loop isFirst pending s)._mtu = s._mtu
      ∧ (1 ≤ s._mtu → unsentWeight (processDataMsg_loop isFirst pending s) < unsentWeight s) := by
  induction pending generalizing s m with
  | nil => exact processDataMsg_loop_stream_of_send isFirst [] s m hd hs (Or.inr rfl)
  | cons more rest ih =>
    by_cases hlt : m.content.length < s._mtu
    · rw [processDataMsg_loop_stream_merge isFirst more rest s m hd hs hlt]
      obtain ⟨p, h1, h2, h3, h4, h5⟩ := ih
        { s with
          _messageSequence := SequenceNumber.incr s._messageSequence
          _pendingMessages := rest
          _msgPartialSend := some { m with content := m.content ++ more.content } }
        { m with content := m.content ++ more.content } hd rfl rfl
      refine ⟨p, h1, ?_, h3, h4, ?_⟩
      · rw [h2]
        simp [unsentContent, hs, hp]
      · intro hM
        refine lt_of_lt_of_le (h5 hM) ?_
        simp [unsentWeight, unsentContent, hs, hp]
    · exact processDataMsg_loop_stream_of_send isFirst _ s m hd hs (Or.inl (by omega))

theorem processDataMsg_stream_step (isFirst : Bool) (s : UdtSocket_send) (m : MessageEntry)
    (hd : s._isDatagram = false) (hs : s._msgPartialSend = some m)
    (h : s._mtu ≤ m.content.length ∨ s._pendingMessages = []) :
    (processDataMsg isFirst s)._isDatagram = false
    ∧ (processDataMsg isFirst s)._mtu = s._mtu
    ∧ (processDataMsg isFirst s)._pendingMessages = s._pendingMessages
    ∧ (processDataMsg isFirst s)._sendPacketID = PacketID.incr s._sendPacketID
    ∧ (processDataMsg isFirst s)._messageSequence = SequenceNumber.incr s._messageSequence
    ∧ (processDataMsg isFirst s)._msgPartialSend =
        (if s._mtu < m.content.length then some { m with content := m.content.drop s._mtu } else none)
    ∧ dataPackets (processDataMsg isFirst s)._socket = dataPackets s._socket ++
        [{ _packetID := s._sendPacketID
           _messagePosition := MessagePosition.Only
           _isOrdered := true
           _messageNumber := SequenceNumber.incr s._messageSequence
           _contents := m.content.take s._mtu }] :=
  processDataMsg_loop_stream_send_step isFirst s._pendingMessages s m hd hs h

theorem stream_scenario (c : ByteSlice) (hc : c.length = 3000) :
    dataPackets (processDataMsg_calls true 3
        { scenarioStart false 1000 with _msgPartialSend := some (MessageEntry.ofContent c) })._socket =
      [{ _packetID := 100, _messagePosition := MessagePosition.Only, _isOrdered := true,
         _messageNumber := 1, _contents := c.take 1000 },
       { _packetID := 101, _messagePosition := MessagePosition.Only, _isOrdered := true,
         _messageNumber := 2, _contents := (c.drop 1000).take 1000 },
       { _packetID := 102, _messagePosition := MessagePosition.Only, _isOrdered := true,
         _messageNumber := 3, _contents := c.drop 2000 }]
    ∧ (c.take 1000).length = 1000 ∧ ((c.drop 1000).take 1000).length = 1000
    ∧ (c.drop 2000).length = 1000 := by
  have h2 : PacketID.incr 100 = 101 := by decide
  have h3 : PacketID.incr 101 = 102 := by decide
  have h4 : SequenceNumber.incr 0 = 1 := by decide
  have h5 : SequenceNumber.incr 1 = 2 := by decide
  have h6 : SequenceNumber.incr 2 = 3 := by decide
  have hcalls : ∀ s : UdtSocket_send, processDataMsg_calls true 3 s =
      processDataMsg false (processDataMsg false (processDataMsg true s)) := fun _ => rfl
  rw [hcalls]
  obtain ⟨a1, a2, a3, a4, a5, a6, a7⟩ := processDataMsg_stream_step true
    { scenarioStart false 1000 with _msgPartialSend := some (MessageEntry.ofContent c) }
    (MessageEntry.ofContent c) rfl rfl (Or.inr rfl)
  generalize processDataMsg true
    { scenarioStart false 1000 with _msgPartialSend := some (MessageEntry.ofContent c) } = s1 at *
  replace a2 : s1._mtu = 1000 := a2
  replace a3 : s1._pendingMessages = [] := a3
  replace a4 : s1._sendPacketID = 101 := a4
  replace a5 : s1._messageSequence = 1 := a5
  replace a6 : s1._msgPartialSend = some { MessageEntry.ofContent c with content := c.drop 1000 } := by
    rw [a6]; simp [scenarioStart, UdtSocket_send.new, MessageEntry.ofContent, hc]
  replace a7 : dataPackets s1._socket =
      [{ _packetID := 100, _messagePosition := MessagePosition.Only, _isOrdered := true,
         _messageNumber := 1, _contents := c.take 1000 }] := a7
  obtain ⟨b1, b2, b3, b4, b5, b6, b7⟩ := processDataMsg_stream_step false s1 _ a1 a6
    (Or.inr a3)
  generalize processDataMsg false s1 = s2 at *
  rw [a2] at b2 b6 b7
  rw [a3] at b3
  rw [a4] at b4 b7
  rw [a5] at b5 b7
  rw [a7] at b7
  replace b6 : s2._msgPartialSend = some { MessageEntry.ofContent c with content := c.drop 2000 } := by
    rw [b6]; simp [MessageEntry.ofContent, hc]
  obtain ⟨c1, c2, c3, c4, c5, c6, c7⟩ := processDataMsg_stream_step false s2 _ b1 b6
    (Or.inr b3)
  rw [b2, b4, b5, b7] at c7
  have h7 : List.take 1000 (List.drop 2000 c) = List.drop 2000 c :=
    List.take_of_length_le (by simp only [List.length_drop]; omega)
  refine ⟨?_, ?_, ?_, ?_⟩
  · rw [c7]
    simp [MessageEntry.ofContent, h3, h5, h6, h7]
  · simp only [List.length_take]; omega
  · simp only [List.length_take, List.length_drop]; omega
  · simp only [List.length_drop]; omega

theorem fragmentStep_drained (s : UdtSocket_send) (hs : s._msgPartialSend = none)
    (hp : s._pendingMessages = []) : fragmentStep s = s := by
  simp [fragmentStep, hs, hp]

theorem fragmentSteps_drained (k : Nat) (s : UdtSocket_send) (hs : s._msgPartialSend = none)
    (hp : s._pendingMessages = []) : fragmentSteps k s = s := by
  induction k with
  | zero => rfl
  | succ k ih => rw [fragmentSteps, fragmentStep_drained s hs hp, ih]

theorem fragmentStep_stream (s : UdtSocket_send) (hd : s._isDatagram = false) :
    ∃ ps, dataPackets (fragmentStep s)._socket = dataPackets s._socket ++ ps
      ∧ (ps.map (fun p => p._contents)).flatten ++ unsentContent (fragmentStep s) = unsentContent s
      ∧ (fragmentStep s)._isDatagram = false
      ∧ (fragmentStep s)._mtu = s._mtu
      ∧ (1 ≤ s._mtu → unsentWeight (fragmentStep s) < unsentWeight s
          ∨ (s._msgPartialSend = none ∧ s._pendingMessages = [])) := by
  cases hs : s._msgPartialSend with
  | some m =>
    obtain ⟨p, h1, h2, h3, h4, h5⟩ := processDataMsg_loop_stream false s._pendingMessages s m hd hs rfl
    have hstep : fragmentStep s = processDataMsg_loop false s._pendingMessages s := by
      simp [fragmentStep, hs, processDataMsg]
    rw [hstep]
    exact ⟨[p], h1, by simpa using h2, h3, h4, fun hM => Or.inl (h5 hM)⟩
  | none =>
    cases hp : s._pendingMessages with
    | nil =>
      rw [fragmentStep_drained s hs hp]
      exact ⟨[], by simp, by simp, hd, rfl, fun _ => Or.inr ⟨rfl, rfl⟩⟩
    | cons first rest =>
      obtain ⟨p, h1, h2, h3, h4, h5⟩ := processDataMsg_loop_stream true rest
        { s with _msgPartialSend := some first, _pendingMessages := rest } first hd rfl rfl
      have hstep : fragmentStep s = processDataMsg_loop true rest
          { s with _msgPartialSend := some first, _pendingMessages := rest } := by
        simp [fragmentStep, hs, hp, processDataMsg]
      rw [hstep]
      refine ⟨[p], h1, ?_, h3, h4, fun hM => Or.inl ?_⟩
      · simp only [List.map_cons, List.map_nil, List.flatten_cons, List.flatten_nil,
          List.append_nil]
        rw [h2]
        simp [unsentContent, hs, hp]
      · refine lt_of_lt_of_le (h5 hM) ?_
        simp [unsentWeight, unsentContent, hs, hp]
        omega

theorem fragmentSteps_stream (k : Nat) (s : UdtSocket_send) (hd : s._isDatagram = false) :
    ∃ ps, dataPackets (fragmentSteps k s)._socket = dataPackets s._socket ++ ps
      ∧ (ps.map (fun p => p._contents)).flatten ++ unsentContent (fragmentSteps k s) = unsentContent s
      ∧ (1 ≤ s._mtu → unsentWeight (fragmentSteps k s) + k ≤ unsentWeight s
          ∨ ((fragmentSteps k s)._msgPartialSend = none
              ∧ (fragmentSteps k s)._pendingMessages = [])) := by
  induction k generalizing s with
  | zero => exact ⟨[], by simp [fragmentSteps], by simp [fragmentSteps], fun _ => Or.inl (by simp [fragmentSteps])⟩
  | succ k ih =>
    obtain ⟨ps1, a1, a2, a3, a4, a5⟩ := fragmentStep_stream s hd
    obtain ⟨ps2, b1, b2, b3⟩ := ih (fragmentStep s) a3
    rw [fragmentSteps]
    refine ⟨ps1 ++ ps2, ?_, ?_, ?_⟩
    · rw [b1, a1, List.append_assoc]
    · rw [← a2, ← b2]
      simp
    · intro hM
      rcases a5 hM with h | ⟨h1, h2⟩
      · rcases b3 (by rw [a4]; exact hM) with h' | h'
        · left; omega
        · right; exact h'
      · right
        rw [fragmentStep_drained s h1 h2, fragmentSteps_drained k s h1 h2]
        exact ⟨h1, h2⟩

theorem unsentWeight_eq_zero (s : UdtSocket_send) (h : unsentWeight s = 0) :
    s._msgPartialSend = none ∧ s._pendingMessages = [] := by
  unfold unsentWeight at h
  constructor
  · cases hs : s._msgPartialSend with
    | none => rfl
    | some m => rw [hs] at h; simp at h
  · have : s._pendingMessages.length = 0 := by omega
    exact List.length_eq_zero.mp this

theorem sendMessage_foldl (msgs : List (ByteSlice × QDeadlineTimer)) (s : UdtSocket_send) :
    (msgs.foldl (fun st x => sendMessage x.1 x.2 st) s)._isDatagram = s._isDatagram
    ∧ (msgs.foldl (fun st x => sendMessage x.1 x.2 st) s)._mtu = s._mtu
    ∧ (msgs.foldl (fun st x => sendMessage x.1 x.2 st) s)._msgPartialSend = s._msgPartialSend
    ∧ (msgs.foldl (fun st x => sendMessage x.1 x.2 st) s)._socket = s._socket
    ∧ ((msgs.foldl (fun st x => sendMessage x.1 x.2 st) s)._pendingMessages.map
          (fun m => m.content)) =
        s._pendingMessages.map (fun m => m.content) ++ msgs.map (fun x => x.1) := by
  induction msgs generalizing s with
  | nil => simp
  | cons x rest ih =>
    obtain ⟨h1, h2, h3, h4, h5⟩ := ih (sendMessage x.1 x.2 s)
    simp only [List.foldl_cons]
    rw [h1, h2, h3, h4, h5]
    simp [sendMessage]

theorem processEvent_fragmentStep (s : UdtSocket_send) (h1 : s._sendState = SendState.Idle)
    (h2 : s._socketState = UdtSocketState.Connected) (h3 : s._flagRecentReceivedPacket = false)
    (h4 : s._msgPartialSend ≠ none ∨ s._pendingMessages ≠ []) :
    processEvent s = Except.ok (true, fragmentStep s) := by
  unfold processEvent processEvent_switch
  simp only [h3, Bool.false_and, if_false, Bool.false_eq_true, h1, h2]
  unfold processEvent_send fragmentStep
  cases hs : s._msgPartialSend with
  | some m => simp
  | none =>
    cases hp : s._pendingMessages with
    | nil => simp [hs, hp] at h4
    | cons first rest => simp

theorem stream_drain (s : UdtSocket_send) (msgs : List (ByteSlice × QDeadlineTimer))
    (hd : s._isDatagram = false) (hM : 1 ≤ s._mtu) (hs : s._msgPartialSend = none)
    (hp : s._pendingMessages = []) :
    (∀ k, ∃ ps,
        dataPackets (fragmentSteps k (msgs.foldl (fun st x => sendMessage x.1 x.2 st) s))._socket =
          dataPackets s._socket ++ ps
        ∧ ((fragmentSteps k (msgs.foldl (fun st x => sendMessage x.1 x.2 st) s))._msgPartialSend = none →
            (fragmentSteps k (msgs.foldl (fun st x => sendMessage x.1 x.2 st) s))._pendingMessages = [] →
            (ps.map (fun p => p._contents)).flatten = (msgs.map (fun x => x.1)).flatten))
    ∧ (∃ n, ∀ k, n ≤ k →
        (fragmentSteps k (msgs.foldl (fun st x => sendMessage x.1 x.2 st) s))._msgPartialSend = none
        ∧ (fragmentSteps k (msgs.foldl (fun st x => sendMessage x.1 x.2 st) s))._pendingMessages = []) := by
  obtain ⟨e1, e2, e3, e4, e5⟩ := sendMessage_foldl msgs s
  generalize msgs.foldl (fun st x => sendMessage x.1 x.2 st) s = s1 at *
  have hu : unsentContent s1 = (msgs.map (fun x => x.1)).flatten := by
    simp only [unsentContent, e3, hs, e5, hp]
    simp
  constructor
  · intro k
    obtain ⟨ps, b1, b2, -⟩ := fragmentSteps_stream k s1 (by rw [e1]; exact hd)
    refine ⟨ps, by rw [b1, e4], ?_⟩
    intro h1 h2
    rw [← hu, ← b2]
    simp [unsentContent, h1, h2]
  · refine ⟨unsentWeight s1, ?_⟩
    intro k hk
    obtain ⟨ps, -, -, b3⟩ := fragmentSteps_stream k s1 (by rw [e1]; exact hd)
    rcases b3 (by rw [e2]; exact hM) with h | h
    · exact unsentWeight_eq_zero _ (by omega)
    · exact h

/-! ### Recording and transmitting a packet -/

theorem SendPacketEntryMap.find_insert_of_none (m : SendPacketEntryMap) (k : PacketID)
    (e : SendPacketEntry) (h : SendPacketEntryMap.find m k = none) :
    SendPacketEntryMap.find (SendPacketEntryMap.insert m k e) k = some e := by
  induction m with
  | nil => simp [SendPacketEntryMap.insert, SendPacketEntryMap.find]
  | cons kv rest ih =>
    obtain ⟨k1, e1⟩ := kv
    simp only [SendPacketEntryMap.find] at h
    by_cases hk : k1 = k
    · simp [hk] at h
    · simp only [hk, if_false] at h
      simp only [SendPacketEntryMap.insert, hk, if_false]
      by_cases hlt : k < k1
      · simp [hlt, SendPacketEntryMap.find]
      · simp [hlt, SendPacketEntryMap.find, hk, ih h]

theorem SendPacketEntryMap.find_erase (m : SendPacketEntryMap) (k k1 : PacketID) :
    SendPacketEntryMap.find (SendPacketEntryMap.erase m k1) k =
      if k = k1 then none else SendPacketEntryMap.find m k := by
  induction m with
  | nil => simp [SendPacketEntryMap.erase, SendPacketEntryMap.find]
  | cons kv rest ih =>
    obtain ⟨k2, e2⟩ := kv
    unfold SendPacketEntryMap.erase at ih ⊢
    by_cases h2 : k2 = k1
    · subst h2
      simp only [List.filter_cons, decide_True, Bool.not_true, Bool.false_eq_true, if_false]
      rw [ih]
      by_cases hk : k = k2
      · simp [hk]
      · have : ¬ k2 = k := fun h => hk h.symm
        simp [hk, SendPacketEntryMap.find, this]
    · simp only [List.filter_cons, h2, decide_False, Bool.not_false, if_true]
      simp only [SendPacketEntryMap.find]
      rw [ih]
      by_cases hk : k = k1
      · subst hk
        simp [h2]
      · simp [hk]

theorem processSendExpire_collect_find (n : SequenceNumber) (l : List (PacketID × SendPacketEntry))
    (d : MessageDropRequestPacket) (s : UdtSocket_send) (k : PacketID) :
    SendPacketEntryMap.find (processSendExpire_collect n l (d, s)).2._sendPktPend k =
        SendPacketEntryMap.find s._sendPktPend k
      ∨ SendPacketEntryMap.find (processSendExpire_collect n l (d, s)).2._sendPktPend k = none := by
  induction l generalizing d s with
  | nil => exact Or.inl rfl
  | cons kv rest ih =>
    obtain ⟨k1, e1⟩ := kv
    simp only [processSendExpire_collect]
    by_cases hn : e1.packet._messageNumber = n
    · simp only [hn, if_true]
      rcases ih _ _ with h | h
      · rw [h]
        by_cases hk : k = k1
        · right
          split_ifs <;> simp [SendPacketEntryMap.find_erase, hk]
        · left
          split_ifs <;> simp [SendPacketEntryMap.find_erase, hk]
      · exact Or.inr h
    · simp only [hn, if_false]
      exact ih d s

theorem processSendExpire_find (s : UdtSocket_send) (k : PacketID) :
    SendPacketEntryMap.find (processSendExpire s).2._sendPktPend k =
        SendPacketEntryMap.find s._sendPktPend k
      ∨ SendPacketEntryMap.find (processSendExpire s).2._sendPktPend k = none := by
  have hscan : ∀ (snap l : List (PacketID × SendPacketEntry)) (s : UdtSocket_send),
      SendPacketEntryMap.find (processSendExpire_scan snap l s).2._sendPktPend k =
        SendPacketEntryMap.find s._sendPktPend k
      ∨ SendPacketEntryMap.find (processSendExpire_scan snap l s).2._sendPktPend k = none := by
    intro snap l
    induction l with
    | nil => intro s; exact Or.inl rfl
    | cons kv rest ih =>
      intro s
      obtain ⟨k1, e1⟩ := kv
      simp only [processSendExpire_scan]
      split_ifs
      · exact ih s
      · exact processSendExpire_collect_find _ _ _ _ _
      · exact ih s
  unfold processSendExpire
  split_ifs
  · exact Or.inl rfl
  · exact hscan _ _ s

theorem processSendExpire_socket (s : UdtSocket_send) :
    ∃ extra, (processSendExpire s).2._socket = s._socket ++ extra
      ∧ (extra = [] ∨ ∃ d, extra = [SocketCall.sendPacket (Packet.MsgDropReq d)]) := by
  have hscan : ∀ (snap l : List (PacketID × SendPacketEntry)) (s : UdtSocket_send),
      ∃ extra, (processSendExpire_scan snap l s).2._socket = s._socket ++ extra
        ∧ (extra = [] ∨ ∃ d, extra = [SocketCall.sendPacket (Packet.MsgDropReq d)]) := by
    intro snap l
    induction l with
    | nil => intro s; exact ⟨[], by simp [processSendExpire_scan], Or.inl rfl⟩
    | cons kv rest ih =>
      intro s
      obtain ⟨k1, e1⟩ := kv
      simp only [processSendExpire_scan]
      split_ifs
      · exact ih s
      · obtain ⟨pend, loss, h⟩ := processSendExpire_collect_frame e1.packet._messageNumber snap
          { _messageID := e1.packet._messageNumber, _firstPacketID := k1, _lastPacketID := k1 } s
        refine ⟨[SocketCall.sendPacket (Packet.MsgDropReq (processSendExpire_collect
          e1.packet._messageNumber snap
          ({ _messageID := e1.packet._messageNumber, _firstPacketID := k1, _lastPacketID := k1 },
            s)).1)], ?_, Or.inr ⟨_, rfl⟩⟩
        simp only [h]
      · exact ih s
  unfold processSendExpire
  split_ifs
  · exact ⟨[], by simp, Or.inl rfl⟩
  · exact hscan _ _ s

theorem sendDataPacket_socket (e : SendPacketEntry) (s : UdtSocket_send) :
    ∃ extra, (sendDataPacket e false s)._socket =
        s._socket ++ ([SocketCall.onDataPktSent e.packet._packetID,
          SocketCall.sendPacket (Packet.Data e.packet)] ++ extra)
      ∧ (extra = [] ∨ ∃ d, extra = [SocketCall.sendPacket (Packet.MsgDropReq d)])
      ∧ (SendPacketEntryMap.find (sendDataPacket e false s)._sendPktPend e.packet._packetID =
            SendPacketEntryMap.find (sendDataPacket_emit e s)._sendPktPend e.packet._packetID
          ∨ (e.packet._packetID % UINT_MODULUS % 16 = 0
              ∧ SendPacketEntryMap.find (sendDataPacket e false s)._sendPktPend e.packet._packetID
                  = none)) := by
  unfold sendDataPacket
  simp only []
  split_ifs with h1 h2 h3
  · exact ⟨[], rfl, Or.inl rfl, Or.inl rfl⟩
  · obtain ⟨extra, hx, hd⟩ := processSendExpire_socket
      { sendDataPacket_emit e s with _sendState := reevalSendState (sendDataPacket_emit e s) }
    refine ⟨extra, ?_, hd, ?_⟩
    · rw [hx]
      simp only [sendDataPacket_emit, List.append_assoc]
    · rcases processSendExpire_find
        { sendDataPacket_emit e s with _sendState := reevalSendState (sendDataPacket_emit e s) }
        e.packet._packetID with h | h
      · exact Or.inl h
      · right
        refine ⟨?_, h⟩
        simpa using h2
  · exact ⟨[], rfl, Or.inl rfl, Or.inl rfl⟩
  · exact ⟨[], rfl, Or.inl rfl, Or.inl rfl⟩

theorem processDataMsg_loop_sends (isFirst : Bool) (pending : List MessageEntry) (s : UdtSocket_send)
    (m : MessageEntry) (hs : s._msgPartialSend = some m) :
    ∃ entry s1, processDataMsg_loop isFirst pending s = sendDataPacket entry false s1
      ∧ entry.packet._packetID = s._sendPacketID
      ∧ entry.expireTime = m.expireTime
      ∧ s1._sendPktPend = s._sendPktPend
      ∧ s1._socket = s._socket := by
  induction pending generalizing s m with
  | nil =>
    rw [processDataMsg_loop]
    simp only [hs]
    split_ifs <;> exact ⟨_, _, rfl, rfl, rfl, rfl, rfl⟩
  | cons more rest ih =>
    rw [processDataMsg_loop]
    simp only [hs]
    split_ifs
    all_goals first
      | exact ⟨_, _, rfl, rfl, rfl, rfl, rfl⟩
      | exact ih _ { m with content := m.content ++ more.content } rfl

/-! ### Operations that send no data packet -/

theorem resetEXP_quiet (s : UdtSocket_send) :
    dataPackets (resetEXP s)._socket = dataPackets s._socket
    ∧ (resetEXP s)._sendPacketID = s._sendPacketID := ⟨rfl, rfl⟩

theorem processSendExpire_quiet (s : UdtSocket_send) :
    dataPackets (processSendExpire s).2._socket = dataPackets s._socket
    ∧ (processSendExpire s).2._sendPacketID = s._sendPacketID := by
  obtain ⟨pend, loss, extra, h, hx⟩ := processSendExpire_frame s
  rw [h]
  exact ⟨by simp [dataPackets_append, hx], rfl⟩

theorem assertValidSentPktID_quiet (packetID : PacketID) (s : UdtSocket_send) :
    dataPackets (assertValidSentPktID packetID s).2._socket = dataPackets s._socket
    ∧ (assertValidSentPktID packetID s).2._sendPacketID = s._sendPacketID := by
  unfold assertValidSentPktID
  split_ifs <;> simp [dataPackets_append, dataPackets]

theorem ingestAck_releasePend_quiet (a b : PacketID) (fuel : Nat) (s : UdtSocket_send) :
    dataPackets (ingestAck_releasePend a b fuel s)._socket = dataPackets s._socket
    ∧ (ingestAck_releasePend a b fuel s)._sendPacketID = s._sendPacketID := by
  induction fuel generalizing s with
  | zero => exact ⟨rfl, rfl⟩
  | succ n ih =>
    rw [ingestAck_releasePend]
    split
    · exact ⟨rfl, rfl⟩
    · split_ifs
      · exact ⟨rfl, rfl⟩
      · exact ih _

theorem ingestAck_releaseLoss_quiet (a b : PacketID) (fuel : Nat) (s : UdtSocket_send) :
    dataPackets (ingestAck_releaseLoss a b fuel s)._socket = dataPackets s._socket
    ∧ (ingestAck_releaseLoss a b fuel s)._sendPacketID = s._sendPacketID := by
  induction fuel generalizing s with
  | zero => exact ⟨rfl, rfl⟩
  | succ n ih =>
    rw [ingestAck_releaseLoss]
    split
    · exact ⟨rfl, rfl⟩
    · split_ifs
      · exact ⟨rfl, rfl⟩
      · exact ih _

theorem ingestAck_light_quiet (ackPacket : ACKPacket) (s : UdtSocket_send) :
    dataPackets (ingestAck_light ackPacket s).2._socket = dataPackets s._socket
    ∧ (ingestAck_light ackPacket s).2._sendPacketID = s._sendPacketID := by
  unfold ingestAck_light
  have h := assertValidSentPktID_quiet ackPacket._lastPacketReceived s
  simp only []
  split_ifs <;> first | exact h | exact ⟨rfl, rfl⟩

theorem ingestAck_ack2_quiet (ackPacket : ACKPacket) (s : UdtSocket_send) :
    dataPackets (ingestAck_ack2 ackPacket s)._socket = dataPackets s._socket
    ∧ (ingestAck_ack2 ackPacket s)._sendPacketID = s._sendPacketID := by
  unfold ingestAck_ack2
  split_ifs <;> simp [dataPackets_append, dataPackets]

theorem ingestAck_quiet (ackPacket : ACKPacket) (t : Nat) (s : UdtSocket_send) :
    dataPackets (ingestAck ackPacket t s)._socket = dataPackets s._socket
    ∧ (ingestAck ackPacket t s)._sendPacketID = s._sendPacketID := by
  have h1 := ingestAck_light_quiet ackPacket s
  have h2 := ingestAck_ack2_quiet ackPacket (ingestAck_light ackPacket s).2
  have h3 := assertValidSentPktID_quiet ackPacket._lastPacketReceived
    (ingestAck_ack2 ackPacket (ingestAck_light ackPacket s).2)
  unfold ingestAck
  simp only []
  split_ifs
  · exact h1
  · exact ⟨h3.1.trans (h2.1.trans h1.1), h3.2.trans (h2.2.trans h1.2)⟩
  · exact ⟨h3.1.trans (h2.1.trans h1.1), h3.2.trans (h2.2.trans h1.2)⟩
  · refine ⟨?_, ?_⟩
    · rw [(ingestAck_releaseLoss_quiet _ _ _ _).1, (ingestAck_releasePend_quiet _ _ _ _).1]
      simp [dataPackets_append, dataPackets, h3.1, h2.1, h1.1]
    · rw [(ingestAck_releaseLoss_quiet _ _ _ _).2, (ingestAck_releasePend_quiet _ _ _ _).2]
      exact h3.2.trans (h2.2.trans h1.2)
  · refine ⟨?_, ?_⟩
    · rw [(ingestAck_releaseLoss_quiet _ _ _ _).1, (ingestAck_releasePend_quiet _ _ _ _).1]
      simp [dataPackets_append, dataPackets, h3.1, h2.1, h1.1]
    · rw [(ingestAck_releaseLoss_quiet _ _ _ _).2, (ingestAck_releasePend_quiet _ _ _ _).2]
      exact h3.2.trans (h2.2.trans h1.2)

theorem ingestNak_loop_quiet (n : Nat) : ∀ (l : List Nat) (acc : List PacketID) (s : UdtSocket_send),
    l.length ≤ n →
    dataPackets (ingestNak_loop l acc s).2._socket = dataPackets s._socket
    ∧ (ingestNak_loop l acc s).2._sendPacketID = s._sendPacketID := by
  induction n with
  | zero =>
    intro l acc s hl
    have : l = [] := List.length_eq_zero.mp (by omega)
    subst this
    exact ⟨rfl, rfl⟩
  | succ n ih =>
    intro l acc s hl
    cases l with
    | nil => exact ⟨rfl, rfl⟩
    | cons thisEntry rest =>
      have hv := fun id => assertValidSentPktID_quiet id s
      rw [ingestNak_loop]
      split_ifs with h1
      · cases rest with
        | nil => simp [dataPackets_append, dataPackets]
        | cons lastEntry rest2 =>
          simp only []
          split_ifs
          · exact hv _
          · simp [dataPackets_append, dataPackets]
          · exact hv _
          · have := ih rest2 (acc ++ spanList (PacketID.ofWord thisEntry) (PacketID.ofWord lastEntry))
              { s with _sendLossList := (spanList (PacketID.ofWord thisEntry)
                  (PacketID.ofWord lastEntry)).foldl PacketIDSet.insert s._sendLossList }
              (by simp only [List.length_cons] at hl; omega)
            exact this
      · simp only []
        split_ifs
        · exact hv _
        · exact ih rest _ _ (by simp only [List.length_cons] at hl; omega)

theorem ingestNak_quiet (lossData : List Nat) (t : Nat) (s : UdtSocket_send) :
    dataPackets (ingestNak lossData t s)._socket = dataPackets s._socket
    ∧ (ingestNak lossData t s)._sendPacketID = s._sendPacketID := by
  have h := ingestNak_loop_quiet lossData.length lossData [] s (le_refl _)
  unfold ingestNak
  split
  · rename_i s1 heq
    rw [heq] at h
    exact h
  · rename_i l s1 heq
    rw [heq] at h
    simp only [] at h
    exact ⟨by simp [dataPackets_append, dataPackets, h.1], h.2⟩

theorem processExpEvent_quiet (s : UdtSocket_send) :
    dataPackets (processExpEvent s)._socket = dataPackets s._socket
    ∧ (processExpEvent s)._sendPacketID = s._sendPacketID := by
  unfold processExpEvent
  simp only []
  split_ifs <;> simp [resetEXP, dataPackets_append, dataPackets]

theorem Quiet.refl (s : UdtSocket_send) : Quiet s s := ⟨rfl, rfl⟩

theorem Quiet.trans {s t u : UdtSocket_send} (h1 : Quiet s t) (h2 : Quiet t u) : Quiet s u :=
  ⟨h2.1.trans h1.1, h2.2.trans h1.2⟩

theorem processSendLoss_loop_quiet (fuel : Nat) (s : UdtSocket_send) :
    Quiet s (outcomeState (processSendLoss_loop none fuel s)) := by
  induction fuel generalizing s with
  | zero => exact ⟨rfl, rfl⟩
  | succ n ih =>
    rw [processSendLoss_loop]
    split
    · exact ⟨rfl, rfl⟩
    · simp only []
      split
      · exact Quiet.trans ⟨rfl, rfl⟩ (ih _)
      · exact ⟨rfl, rfl⟩

theorem processSendLoss_quiet (s : UdtSocket_send) :
    Quiet s (outcomeState (processSendLoss s)) := by
  unfold processSendLoss
  split_ifs
  · exact ⟨rfl, rfl⟩
  · exact processSendLoss_loop_quiet _ s

theorem processEvent_resend_quiet (s : UdtSocket_send) :
    Quiet s (outcomeState (processEvent_resend s)) := by
  have h := processSendLoss_quiet s
  unfold processEvent_resend
  split
  · rename_i e heq
    rw [heq] at h
    exact h
  · rename_i r s1 heq
    rw [heq] at h
    split_ifs
    · exact Quiet.trans h (processSendExpire_quiet s1)
    · exact h

theorem processEvent_dispatch_quiet (recvPacket : ReceivedPacket) (s : UdtSocket_send) :
    Quiet s (processEvent_dispatch recvPacket s) := by
  unfold processEvent_dispatch
  split
  · exact ingestAck_quiet _ _ _
  · exact ingestNak_quiet _ _ _
  · exact ⟨rfl, rfl⟩
  · exact ⟨rfl, rfl⟩

theorem processEvent_events_quiet (s : UdtSocket_send) :
    Quiet s (outcomeState (processEvent_events s)) := by
  have hq : ∀ t : UdtSocket_send, Quiet s t →
      Quiet s (outcomeState
        (if t._flagRecentEXPevent then
          Except.ok (true, processExpEvent { t with _flagRecentEXPevent := false })
        else if t._flagRecentSNDevent then
          if ({ t with _flagRecentSNDevent := false } : UdtSocket_send)._sendState = SendState.Sending then
            processEvent_resend { ({ t with _flagRecentSNDevent := false } : UdtSocket_send) with
              _sendState := reevalSendState { t with _flagRecentSNDevent := false } }
          else Except.ok (false, { t with _flagRecentSNDevent := false })
        else Except.ok (false, t))) := by
    intro t ht
    split_ifs
    · exact Quiet.trans ht (Quiet.trans ⟨rfl, rfl⟩ (processExpEvent_quiet _))
    · exact Quiet.trans ht (Quiet.trans ⟨rfl, rfl⟩ (processEvent_resend_quiet _))
    · exact Quiet.trans ht ⟨rfl, rfl⟩
    · exact ht
  unfold processEvent_events
  cases hr : s._receivedPacketList with
  | nil => exact hq s ⟨rfl, rfl⟩
  | cons recvPacket rest =>
    exact hq _ (Quiet.trans (Quiet.trans ⟨rfl, rfl⟩
      (processEvent_dispatch_quiet recvPacket { s with _receivedPacketList := rest })) ⟨rfl, rfl⟩)

theorem processDataMsg_loop_sends_id (isFirst : Bool) (pending : List MessageEntry)
    (s : UdtSocket_send) (m : MessageEntry) (hs : s._msgPartialSend = some m) :
    ∃ entry s1, processDataMsg_loop isFirst pending s = sendDataPacket entry false s1
      ∧ entry.packet._packetID = s._sendPacketID
      ∧ s1._sendPacketID = PacketID.incr s._sendPacketID
      ∧ s1._socket = s._socket := by
  induction pending generalizing s m with
  | nil =>
    rw [processDataMsg_loop]
    simp only [hs]
    split_ifs <;> exact ⟨_, _, rfl, rfl, rfl, rfl⟩
  | cons more rest ih =>
    rw [processDataMsg_loop]
    simp only [hs]
    split_ifs
    all_goals first
      | exact ⟨_, _, rfl, rfl, rfl, rfl⟩
      | exact ih _ { m with content := m.content ++ more.content } rfl

theorem processDataMsg_sendsAtMostOne (isFirst : Bool) (s : UdtSocket_send) :
    SendsAtMostOne s (processDataMsg isFirst s) := by
  cases hs : s._msgPartialSend with
  | none =>
    rw [processDataMsg_none isFirst s hs]
    exact Or.inl ⟨rfl, rfl⟩
  | some m =>
    obtain ⟨entry, s1, h1, h2, h3, h4⟩ := processDataMsg_loop_sends_id isFirst s._pendingMessages s m hs
    obtain ⟨-, -, -, -, e5, -, e7⟩ := sendDataPacket_fields entry false s1
    right
    refine ⟨entry.packet, ?_, h2, ?_⟩
    · unfold processDataMsg
      rw [h1, e7, h4]
    · unfold processDataMsg
      rw [h1, e5, h3]

theorem processEvent_send_sendsAtMostOne (canSendPacket : Bool) (s : UdtSocket_send) :
    SendsAtMostOne s (outcomeState (processEvent_send canSendPacket s)) := by
  unfold processEvent_send
  by_cases hc : canSendPacket = true
  · simp only [hc, if_true]
    cases hs : s._msgPartialSend with
    | some m => exact processDataMsg_sendsAtMostOne false s
    | none =>
      cases hp : s._pendingMessages with
      | cons first rest =>
        exact processDataMsg_sendsAtMostOne true
          { s with _msgPartialSend := some first, _pendingMessages := rest }
      | nil =>
        by_cases hf : s._flagSendDisconnect = true
        · simp only [hf, if_true]
          exact Or.inl ⟨by simp [outcomeState, dataPackets_append, dataPackets], rfl⟩
        · simp only [hf]
          exact Or.inl (processEvent_events_quiet s)
  · simp only [hc]
    exact Or.inl (processEvent_events_quiet s)

theorem SendsAtMostOne.of_quiet_left {s t u : UdtSocket_send} (h1 : Quiet s t)
    (h2 : SendsAtMostOne t u) : SendsAtMostOne s u := by
  rcases h2 with h | ⟨p, a, b, c⟩
  · exact Or.inl (Quiet.trans h1 h)
  · exact Or.inr ⟨p, by rw [a, h1.1], by rw [b, h1.2], by rw [c, h1.2]⟩

theorem processEvent_switch_sendsAtMostOne (s : UdtSocket_send) :
    SendsAtMostOne s (outcomeState (processEvent_switch s)) := by
  unfold processEvent_switch
  cases h1 : s._sendState <;> cases h2 : s._socketState <;> simp only [] <;>
    first
    | exact Or.inl (Quiet.trans ⟨rfl, rfl⟩ (processEvent_resend_quiet _))
    | exact processEvent_send_sendsAtMostOne _ s
    | exact Or.inl ⟨rfl, rfl⟩
    | (split_ifs
       · exact Or.inl ⟨rfl, rfl⟩
       · exact processEvent_send_sendsAtMostOne _ s)

theorem processEvent_sendsAtMostOne (s : UdtSocket_send) :
    SendsAtMostOne s (outcomeState (processEvent s)) := by
  unfold processEvent
  simp only []
  split_ifs
  · exact SendsAtMostOne.of_quiet_left (Quiet.trans ⟨rfl, rfl⟩ (resetEXP_quiet _))
      (processEvent_switch_sendsAtMostOne _)
  · exact processEvent_switch_sendsAtMostOne s

/-! ### Runs of events -/

theorem PacketID.blindDifference_incr (a : PacketID) :
    PacketID.blindDifference (PacketID.incr a) a = 1 := by
  have hd : ∀ n : Nat, ((n + 1) % 2 ^ 31 % 2 ^ 31 + 2 ^ 31 - n % 2 ^ 31) % 2 ^ 31 = 1 := by
    intro n
    omega
  unfold PacketID.blindDifference PacketID.incr PacketID.MODULUS
  simp only [hd a]
  norm_num

theorem PacketID.lt_incr (a : PacketID) : PacketID.lt a (PacketID.incr a) = true := by
  simp [PacketID.lt, PacketID.blindDifference_incr]

theorem applyEvent_sendsAtMostOne (s : UdtSocket_send) (e : SenderEvent) :
    SendsAtMostOne s (match applyEvent s e with
      | Except.ok t => t
      | Except.error t => t) := by
  cases e with
  | processEvent =>
    have h := processEvent_sendsAtMostOne s
    simp only [applyEvent]
    cases hr : processEvent s with
    | ok r => rw [hr] at h; exact h
    | error t => rw [hr] at h; exact h
  | startupInit =>
    exact Or.inl (Quiet.trans ⟨rfl, rfl⟩ (resetEXP_quiet _))
  | _ => exact Or.inl ⟨rfl, rfl⟩

/-- The PacketIDs sent so far are consecutive and the send PacketID is the
successor of the last one. -/
theorem sentPacketIDs_step (s t : UdtSocket_send) (h : SendsAtMostOne s t)
    (hi : List.Chain' (fun a b => b = PacketID.incr a) (sentPacketIDs s)
      ∧ ∀ x ∈ (sentPacketIDs s).getLast?, s._sendPacketID = PacketID.incr x) :
    List.Chain' (fun a b => b = PacketID.incr a) (sentPacketIDs t)
      ∧ ∀ x ∈ (sentPacketIDs t).getLast?, t._sendPacketID = PacketID.incr x := by
  rcases h with ⟨h1, h2⟩ | ⟨p, h1, h2, h3⟩
  · simp only [sentPacketIDs, h1, h2]
    exact hi
  · have hids : sentPacketIDs t = sentPacketIDs s ++ [s._sendPacketID] := by
      simp [sentPacketIDs, h1, h2]
    rw [hids]
    constructor
    · refine List.Chain'.append hi.1 (List.chain'_singleton _) ?_
      intro x hx y hy
      simp only [List.head?_cons, Option.mem_def, Option.some.injEq] at hy
      subst hy
      exact hi.2 x hx
    · intro x hx
      simp [List.getLast?_append] at hx
      subst hx
      exact h3

theorem runEvents_sentPacketIDs (evs : List SenderEvent) (s : UdtSocket_send)
    (hi : List.Chain' (fun a b => b = PacketID.incr a) (sentPacketIDs s)
      ∧ ∀ x ∈ (sentPacketIDs s).getLast?, s._sendPacketID = PacketID.incr x) :
    List.Chain' (fun a b => b = PacketID.incr a) (sentPacketIDs (runEvents evs s))
      ∧ ∀ x ∈ (sentPacketIDs (runEvents evs s)).getLast?,
          (runEvents evs s)._sendPacketID = PacketID.incr x := by
  induction evs generalizing s with
  | nil => exact hi
  | cons e rest ih =>
    have h := applyEvent_sendsAtMostOne s e
    rw [runEvents]
    cases hr : applyEvent s e with
    | ok t =>
      rw [hr] at h
      exact ih t (sentPacketIDs_step s t h hi)
    | error t =>
      rw [hr] at h
      exact sentPacketIDs_step s t h hi

/-! ### Light acknowledgements -/

theorem PacketID.blindDifference_self (a : PacketID) : PacketID.blindDifference a a = 0 := by
  have hd : ∀ n : Nat, (n % 2 ^ 31 + 2 ^ 31 - n % 2 ^ 31) % 2 ^ 31 = 0 := by
    intro n
    omega
  unfold PacketID.blindDifference PacketID.MODULUS
  simp only [hd a]
  norm_num

theorem ingestAck_ack2_fields (ackPacket : ACKPacket) (s : UdtSocket_send) :
    (ingestAck_ack2 ackPacket s)._lastAckPacketID = s._lastAckPacketID
    ∧ (ingestAck_ack2 ackPacket s)._flowWindowSize = s._flowWindowSize
    ∧ (ingestAck_ack2 ackPacket s)._sendPacketID = s._sendPacketID := by
  unfold ingestAck_ack2
  split_ifs <;> exact ⟨rfl, rfl, rfl⟩

/-- What `ingestAck` does with a valid Light ACK that is level with the acked
frontier or ahead of it. -/
theorem ingestAck_light_not_behind (ackPacket : ACKPacket) (t : Nat) (s : UdtSocket_send)
    (hl : ackPacket._ackType = AckType.Light)
    (hv : 0 ≤ PacketID.blindDifference s._sendPacketID ackPacket._lastPacketReceived) :
    (0 < PacketID.blindDifference ackPacket._lastPacketReceived s._lastAckPacketID →
        (ingestAck ackPacket t s)._lastAckPacketID = ackPacket._lastPacketReceived
        ∧ (ingestAck ackPacket t s)._flowWindowSize =
            (((s._flowWindowSize : Int)
              + PacketID.blindDifference ackPacket._lastPacketReceived s._lastAckPacketID)
              % (UINT_MODULUS : Int)).toNat)
    ∧ (PacketID.blindDifference ackPacket._lastPacketReceived s._lastAckPacketID = 0 →
        (ingestAck ackPacket t s)._lastAckPacketID = s._lastAckPacketID
        ∧ (ingestAck ackPacket t s)._flowWindowSize = s._flowWindowSize) := by
  have hv' : ¬ PacketID.blindDifference s._sendPacketID ackPacket._lastPacketReceived < 0 := by
    omega
  constructor
  · intro hd
    have h1 : ingestAck_light ackPacket s = (true, { s with
        _flowWindowSize := (((s._flowWindowSize : Int)
              + PacketID.blindDifference ackPacket._lastPacketReceived s._lastAckPacketID)
              % (UINT_MODULUS : Int)).toNat
        _lastAckPacketID := ackPacket._lastPacketReceived }) := by
      simp [ingestAck_light, assertValidSentPktID, hl, hv', hd]
    obtain ⟨a1, a2, a3⟩ := ingestAck_ack2_fields ackPacket (ingestAck_light ackPacket s).2
    unfold ingestAck
    simp only [h1, Bool.not_true, Bool.false_eq_true, if_false] at a1 a2 a3 ⊢
    have hv2 : ¬ PacketID.blindDifference (ingestAck_ack2 ackPacket { s with
        _flowWindowSize := (((s._flowWindowSize : Int)
              + PacketID.blindDifference ackPacket._lastPacketReceived s._lastAckPacketID)
              % (UINT_MODULUS : Int)).toNat
        _lastAckPacketID := ackPacket._lastPacketReceived })._sendPacketID
          ackPacket._lastPacketReceived < 0 := by
      rw [a3]; exact hv'
    have hle : PacketID.le ackPacket._lastPacketReceived ackPacket._lastPacketReceived = true := by
      simp [PacketID.le, PacketID.blindDifference_self]
    simp only [assertValidSentPktID, hv2, if_false, Bool.not_true, Bool.false_eq_true, a1, hle,
      if_true]
    exact ⟨trivial, a2⟩
  · intro hd
    have h1 : ingestAck_light ackPacket s = (true, s) := by
      simp [ingestAck_light, assertValidSentPktID, hl, hv', hd]
    obtain ⟨a1, a2, a3⟩ := ingestAck_ack2_fields ackPacket (ingestAck_light ackPacket s).2
    unfold ingestAck
    simp only [h1, Bool.not_true, Bool.false_eq_true, if_false] at a1 a2 a3 ⊢
    have hv2 : ¬ PacketID.blindDifference (ingestAck_ack2 ackPacket s)._sendPacketID
          ackPacket._lastPacketReceived < 0 := by
      rw [a3]; exact hv'
    have hle : PacketID.le s._lastAckPacketID ackPacket._lastPacketReceived = true := by
      simp [PacketID.le, hd]
    simp only [assertValidSentPktID, hv2, if_false, Bool.not_true, Bool.false_eq_true, a1, hle,
      if_true]
    exact ⟨trivial, a2⟩

/-! ### The paths of `ingestAck` -/

theorem ingestAck_light_of_not_advance (a : ACKPacket) (s : UdtSocket_send)
    (hv : ¬ PacketID.blindDifference s._sendPacketID a._lastPacketReceived < 0)
    (hnl : a._ackType = AckType.Light →
      ¬ 0 < PacketID.blindDifference a._lastPacketReceived s._lastAckPacketID) :
    ingestAck_light a s = (true, s) := by
  unfold ingestAck_light
  by_cases hl : a._ackType = AckType.Light
  · simp [hl, assertValidSentPktID, hv, hnl hl]
  · simp [hl]

/-- A valid ACK that the frontier test lets return: nothing but the ACK2 block
takes effect. -/
theorem ingestAck_of_frontier_le (a : ACKPacket) (t : Nat) (s : UdtSocket_send)
    (hv : ¬ PacketID.blindDifference s._sendPacketID a._lastPacketReceived < 0)
    (hle : PacketID.le s._lastAckPacketID a._lastPacketReceived = true)
    (hnl : a._ackType = AckType.Light →
      ¬ 0 < PacketID.blindDifference a._lastPacketReceived s._lastAckPacketID) :
    ingestAck a t s = ingestAck_ack2 a s := by
  have h1 := ingestAck_light_of_not_advance a s hv hnl
  obtain ⟨a1, -, a3⟩ := ingestAck_ack2_fields a s
  unfold ingestAck
  simp only [h1, Bool.not_true, Bool.false_eq_true, if_false]
  have hv2 : ¬ PacketID.blindDifference (ingestAck_ack2 a s)._sendPacketID
      a._lastPacketReceived < 0 := by rw [a3]; exact hv
  simp only [assertValidSentPktID, hv2, if_false, Bool.not_true, Bool.false_eq_true, a1, hle,
    if_true]

/-- A valid Light ACK ahead of the frontier: the Light block moves the frontier
and widens the flow window, then only the ACK2 block takes effect. -/
theorem ingestAck_of_light_advance (a : ACKPacket) (t : Nat) (s : UdtSocket_send)
    (hl : a._ackType = AckType.Light)
    (hv : ¬ PacketID.blindDifference s._sendPacketID a._lastPacketReceived < 0)
    (hd : 0 < PacketID.blindDifference a._lastPacketReceived s._lastAckPacketID) :
    ingestAck a t s = ingestAck_ack2 a { s with
      _flowWindowSize := (((s._flowWindowSize : Int)
        + PacketID.blindDifference a._lastPacketReceived s._lastAckPacketID)
        % (UINT_MODULUS : Int)).toNat
      _lastAckPacketID := a._lastPacketReceived } := by
  have h1 : ingestAck_light a s = (true, { s with
      _flowWindowSize := (((s._flowWindowSize : Int)
        + PacketID.blindDifference a._lastPacketReceived s._lastAckPacketID)
        % (UINT_MODULUS : Int)).toNat
      _lastAckPacketID := a._lastPacketReceived }) := by
    simp [ingestAck_light, assertValidSentPktID, hl, hv, hd]
  obtain ⟨a1, -, a3⟩ := ingestAck_ack2_fields a { s with
      _flowWindowSize := (((s._flowWindowSize : Int)
        + PacketID.blindDifference a._lastPacketReceived s._lastAckPacketID)
        % (UINT_MODULUS : Int)).toNat
      _lastAckPacketID := a._lastPacketReceived }
  unfold ingestAck
  simp only [h1, Bool.not_true, Bool.false_eq_true, if_false]
  have hv2 : ¬ PacketID.blindDifference (ingestAck_ack2 a { s with
      _flowWindowSize := (((s._flowWindowSize : Int)
        + PacketID.blindDifference a._lastPacketReceived s._lastAckPacketID)
        % (UINT_MODULUS : Int)).toNat
      _lastAckPacketID := a._lastPacketReceived })._sendPacketID
      a._lastPacketReceived < 0 := by rw [a3]; exact hv
  have hle : PacketID.le a._lastPacketReceived a._lastPacketReceived = true := by
    simp [PacketID.le, PacketID.blindDifference_self]
  simp only [assertValidSentPktID, hv2, if_false, Bool.not_true, Bool.false_eq_true, a1, hle,
    if_true]

/-- An ACK ahead of the send PacketID: a Corrupted shutdown is requested, by a
Light ACK at once, by a Full ACK after the ACK2 block. -/
theorem ingestAck_of_invalid (a : ACKPacket) (t : Nat) (s : UdtSocket_send)
    (hv : PacketID.blindDifference s._sendPacketID a._lastPacketReceived < 0) :
    (a._ackType = AckType.Light →
      ingestAck a t s =
        { s with _socket := s._socket ++ [SocketCall.requestShutdown UdtSocketState.Corrupted] })
    ∧ (a._ackType = AckType.Full →
      ingestAck a t s =
        { ingestAck_ack2 a s with _socket := (ingestAck_ack2 a s)._socket ++
            [SocketCall.requestShutdown UdtSocketState.Corrupted] }) := by
  constructor
  · intro hl
    have h1 : ingestAck_light a s = (false, { s with
        _socket := s._socket ++ [SocketCall.requestShutdown UdtSocketState.Corrupted] }) := by
      simp [ingestAck_light, assertValidSentPktID, hl, hv]
    unfold ingestAck
    simp only [h1, Bool.not_false, if_true]
  · intro hf
    have h1 : ingestAck_light a s = (true, s) := by
      simp [ingestAck_light, hf]
    obtain ⟨-, -, a3⟩ := ingestAck_ack2_fields a s
    unfold ingestAck
    simp only [h1, Bool.not_true, Bool.false_eq_true, if_false]
    have hv2 : PacketID.blindDifference (ingestAck_ack2 a s)._sendPacketID
        a._lastPacketReceived < 0 := by rw [a3]; exact hv
    simp only [assertValidSentPktID, hv2, if_true, Bool.not_false]

theorem ingestAck_releasePend_frame (o l : PacketID) (fuel : Nat) (s : UdtSocket_send) :
    ∃ pend, ingestAck_releasePend o l fuel s = { s with _sendPktPend := pend } := by
  induction fuel generalizing s with
  | zero => exact ⟨s._sendPktPend, rfl⟩
  | succ n ih =>
    rw [ingestAck_releasePend]
    split
    · exact ⟨s._sendPktPend, rfl⟩
    · split_ifs
      · exact ⟨s._sendPktPend, rfl⟩
      · obtain ⟨pend, h⟩ := ih { s with _sendPktPend := SendPacketEntryMap.erase s._sendPktPend _ }
        exact ⟨pend, h⟩

theorem ingestAck_releaseLoss_frame (o l : PacketID) (fuel : Nat) (s : UdtSocket_send) :
    ∃ loss, ingestAck_releaseLoss o l fuel s = { s with _sendLossList := loss } := by
  induction fuel generalizing s with
  | zero => exact ⟨s._sendLossList, rfl⟩
  | succ n ih =>
    rw [ingestAck_releaseLoss]
    split
    · exact ⟨s._sendLossList, rfl⟩
    · split_ifs
      · exact ⟨s._sendLossList, rfl⟩
      · obtain ⟨loss, h⟩ := ih { s with _sendLossList := PacketIDSet.erase s._sendLossList _ }
        exact ⟨loss, h⟩

/-- A valid ACK behind the frontier: the frontier test lets it through, so it
overwrites the flow window, moves the frontier to its last-received PacketID and
notifies the socket and congestion control. -/
theorem ingestAck_of_behind (a : ACKPacket) (t : Nat) (s : UdtSocket_send)
    (hv : ¬ PacketID.blindDifference s._sendPacketID a._lastPacketReceived < 0)
    (hle : PacketID.le s._lastAckPacketID a._lastPacketReceived = false) :
    ∃ pend loss, ingestAck a t s =
      { ingestAck_ack2 a s with
        _flowWindowSize := a._availBufferSize
        _lastAckPacketID := a._lastPacketReceived
        _sendPktPend := pend
        _sendLossList := loss
        _socket := (ingestAck_ack2 a s)._socket ++
          ([SocketCall.applyRTT a._rtt] ++
            (if a._ackType = AckType.Full then
              [SocketCall.applyReceiveRates a._packetReceiveRate a._estimatedLinkCapacity]
            else []) ++ [SocketCall.onACK a._lastPacketReceived]) } := by
  have hd : ¬ 0 < PacketID.blindDifference a._lastPacketReceived s._lastAckPacketID := by
    intro h
    have : PacketID.le s._lastAckPacketID a._lastPacketReceived = true := by
      simp only [PacketID.le, decide_eq_true_eq]; omega
    rw [this] at hle
    cases hle
  have h1 := ingestAck_light_of_not_advance a s hv (fun _ => hd)
  obtain ⟨a1, -, a3⟩ := ingestAck_ack2_fields a s
  unfold ingestAck
  simp only [h1, Bool.not_true, Bool.false_eq_true, if_false]
  have hv2 : ¬ PacketID.blindDifference (ingestAck_ack2 a s)._sendPacketID
      a._lastPacketReceived < 0 := by rw [a3]; exact hv
  simp only [assertValidSentPktID, hv2, if_false, Bool.not_true, Bool.false_eq_true, a1, hle]
  by_cases hf : a._ackType = AckType.Full
  · simp only [hf, if_true]
    obtain ⟨pend, hp⟩ := ingestAck_releasePend_frame (s._lastAckPacketID) a._lastPacketReceived
      (ingestAck_ack2 a s)._sendPktPend.length
      { ingestAck_ack2 a s with
        _flowWindowSize := a._availBufferSize
        _lastAckPacketID := a._lastPacketReceived
        _socket := (ingestAck_ack2 a s)._socket ++ [SocketCall.applyRTT a._rtt] ++
          [SocketCall.applyReceiveRates a._packetReceiveRate a._estimatedLinkCapacity] ++
          [SocketCall.onACK a._lastPacketReceived] }
    rw [hp]
    obtain ⟨loss, hl⟩ := ingestAck_releaseLoss_frame (s._lastAckPacketID) a._lastPacketReceived
      (ingestAck_ack2 a s)._sendLossList.length
      { ingestAck_ack2 a s with
        _flowWindowSize := a._availBufferSize
        _lastAckPacketID := a._lastPacketReceived
        _sendPktPend := pend
        _socket := (ingestAck_ack2 a s)._socket ++ [SocketCall.applyRTT a._rtt] ++
          [SocketCall.applyReceiveRates a._packetReceiveRate a._estimatedLinkCapacity] ++
          [SocketCall.onACK a._lastPacketReceived] }
    refine ⟨pend, loss, ?_⟩
    rw [hl]
    simp
  · simp only [hf, if_false]
    obtain ⟨pend, hp⟩ := ingestAck_releasePend_frame (s._lastAckPacketID) a._lastPacketReceived
      (ingestAck_ack2 a s)._sendPktPend.length
      { ingestAck_ack2 a s with
        _flowWindowSize := a._availBufferSize
        _lastAckPacketID := a._lastPacketReceived
        _socket := (ingestAck_ack2 a s)._socket ++ [SocketCall.applyRTT a._rtt] ++
          [SocketCall.onACK a._lastPacketReceived] }
    rw [hp]
    obtain ⟨loss, hl⟩ := ingestAck_releaseLoss_frame (s._lastAckPacketID) a._lastPacketReceived
      (ingestAck_ack2 a s)._sendLossList.length
      { ingestAck_ack2 a s with
        _flowWindowSize := a._availBufferSize
        _lastAckPacketID := a._lastPacketReceived
        _sendPktPend := pend
        _socket := (ingestAck_ack2 a s)._socket ++ [SocketCall.applyRTT a._rtt] ++
          [SocketCall.onACK a._lastPacketReceived] }
    refine ⟨pend, loss, ?_⟩
    rw [hl]
    simp

theorem ackNotifications_append (x y : List SocketCall) :
    ackNotifications (x ++ y) = ackNotifications x ++ ackNotifications y := by
  simp [ackNotifications]

theorem shutdownRequests_append (x y : List SocketCall) :
    shutdownRequests (x ++ y) = shutdownRequests x ++ shutdownRequests y := by
  induction x with
  | nil => rfl
  | cons c rest ih => cases c <;> simp [shutdownRequests, ih]

theorem ingestAck_ack2_frame (a : ACKPacket) (s : UdtSocket_send) :
    ∃ sa timer extra, ingestAck_ack2 a s =
        { s with _sentAck2 := sa, _ACK2SentTimer := timer, _socket := s._socket ++ extra }
      ∧ (extra = [] ∨ extra = [SocketCall.sendPacket (Packet.Ack2 (a._ackSequence % UINT_MODULUS))]) := by
  unfold ingestAck_ack2
  split_ifs
  · exact ⟨_, _, _, rfl, Or.inr rfl⟩
  · exact ⟨s._sentAck2, s._ACK2SentTimer, [], by simp, Or.inl rfl⟩

theorem ingestAck_ack2_core (a : ACKPacket) (s : UdtSocket_send) :
    (ingestAck_ack2 a s)._lastAckPacketID = s._lastAckPacketID
    ∧ (ingestAck_ack2 a s)._flowWindowSize = s._flowWindowSize
    ∧ (ingestAck_ack2 a s)._sendPktPend = s._sendPktPend
    ∧ (ingestAck_ack2 a s)._sendLossList = s._sendLossList
    ∧ (ingestAck_ack2 a s)._sendPacketID = s._sendPacketID
    ∧ ackNotifications (ingestAck_ack2 a s)._socket = ackNotifications s._socket
    ∧ shutdownRequests (ingestAck_ack2 a s)._socket = shutdownRequests s._socket := by
  obtain ⟨sa, timer, extra, h, hx⟩ := ingestAck_ack2_frame a s
  rw [h]
  refine ⟨rfl, rfl, rfl, rfl, rfl, ?_, ?_⟩
  · rcases hx with hx | hx <;> simp [hx, ackNotifications]
  · rcases hx with hx | hx <;> simp [hx, shutdownRequests_append, shutdownRequests]

/-- The condition under which `ingestAck` returns before its frontier update:
the ACK is ahead of the send PacketID, or the frontier test holds and the Light
block does not advance. -/
theorem ingestAck_early (a : ACKPacket) (t : Nat) (s : UdtSocket_send)
    (hE : PacketID.blindDifference s._sendPacketID a._lastPacketReceived < 0
      ∨ (PacketID.le s._lastAckPacketID a._lastPacketReceived = true
          ∧ (a._ackType = AckType.Light →
              ¬ 0 < PacketID.blindDifference a._lastPacketReceived s._lastAckPacketID))) :
    (ingestAck a t s)._lastAckPacketID = s._lastAckPacketID
    ∧ (ingestAck a t s)._flowWindowSize = s._flowWindowSize
    ∧ (ingestAck a t s)._sendPktPend = s._sendPktPend
    ∧ (ingestAck a t s)._sendLossList = s._sendLossList
    ∧ (ingestAck a t s)._sendPacketID = s._sendPacketID
    ∧ ackNotifications (ingestAck a t s)._socket = ackNotifications s._socket := by
  obtain ⟨c1, c2, c3, c4, c5, c6, -⟩ := ingestAck_ack2_core a s
  by_cases hv : PacketID.blindDifference s._sendPacketID a._lastPacketReceived < 0
  · obtain ⟨hl, hf⟩ := ingestAck_of_invalid a t s hv
    cases hty : a._ackType with
    | Light =>
      rw [hl hty]
      exact ⟨rfl, rfl, rfl, rfl, rfl, by simp [ackNotifications]⟩
    | Full =>
      rw [hf hty]
      refine ⟨c1, c2, c3, c4, c5, ?_⟩
      simp only [ackNotifications_append, c6]
      simp [ackNotifications]
  · rcases hE with hE | ⟨hle, hnl⟩
    · exact absurd hE hv
    · rw [ingestAck_of_frontier_le a t s hv hle hnl]
      exact ⟨c1, c2, c3, c4, c5, c6⟩

theorem ingestAck_late (a : ACKPacket) (t : Nat) (s : UdtSocket_send)
    (hv : ¬ PacketID.blindDifference s._sendPacketID a._lastPacketReceived < 0)
    (hE : ¬ (PacketID.le s._lastAckPacketID a._lastPacketReceived = true
          ∧ (a._ackType = AckType.Light →
              ¬ 0 < PacketID.blindDifference a._lastPacketReceived s._lastAckPacketID))) :
    (ingestAck a t s)._lastAckPacketID = a._lastPacketReceived
    ∧ (ingestAck a t s)._sendPacketID = s._sendPacketID := by
  by_cases hle : PacketID.le s._lastAckPacketID a._lastPacketReceived = true
  · have hla : a._ackType = AckType.Light
        ∧ 0 < PacketID.blindDifference a._lastPacketReceived s._lastAckPacketID := by
      by_contra hc
      apply hE
      refine ⟨hle, fun hl hd => hc ⟨hl, hd⟩⟩
    rw [ingestAck_of_light_advance a t s hla.1 hv hla.2]
    obtain ⟨c1, -, -, -, c5, -, -⟩ := ingestAck_ack2_core a { s with
      _flowWindowSize := (((s._flowWindowSize : Int)
        + PacketID.blindDifference a._lastPacketReceived s._lastAckPacketID)
        % (UINT_MODULUS : Int)).toNat
      _lastAckPacketID := a._lastPacketReceived }
    exact ⟨c1, c5⟩
  · have hle' : PacketID.le s._lastAckPacketID a._lastPacketReceived = false := by
      simpa using hle
    obtain ⟨pend, loss, h⟩ := ingestAck_of_behind a t s hv hle'
    rw [h]
    exact ⟨rfl, (ingestAck_ack2_core a s).2.2.2.2.1⟩

theorem ingestAck_replay (a : ACKPacket) (t : Nat) (s : UdtSocket_send) :
    (ingestAck a t (ingestAck a t s))._lastAckPacketID = (ingestAck a t s)._lastAckPacketID
    ∧ (ingestAck a t (ingestAck a t s))._flowWindowSize = (ingestAck a t s)._flowWindowSize
    ∧ (ingestAck a t (ingestAck a t s))._sendPktPend = (ingestAck a t s)._sendPktPend
    ∧ (ingestAck a t (ingestAck a t s))._sendLossList = (ingestAck a t s)._sendLossList
    ∧ ackNotifications (ingestAck a t (ingestAck a t s))._socket =
        ackNotifications (ingestAck a t s)._socket := by
  have key : PacketID.blindDifference (ingestAck a t s)._sendPacketID a._lastPacketReceived < 0
      ∨ (PacketID.le (ingestAck a t s)._lastAckPacketID a._lastPacketReceived = true
          ∧ (a._ackType = AckType.Light →
              ¬ 0 < PacketID.blindDifference a._lastPacketReceived
                (ingestAck a t s)._lastAckPacketID)) := by
    by_cases hE : PacketID.blindDifference s._sendPacketID a._lastPacketReceived < 0
      ∨ (PacketID.le s._lastAckPacketID a._lastPacketReceived = true
          ∧ (a._ackType = AckType.Light →
              ¬ 0 < PacketID.blindDifference a._lastPacketReceived s._lastAckPacketID))
    · obtain ⟨e1, -, -, -, e5, -⟩ := ingestAck_early a t s hE
      rw [e1, e5]
      exact hE
    · have hv : ¬ PacketID.blindDifference s._sendPacketID a._lastPacketReceived < 0 :=
        fun h => hE (Or.inl h)
      obtain ⟨e1, e5⟩ := ingestAck_late a t s hv (fun h => hE (Or.inr h))
      rw [e1, e5]
      right
      refine ⟨by simp [PacketID.le, PacketID.blindDifference_self], fun _ => ?_⟩
      rw [PacketID.blindDifference_self]
      decide
  obtain ⟨e1, e2, e3, e4, -, e6⟩ := ingestAck_early a t (ingestAck a t s) key
  exact ⟨e1, e2, e3, e4, e6⟩

theorem ingestAck_shutdownRequests (a : ACKPacket) (t : Nat) (s : UdtSocket_send) :
    (PacketID.blindDifference s._sendPacketID a._lastPacketReceived < 0 →
        shutdownRequests (ingestAck a t s)._socket =
          shutdownRequests s._socket ++ [UdtSocketState.Corrupted])
    ∧ (¬ PacketID.blindDifference s._sendPacketID a._lastPacketReceived < 0 →
        shutdownRequests (ingestAck a t s)._socket = shutdownRequests s._socket) := by
  constructor
  · intro hv
    obtain ⟨hl, hf⟩ := ingestAck_of_invalid a t s hv
    cases hty : a._ackType with
    | Light =>
      rw [hl hty]
      simp [shutdownRequests_append, shutdownRequests]
    | Full =>
      rw [hf hty]
      simp only [shutdownRequests_append, (ingestAck_ack2_core a s).2.2.2.2.2.2]
      simp [shutdownRequests]
  · intro hv
    by_cases hle : PacketID.le s._lastAckPacketID a._lastPacketReceived = true
    · by_cases hla : a._ackType = AckType.Light
          ∧ 0 < PacketID.blindDifference a._lastPacketReceived s._lastAckPacketID
      · rw [ingestAck_of_light_advance a t s hla.1 hv hla.2]
        exact (ingestAck_ack2_core a _).2.2.2.2.2.2
      · rw [ingestAck_of_frontier_le a t s hv hle (fun hl hd => hla ⟨hl, hd⟩)]
        exact (ingestAck_ack2_core a s).2.2.2.2.2.2
    · have hle' : PacketID.le s._lastAckPacketID a._lastPacketReceived = false := by
        simpa using hle
      obtain ⟨pend, loss, h⟩ := ingestAck_of_behind a t s hv hle'
      rw [h]
      simp only [shutdownRequests_append, (ingestAck_ack2_core a s).2.2.2.2.2.2]
      split_ifs <;> simp [shutdownRequests]

/-! ### The loss list of a NAK -/

theorem NakMalformed_cons (w : Nat) (rest : List Nat) :
    NakMalformed (w :: rest) ↔
      (isRangeStart w ∧ (rest = [] ∨ ∃ w2 post2, rest = w2 :: post2 ∧ isRangeStart w2))
      ∨ NakMalformed rest := by
  constructor
  · rintro ⟨pre, w1, post, heq, h1, h2⟩
    cases pre with
    | nil =>
      simp only [List.nil_append, List.cons.injEq] at heq
      obtain ⟨rfl, rfl⟩ := heq
      exact Or.inl ⟨h1, h2⟩
    | cons p pre' =>
      simp only [List.cons_append, List.cons.injEq] at heq
      exact Or.inr ⟨pre', w1, post, heq.2, h1, h2⟩
  · rintro (⟨h1, h2⟩ | ⟨pre, w1, post, heq, h1, h2⟩)
    · exact ⟨[], w, rest, rfl, h1, h2⟩
    · exact ⟨w :: pre, w1, post, by simp [heq], h1, h2⟩

theorem NakMalformed_nil : ¬ NakMalformed [] := by
  rintro ⟨pre, w1, post, heq, -, -⟩
  cases pre <;> simp at heq

theorem assertValidSentPktID_of_false (id : PacketID) (s : UdtSocket_send)
    (h : (assertValidSentPktID id s).1 = false) :
    (assertValidSentPktID id s).2 =
      { s with _socket := s._socket ++ [SocketCall.requestShutdown UdtSocketState.Corrupted] } := by
  unfold assertValidSentPktID at h ⊢
  split_ifs at h ⊢ with hc
  rfl

theorem assertValidSentPktID_fst (id : PacketID) (s : UdtSocket_send) :
    (assertValidSentPktID id s).1 = !decide (PacketID.blindDifference s._sendPacketID id < 0) := by
  unfold assertValidSentPktID
  split_ifs with hc <;> simp [hc]

/-- The result of the loop of `ingestNak`: a return from `ingestNak` has only
requested a Corrupted shutdown, a completed loop has made no call; either may
have changed the loss set. -/
theorem ingestNak_loop_frame (n : Nat) : ∀ (l : List Nat) (acc : List PacketID) (s : UdtSocket_send),
    l.length ≤ n →
    ∃ loss, (ingestNak_loop l acc s).2 =
      { s with
        _sendLossList := loss
        _socket := s._socket ++
          (cond (ingestNak_loop l acc s).1.isNone
            [SocketCall.requestShutdown UdtSocketState.Corrupted] []) } := by
  induction n with
  | zero =>
    intro l acc s hl
    have : l = [] := List.length_eq_zero.mp (by omega)
    subst this
    exact ⟨s._sendLossList, by simp [ingestNak_loop]⟩
  | succ n ih =>
    intro l acc s hl
    cases l with
    | nil => exact ⟨s._sendLossList, by simp [ingestNak_loop]⟩
    | cons thisEntry rest =>
      have hv := fun id => assertValidSentPktID_of_false id s
      rw [ingestNak_loop]
      split_ifs with h1
      · cases rest with
        | nil => exact ⟨s._sendLossList, by simp⟩
        | cons lastEntry rest2 =>
          simp only []
          split_ifs with h2 h3 h4
          · exact ⟨s._sendLossList, by simp [hv _ (by simpa using h2)]⟩
          · exact ⟨s._sendLossList, by simp⟩
          · exact ⟨s._sendLossList, by simp [hv _ (by simpa using h4)]⟩
          · obtain ⟨loss, h⟩ := ih rest2
              (acc ++ spanList (PacketID.ofWord thisEntry) (PacketID.ofWord lastEntry))
              { s with _sendLossList := (spanList (PacketID.ofWord thisEntry)
                  (PacketID.ofWord lastEntry)).foldl PacketIDSet.insert s._sendLossList }
              (by simp only [List.length_cons] at hl; omega)
            exact ⟨loss, h⟩
      · simp only []
        split_ifs with h2
        · exact ⟨s._sendLossList, by simp [hv _ (by simpa using h2)]⟩
        · obtain ⟨loss, h⟩ := ih rest (acc ++ [PacketID.ofWord thisEntry])
            { s with _sendLossList := PacketIDSet.insert s._sendLossList (PacketID.ofWord thisEntry) }
            (by simp only [List.length_cons] at hl; omega)
          exact ⟨loss, h⟩

theorem ingestNak_loop_malformed (n : Nat) : ∀ (l : List Nat) (acc : List PacketID) (s : UdtSocket_send),
    l.length ≤ n → NakMalformed l → (ingestNak_loop l acc s).1 = none := by
  induction n with
  | zero =>
    intro l acc s hl hm
    have : l = [] := List.length_eq_zero.mp (by omega)
    subst this
    exact absurd hm NakMalformed_nil
  | succ n ih =>
    intro l acc s hl hm
    cases l with
    | nil => exact absurd hm NakMalformed_nil
    | cons thisEntry rest =>
      rw [NakMalformed_cons] at hm
      rw [ingestNak_loop]
      split_ifs with h1
      · cases rest with
        | nil => rfl
        | cons lastEntry rest2 =>
          simp only []
          split_ifs with h2 h3 h4
          · rfl
          · rfl
          · rfl
          · refine ih rest2 _ _ (by simp only [List.length_cons] at hl; omega) ?_
            rcases hm with ⟨-, hm | ⟨w2, post2, heq, hw2⟩⟩ | hm
            · simp at hm
            · simp only [List.cons.injEq] at heq
              obtain ⟨rfl, rfl⟩ := heq
              exact absurd hw2 h3
            · rw [NakMalformed_cons] at hm
              rcases hm with ⟨hw, -⟩ | hm
              · exact absurd hw h3
              · exact hm
      · simp only []
        split_ifs with h2
        · rfl
        · refine ih rest _ _ (by simp only [List.length_cons] at hl; omega) ?_
          rcases hm with ⟨hw, -⟩ | hm
          · exact absurd hw h1
          · exact hm

theorem nakIdentifiers_range (thisEntry lastEntry : Nat) (rest2 : List Nat)
    (h : thisEntry &&& 0x80000000 ≠ 0) :
    nakIdentifiers (thisEntry :: lastEntry :: rest2) =
      spanList (PacketID.ofWord thisEntry) (PacketID.ofWord lastEntry) ++ nakIdentifiers rest2 := by
  conv_lhs => unfold nakIdentifiers
  rw [if_pos h]

theorem nakIdentifiers_single (thisEntry : Nat) (rest : List Nat)
    (h : ¬ thisEntry &&& 0x80000000 ≠ 0) :
    nakIdentifiers (thisEntry :: rest) = PacketID.ofWord thisEntry :: nakIdentifiers rest := by
  conv_lhs => unfold nakIdentifiers
  rw [if_neg h]

theorem ingestNak_loop_wellformed (n : Nat) : ∀ (l : List Nat) (acc : List PacketID) (s : UdtSocket_send),
    l.length ≤ n → ¬ NakMalformed l →
    (∀ w ∈ l, ¬ PacketID.blindDifference s._sendPacketID (PacketID.ofWord w) < 0) →
    ingestNak_loop l acc s =
      (some (acc ++ nakIdentifiers l),
        { s with _sendLossList := (nakIdentifiers l).foldl PacketIDSet.insert s._sendLossList }) := by
  induction n with
  | zero =>
    intro l acc s hl hm hv
    have : l = [] := List.length_eq_zero.mp (by omega)
    subst this
    simp [ingestNak_loop, nakIdentifiers]
  | succ n ih =>
    intro l acc s hl hm hv
    cases l with
    | nil => simp [ingestNak_loop, nakIdentifiers]
    | cons thisEntry rest =>
      rw [NakMalformed_cons] at hm
      push_neg at hm
      have hv1 : (assertValidSentPktID (PacketID.ofWord thisEntry) s).1 = true := by
        rw [assertValidSentPktID_fst]; simpa using hv thisEntry (by simp)
      rw [ingestNak_loop]
      split_ifs with h1
      · cases rest with
        | nil => exact absurd rfl (hm.1 h1).1
        | cons lastEntry rest2 =>
          have h3 : ¬ isRangeStart lastEntry := fun h => (hm.1 h1).2 lastEntry rest2 rfl h
          have hv2 : (assertValidSentPktID (PacketID.ofWord lastEntry) s).1 = true := by
            rw [assertValidSentPktID_fst]; simpa using hv lastEntry (by simp)
          have hm2 : ¬ NakMalformed rest2 := by
            have := hm.2
            rw [NakMalformed_cons] at this
            push_neg at this
            exact this.2
          have h3' : ¬ (lastEntry &&& 0x80000000 ≠ 0) := h3
          simp only [hv1, hv2, h3', Bool.not_true, Bool.false_eq_true, if_false]
          rw [ih rest2 _ { s with _sendLossList := (spanList (PacketID.ofWord thisEntry)
              (PacketID.ofWord lastEntry)).foldl PacketIDSet.insert s._sendLossList }
            (by simp only [List.length_cons] at hl; omega) hm2
            (fun w hw => hv w (by simp [hw]))]
          rw [nakIdentifiers_range _ _ _ h1]
          simp [List.foldl_append]
      · simp only [hv1, Bool.not_true, Bool.false_eq_true, if_false]
        rw [ih rest _
          { s with _sendLossList := PacketIDSet.insert s._sendLossList (PacketID.ofWord thisEntry) }
          (by simp only [List.length_cons] at hl; omega) hm.2
          (fun w hw => hv w (by simp [hw]))]
        rw [nakIdentifiers_single _ _ h1]
        simp [List.foldl_append]

theorem ingestNak_of_malformed (l : List Nat) (t : Nat) (s : UdtSocket_send) (h : NakMalformed l) :
    ∃ loss, ingestNak l t s =
      { s with
        _sendLossList := loss
        _socket := s._socket ++ [SocketCall.requestShutdown UdtSocketState.Corrupted] } := by
  obtain ⟨loss, hf⟩ := ingestNak_loop_frame l.length l [] s (le_refl _)
  have hn := ingestNak_loop_malformed l.length l [] s (le_refl _) h
  refine ⟨loss, ?_⟩
  unfold ingestNak
  rcases hr : ingestNak_loop l [] s with ⟨r1, r2⟩
  rw [hr] at hf hn
  simp only at hn
  subst hn
  simpa using hf

theorem ingestNak_of_wellformed (l : List Nat) (t : Nat) (s : UdtSocket_send)
    (hm : ¬ NakMalformed l)
    (hv : ∀ w ∈ l, ¬ PacketID.blindDifference s._sendPacketID (PacketID.ofWord w) < 0) :
    ingestNak l t s =
      { s with
        _sendLossList := (nakIdentifiers l).foldl PacketIDSet.insert s._sendLossList
        _socket := s._socket ++ [SocketCall.onNAK (nakIdentifiers l)]
        _sendState := SendState.ProcessDrop } := by
  unfold ingestNak
  rw [ingestNak_loop_wellformed l.length l [] s (le_refl _) hm hv]
  simp

theorem shutdownRequests_onNAK (ids : List PacketID) :
    shutdownRequests [SocketCall.onNAK ids] = [] := rfl

theorem nakNotifications_append (a b : List SocketCall) :
    nakNotifications (a ++ b) = nakNotifications a ++ nakNotifications b := by
  induction a with
  | nil => rfl
  | cons c a ih => cases c <;> simp [nakNotifications, ih]

theorem not_NakMalformed_of_no_rangeStart (l : List Nat) (h : ∀ w ∈ l, ¬ isRangeStart w) :
    ¬ NakMalformed l := by
  rintro ⟨pre, w, post, heq, hw, -⟩
  exact h w (by simp [heq]) hw

theorem processSendLoss_loop_never_true (fuel : Nat) (s : UdtSocket_send) :
    returned (processSendLoss_loop none fuel s) ≠ some true := by
  induction fuel generalizing s with
  | zero => simp [processSendLoss_loop, returned]
  | succ n ih =>
    rw [processSendLoss_loop]
    split
    · simp [returned]
    · simp only []
      split
      · exact ih _
      · simp [returned]

theorem processSendLoss_never_true (s : UdtSocket_send) :
    returned (processSendLoss s) ≠ some true := by
  unfold processSendLoss
  split_ifs
  · simp [returned]
  · exact processSendLoss_loop_never_true _ s

/-! ### Timers, expiry and the event loop -/

theorem processExpEvent_of_timedOut (s : UdtSocket_send) (h : expTimedOut s) :
    processExpEvent s =
      { s with _socket := s._socket ++ [SocketCall.requestShutdown UdtSocketState.Timeout] } := by
  unfold processExpEvent
  have h1 : decide (s._expCount > 16) = true := by simpa using h.1
  have h2 : decide (s._clock - s._lastReceiveTime > MIN_CONNECTION_TIMEOUT) = true := by
    simpa using h.2
  simp only [h1, h2, Bool.and_self, if_true]

theorem processExpEvent_of_not_timedOut (s : UdtSocket_send) (h : ¬ expTimedOut s) :
    processExpEvent s =
      resetEXP
        { s with
          _sendLossList :=
            if s._sendPktPend.isEmpty then s._sendLossList
            else if s._sendLossList.isEmpty then
              (spanList (PacketID.incr s._lastAckPacketID) (PacketID.incr s._sendPacketID)).foldl
                PacketIDSet.insert s._sendLossList
            else s._sendLossList
          _sendState := if s._sendPktPend.isEmpty then s._sendState else SendState.ProcessDrop
          _socket := s._socket ++
            [if s._sendPktPend.isEmpty then SocketCall.sendPacket Packet.Keepalive
             else SocketCall.onTimeout]
          _expCount := (s._expCount + 1) % UINT_MODULUS } := by
  unfold processExpEvent
  have h1 : (decide (s._expCount > 16)
      && decide (s._clock - s._lastReceiveTime > MIN_CONNECTION_TIMEOUT)) = false := by
    unfold expTimedOut at h
    by_contra hc
    simp only [Bool.not_eq_false, Bool.and_eq_true, decide_eq_true_eq] at hc
    exact h hc
  simp only [h1, Bool.false_eq_true, if_false]
  cases hp : s._sendPktPend.isEmpty <;> cases hl : s._sendLossList.isEmpty <;> simp

theorem SendPacketEntryMap.find_ne_none_of_mem (m : SendPacketEntryMap) (k : PacketID)
    (e : SendPacketEntry) (h : (k, e) ∈ m) : SendPacketEntryMap.find m k ≠ none := by
  induction m with
  | nil => simp at h
  | cons kv rest ih =>
    obtain ⟨k1, e1⟩ := kv
    simp only [SendPacketEntryMap.find]
    by_cases hk : k1 = k
    · simp [hk]
    · simp only [hk, if_false]
      rcases List.mem_cons.mp h with h | h
      · simp only [Prod.mk.injEq] at h
        exact absurd h.1.symm hk
      · exact ih h

/-- The scan of `processSendExpire` over records that no round has expired and
whose keys are in the table: it returns false and changes nothing. -/
theorem processSendExpire_scan_none (snap l : List (PacketID × SendPacketEntry)) (s : UdtSocket_send)
    (hl : ∀ kv ∈ l, QDeadlineTimer.hasExpired s._clock kv.2.expireTime = false) :
    processSendExpire_scan snap l s = (false, s) := by
  induction l with
  | nil => rfl
  | cons kv rest ih =>
    obtain ⟨k, e⟩ := kv
    have he : QDeadlineTimer.hasExpired s._clock e.expireTime = false := hl (k, e) (by simp)
    have hr := ih (fun kv h => hl kv (List.mem_cons_of_mem _ h))
    simp only [processSendExpire_scan, he, Bool.false_eq_true, if_false, hr, ite_self]

/-- The scan of `processSendExpire` at the first expired record: the records
before it are passed over, and the collecting loop runs for its message. -/
theorem processSendExpire_scan_first (snap pre post : List (PacketID × SendPacketEntry))
    (k0 : PacketID) (e0 : SendPacketEntry) (s : UdtSocket_send)
    (hpre : ∀ kv ∈ pre, QDeadlineTimer.hasExpired s._clock kv.2.expireTime = false)
    (he : QDeadlineTimer.hasExpired s._clock e0.expireTime = true)
    (hf : SendPacketEntryMap.find s._sendPktPend k0 ≠ none) :
    processSendExpire_scan snap (pre ++ (k0, e0) :: post) s =
      (true,
        { (processSendExpire_collect e0.packet._messageNumber snap
            ({ _messageID := e0.packet._messageNumber, _firstPacketID := k0, _lastPacketID := k0 },
              s)).2 with
          _socket := (processSendExpire_collect e0.packet._messageNumber snap
            ({ _messageID := e0.packet._messageNumber, _firstPacketID := k0, _lastPacketID := k0 },
              s)).2._socket ++
            [SocketCall.sendPacket (Packet.MsgDropReq (processSendExpire_collect
              e0.packet._messageNumber snap
              ({ _messageID := e0.packet._messageNumber, _firstPacketID := k0,
                 _lastPacketID := k0 }, s)).1)] }) := by
  induction pre with
  | nil =>
    have hf2 : (SendPacketEntryMap.find s._sendPktPend k0).isNone = false := by
      cases h : SendPacketEntryMap.find s._sendPktPend k0 with
      | none => exact absurd h hf
      | some _ => rfl
    simp only [List.nil_append, processSendExpire_scan, hf2, Bool.false_eq_true, if_false, he,
      if_true]
  | cons kv rest ih =>
    obtain ⟨k, e⟩ := kv
    have hexp : QDeadlineTimer.hasExpired s._clock e.expireTime = false := hpre (k, e) (by simp)
    have hr := ih (fun kv h => hpre kv (List.mem_cons_of_mem _ h))
    rw [List.cons_append, processSendExpire_scan]
    simp only [hexp, Bool.false_eq_true, if_false, ite_self]
    exact hr

theorem exists_first_expired (now : Nat) (l : List (PacketID × SendPacketEntry))
    (h : ∃ kv ∈ l, QDeadlineTimer.hasExpired now kv.2.expireTime = true) :
    ∃ pre k0 e0 post, l = pre ++ (k0, e0) :: post
      ∧ (∀ kv ∈ pre, QDeadlineTimer.hasExpired now kv.2.expireTime = false)
      ∧ QDeadlineTimer.hasExpired now e0.expireTime = true := by
  induction l with
  | nil => simp at h
  | cons kv rest ih =>
    by_cases hkv : QDeadlineTimer.hasExpired now kv.2.expireTime = true
    · exact ⟨[], kv.1, kv.2, rest, rfl, by simp, hkv⟩
    · have hkv2 : QDeadlineTimer.hasExpired now kv.2.expireTime = false := by simpa using hkv
      obtain ⟨kv2, hm, h2⟩ := h
      rcases List.mem_cons.mp hm with rfl | hm
      · exact absurd h2 hkv
      · obtain ⟨pre, k0, e0, post, heq, hp, he⟩ := ih ⟨kv2, hm, h2⟩
        refine ⟨kv :: pre, k0, e0, post, by simp [heq], ?_, he⟩
        intro x hx
        rcases List.mem_cons.mp hx with rfl | hx
        · exact hkv2
        · exact hp x hx

theorem PacketID.blindDifference_pos_iff (a b : PacketID) :
    0 < PacketID.blindDifference a b ↔
      0 < PacketID.offset b a ∧ PacketID.offset b a ≤ 2 ^ 30 := by
  have key : ∀ d : Nat, d < 2147483648 →
      ((0 : Int) < (if d > 2 ^ 30 then (d : Int) - ((2 ^ 31 : Nat) : Int) else (d : Int))
        ↔ 0 < d ∧ d ≤ 2 ^ 30) := by
    intro d hd
    split_ifs with h <;> push_cast <;> omega
  exact key _ (Nat.mod_lt _ (by norm_num [PacketID.MODULUS]))

theorem PacketID.blindDifference_nonneg_iff (a b : PacketID) :
    0 ≤ PacketID.blindDifference a b ↔ PacketID.offset b a ≤ 2 ^ 30 := by
  have key : ∀ d : Nat, d < 2147483648 →
      ((0 : Int) ≤ (if d > 2 ^ 30 then (d : Int) - ((2 ^ 31 : Nat) : Int) else (d : Int))
        ↔ d ≤ 2 ^ 30) := by
    intro d hd
    split_ifs with h <;> push_cast <;> omega
  exact key _ (Nat.mod_lt _ (by norm_num [PacketID.MODULUS]))

theorem PacketID.offset_sub (base a c : PacketID)
    (ha : PacketID.offset base a < 2 ^ 30) (hc : PacketID.offset base c < 2 ^ 30) :
    (PacketID.offset base a < PacketID.offset base c →
        PacketID.offset a c = PacketID.offset base c - PacketID.offset base a)
    ∧ (PacketID.offset base c < PacketID.offset base a →
        PacketID.offset a c = 2 ^ 31 - (PacketID.offset base a - PacketID.offset base c))
    ∧ (PacketID.offset base c = PacketID.offset base a → PacketID.offset a c = 0) := by
  have key : ∀ x y z : Nat,
      (x % 2147483648 + 2147483648 - z % 2147483648) % 2147483648 < 2 ^ 30 →
      (y % 2147483648 + 2147483648 - z % 2147483648) % 2147483648 < 2 ^ 30 →
      ((x % 2147483648 + 2147483648 - z % 2147483648) % 2147483648
          < (y % 2147483648 + 2147483648 - z % 2147483648) % 2147483648 →
        (y % 2147483648 + 2147483648 - x % 2147483648) % 2147483648 =
          (y % 2147483648 + 2147483648 - z % 2147483648) % 2147483648
            - (x % 2147483648 + 2147483648 - z % 2147483648) % 2147483648)
      ∧ ((y % 2147483648 + 2147483648 - z % 2147483648) % 2147483648
          < (x % 2147483648 + 2147483648 - z % 2147483648) % 2147483648 →
        (y % 2147483648 + 2147483648 - x % 2147483648) % 2147483648 =
          2 ^ 31 - ((x % 2147483648 + 2147483648 - z % 2147483648) % 2147483648
            - (y % 2147483648 + 2147483648 - z % 2147483648) % 2147483648))
      ∧ ((y % 2147483648 + 2147483648 - z % 2147483648) % 2147483648
          = (x % 2147483648 + 2147483648 - z % 2147483648) % 2147483648 →
        (y % 2147483648 + 2147483648 - x % 2147483648) % 2147483648 = 0) := by
    intro x y z
    omega
  exact key a c base ha hc

theorem PacketID.lt_iff_offset (base a c : PacketID)
    (ha : PacketID.offset base a < 2 ^ 30) (hc : PacketID.offset base c < 2 ^ 30) :
    PacketID.lt a c = true ↔ PacketID.offset base a < PacketID.offset base c := by
  obtain ⟨h1, h2, h3⟩ := PacketID.offset_sub base a c ha hc
  unfold PacketID.lt
  rw [decide_eq_true_eq, PacketID.blindDifference_pos_iff]
  have key : ∀ p q r : Nat, p < 2 ^ 30 → q < 2 ^ 30 →
      (p < q → r = q - p) → (q < p → r = 2 ^ 31 - (p - q)) → (q = p → r = 0) →
      ((0 < r ∧ r ≤ 2 ^ 30) ↔ p < q) := by
    intro p q r
    omega
  exact key _ _ _ ha hc h1 h2 h3

theorem PacketID.le_iff_offset (base a c : PacketID)
    (ha : PacketID.offset base a < 2 ^ 30) (hc : PacketID.offset base c < 2 ^ 30) :
    PacketID.le a c = true ↔ PacketID.offset base a ≤ PacketID.offset base c := by
  obtain ⟨h1, h2, h3⟩ := PacketID.offset_sub base a c ha hc
  unfold PacketID.le
  rw [decide_eq_true_eq, PacketID.blindDifference_nonneg_iff]
  have key : ∀ p q r : Nat, p < 2 ^ 30 → q < 2 ^ 30 →
      (p < q → r = q - p) → (q < p → r = 2 ^ 31 - (p - q)) → (q = p → r = 0) →
      (r ≤ 2 ^ 30 ↔ p ≤ q) := by
    intro p q r
    omega
  exact key _ _ _ ha hc h1 h2 h3

theorem messagePacketIDs_cons_pos (n : SequenceNumber) (k : PacketID) (e : SendPacketEntry)
    (rest : SendPacketEntryMap) (h : e.packet._messageNumber = n) :
    messagePacketIDs n ((k, e) :: rest) = k :: messagePacketIDs n rest := by
  simp [messagePacketIDs, h]

theorem messagePacketIDs_cons_neg (n : SequenceNumber) (k : PacketID) (e : SendPacketEntry)
    (rest : SendPacketEntryMap) (h : ¬ e.packet._messageNumber = n) :
    messagePacketIDs n ((k, e) :: rest) = messagePacketIDs n rest := by
  simp [messagePacketIDs, h]

theorem mem_messagePacketIDs (n : SequenceNumber) (pend : SendPacketEntryMap) (k : PacketID) :
    k ∈ messagePacketIDs n pend ↔ ∃ e, (k, e) ∈ pend ∧ e.packet._messageNumber = n := by
  simp [messagePacketIDs]

/-- The state after the collecting loop of `processSendExpire`: the keys of the
records of message `n` in the list are erased from the unacked table and from
the loss set, and nothing else changes. -/
theorem processSendExpire_collect_state (n : SequenceNumber) (l : List (PacketID × SendPacketEntry))
    (d : MessageDropRequestPacket) (s : UdtSocket_send) :
    (processSendExpire_collect n l (d, s)).2 =
      { s with
        _sendPktPend := s._sendPktPend.filter (fun kv => decide (kv.1 ∉ messagePacketIDs n l))
        _sendLossList := s._sendLossList.filter (fun x => decide (x ∉ messagePacketIDs n l)) } := by
  induction l generalizing d s with
  | nil => simp [processSendExpire_collect, messagePacketIDs]
  | cons kv rest ih =>
    obtain ⟨k, e⟩ := kv
    rw [processSendExpire_collect]
    by_cases hn : e.packet._messageNumber = n
    · simp only [hn, if_true]
      rw [ih, messagePacketIDs_cons_pos n k e rest hn]
      have hfil : k ∉ s._sendLossList →
          s._sendLossList.filter (fun x => !decide (x = k)) = s._sendLossList := by
        intro hm
        rw [List.filter_eq_self]
        intro x hx
        have : x ≠ k := fun h => hm (h ▸ hx)
        simp [this]
      have hrest : (if k ∈ s._sendLossList then
            ({ s with _sendLossList := PacketIDSet.erase s._sendLossList k } : UdtSocket_send)
          else s) = { s with _sendLossList := s._sendLossList.filter (fun x => !decide (x = k)) } := by
        split_ifs with hm
        · rfl
        · rw [hfil hm]
      rw [hrest]
      simp only [SendPacketEntryMap.erase, List.filter_filter]
      congr 1
      · apply List.filter_congr
        intro x _
        by_cases h1 : x.1 = k <;> by_cases h2 : x.1 ∈ messagePacketIDs n rest <;> simp [h1, h2]
      · apply List.filter_congr
        intro x _
        by_cases h1 : x = k <;> by_cases h2 : x ∈ messagePacketIDs n rest <;> simp [h1, h2]
    · simp only [hn, if_false]
      rw [ih, messagePacketIDs_cons_neg n k e rest hn]

/-- The drop request after the collecting loop of `processSendExpire`: the
running bounds over the keys of the records of message `n`. -/
theorem processSendExpire_collect_drop (n : SequenceNumber) (l : List (PacketID × SendPacketEntry))
    (d : MessageDropRequestPacket) (s : UdtSocket_send) :
    (processSendExpire_collect n l (d, s)).1 =
      { _messageID := d._messageID
        _firstPacketID := (messagePacketIDs n l).foldl
          (fun f k => if PacketID.lt k f then k else f) d._firstPacketID
        _lastPacketID := (messagePacketIDs n l).foldl
          (fun f k => if PacketID.lt f k then k else f) d._lastPacketID } := by
  induction l generalizing d s with
  | nil => simp [processSendExpire_collect, messagePacketIDs]
  | cons kv rest ih =>
    obtain ⟨k, e⟩ := kv
    rw [processSendExpire_collect]
    by_cases hn : e.packet._messageNumber = n
    · simp only [hn, if_true]
      rw [ih, messagePacketIDs_cons_pos n k e rest hn]
      simp only [List.foldl_cons]
      by_cases h1 : PacketID.lt k d._firstPacketID = true
      · by_cases h2 : PacketID.lt d._lastPacketID k = true <;> simp [h1, h2]
      · by_cases h2 : PacketID.lt d._lastPacketID k = true <;> simp [h1, h2]
    · simp only [hn, if_false]
      rw [ih, messagePacketIDs_cons_neg n k e rest hn]

theorem foldl_first_mem (ids : List PacketID) (f0 : PacketID) :
    ids.foldl (fun f k => if PacketID.lt k f then k else f) f0 ∈ f0 :: ids := by
  induction ids generalizing f0 with
  | nil => simp
  | cons k rest ih =>
    simp only [List.foldl_cons]
    have h := ih (if PacketID.lt k f0 then k else f0)
    rcases List.mem_cons.mp h with h | h
    · rw [h]
      split_ifs <;> simp
    · exact List.mem_cons_of_mem _ (List.mem_cons_of_mem _ h)

theorem foldl_last_mem (ids : List PacketID) (f0 : PacketID) :
    ids.foldl (fun f k => if PacketID.lt f k then k else f) f0 ∈ f0 :: ids := by
  induction ids generalizing f0 with
  | nil => simp
  | cons k rest ih =>
    simp only [List.foldl_cons]
    have h := ih (if PacketID.lt f0 k then k else f0)
    rcases List.mem_cons.mp h with h | h
    · rw [h]
      split_ifs <;> simp
    · exact List.mem_cons_of_mem _ (List.mem_cons_of_mem _ h)

theorem foldl_first_le (base : PacketID) (ids : List PacketID) (f0 : PacketID)
    (h0 : PacketID.offset base f0 < 2 ^ 30) (h : ∀ k ∈ ids, PacketID.offset base k < 2 ^ 30) :
    ∀ k ∈ f0 :: ids,
      PacketID.offset base (ids.foldl (fun f k => if PacketID.lt k f then k else f) f0)
        ≤ PacketID.offset base k := by
  induction ids generalizing f0 with
  | nil => simp
  | cons k1 rest ih =>
    have hk1 : PacketID.offset base k1 < 2 ^ 30 := h k1 (by simp)
    have hrest : ∀ k ∈ rest, PacketID.offset base k < 2 ^ 30 :=
      fun k hk => h k (List.mem_cons_of_mem _ hk)
    simp only [List.foldl_cons]
    have hlt := PacketID.lt_iff_offset base k1 f0 hk1 h0
    by_cases hc : PacketID.lt k1 f0 = true
    · simp only [hc, if_true]
      have hi := ih k1 hk1 hrest
      intro k hk
      rcases List.mem_cons.mp hk with rfl | hk
      · exact le_trans (hi k1 (by simp)) (le_of_lt (hlt.mp hc))
      · exact hi k hk
    · simp only [hc, if_false]
      have hi := ih f0 h0 hrest
      intro k hk
      rcases List.mem_cons.mp hk with rfl | hk
      · exact hi k (by simp)
      · rcases List.mem_cons.mp hk with rfl | hk
        · have : ¬ PacketID.offset base k < PacketID.offset base f0 := fun hh => hc (hlt.mpr hh)
          exact le_trans (hi f0 (by simp)) (not_lt.mp this)
        · exact hi k (List.mem_cons_of_mem _ hk)

theorem foldl_last_le (base : PacketID) (ids : List PacketID) (f0 : PacketID)
    (h0 : PacketID.offset base f0 < 2 ^ 30) (h : ∀ k ∈ ids, PacketID.offset base k < 2 ^ 30) :
    ∀ k ∈ f0 :: ids,
      PacketID.offset base k
        ≤ PacketID.offset base (ids.foldl (fun f k => if PacketID.lt f k then k else f) f0) := by
  induction ids generalizing f0 with
  | nil => simp
  | cons k1 rest ih =>
    have hk1 : PacketID.offset base k1 < 2 ^ 30 := h k1 (by simp)
    have hrest : ∀ k ∈ rest, PacketID.offset base k < 2 ^ 30 :=
      fun k hk => h k (List.mem_cons_of_mem _ hk)
    simp only [List.foldl_cons]
    have hlt := PacketID.lt_iff_offset base f0 k1 h0 hk1
    by_cases hc : PacketID.lt f0 k1 = true
    · simp only [hc, if_true]
      have hi := ih k1 hk1 hrest
      intro k hk
      rcases List.mem_cons.mp hk with rfl | hk
      · exact le_trans (le_of_lt (hlt.mp hc)) (hi k1 (by simp))
      · exact hi k hk
    · simp only [hc, if_false]
      have hi := ih f0 h0 hrest
      intro k hk
      rcases List.mem_cons.mp hk with rfl | hk
      · exact hi k (by simp)
      · rcases List.mem_cons.mp hk with rfl | hk
        · have : ¬ PacketID.offset base f0 < PacketID.offset base k := fun hh => hc (hlt.mpr hh)
          exact le_trans (not_lt.mp this) (hi f0 (by simp))
        · exact hi k (List.mem_cons_of_mem _ hk)

theorem SendPacketEntryMap.entry_unique (m : SendPacketEntryMap) (k : PacketID)
    (e1 e2 : SendPacketEntry) (hk : (m.map Prod.fst).Nodup)
    (h1 : (k, e1) ∈ m) (h2 : (k, e2) ∈ m) : e1 = e2 := by
  induction m with
  | nil => simp at h1
  | cons kv rest ih =>
    simp only [List.map_cons, List.nodup_cons, List.mem_map, not_exists, not_and] at hk
    rcases List.mem_cons.mp h1 with h1 | h1 <;> rcases List.mem_cons.mp h2 with h2 | h2
    · rw [← h1] at h2
      exact (Prod.mk.inj h2).2.symm
    · exact absurd (by rw [← h1]) (hk.1 (k, e2) h2)
    · exact absurd (by rw [← h2]) (hk.1 (k, e1) h1)
    · exact ih hk.2 h1 h2

theorem messagePacketIDs_filter (n : SequenceNumber) (m : SendPacketEntryMap)
    (hk : (m.map Prod.fst).Nodup) :
    m.filter (fun kv => decide (kv.1 ∉ messagePacketIDs n m)) =
      m.filter (fun kv => decide (kv.2.packet._messageNumber ≠ n)) := by
  apply List.filter_congr
  intro kv hkv
  have : kv.1 ∈ messagePacketIDs n m ↔ kv.2.packet._messageNumber = n := by
    rw [mem_messagePacketIDs]
    constructor
    · rintro ⟨e, he, hn⟩
      have := SendPacketEntryMap.entry_unique m kv.1 e kv.2 hk he hkv
      rw [← this]; exact hn
    · intro hn
      exact ⟨kv.2, hkv, hn⟩
  simp [this]

/-- The result of `processSendExpire` when the first expired record of the
table is `(k0, e0)`. -/
theorem processSendExpire_of_first_expired (s : UdtSocket_send)
    (pre post : List (PacketID × SendPacketEntry)) (k0 : PacketID) (e0 : SendPacketEntry)
    (hs : s._sendPktPend = pre ++ (k0, e0) :: post)
    (hpre : ∀ kv ∈ pre, QDeadlineTimer.hasExpired s._clock kv.2.expireTime = false)
    (he : QDeadlineTimer.hasExpired s._clock e0.expireTime = true) :
    processSendExpire s =
      (true,
        { s with
          _sendPktPend := s._sendPktPend.filter
            (fun kv => decide (kv.1 ∉ messagePacketIDs e0.packet._messageNumber s._sendPktPend))
          _sendLossList := s._sendLossList.filter
            (fun x => decide (x ∉ messagePacketIDs e0.packet._messageNumber s._sendPktPend))
          _socket := s._socket ++
            [SocketCall.sendPacket (Packet.MsgDropReq
              { _messageID := e0.packet._messageNumber
                _firstPacketID :=
                  (messagePacketIDs e0.packet._messageNumber s._sendPktPend).foldl
                    (fun f k => if PacketID.lt k f then k else f) k0
                _lastPacketID :=
                  (messagePacketIDs e0.packet._messageNumber s._sendPktPend).foldl
                    (fun f k => if PacketID.lt f k then k else f) k0 })] }) := by
  have hmem : (k0, e0) ∈ s._sendPktPend := by rw [hs]; simp
  have hne : s._sendPktPend.isEmpty = false := by
    rw [hs]; cases pre <;> rfl
  unfold processSendExpire
  simp only [hne, Bool.false_eq_true, if_false]
  conv_lhs => arg 2; rw [hs]
  rw [processSendExpire_scan_first _ pre post k0 e0 s hpre he
    (SendPacketEntryMap.find_ne_none_of_mem _ _ _ hmem)]
  rw [processSendExpire_collect_state, processSendExpire_collect_drop]

theorem shutdownPackets_append (a b : List SocketCall) :
    shutdownPackets (a ++ b) = shutdownPackets a + shutdownPackets b := by
  induction a with
  | nil => simp [shutdownPackets]
  | cons c a ih =>
    cases c with
    | sendPacket p => cases p <;> simp [shutdownPackets, ih] ; omega
    | _ => simp [shutdownPackets, ih]

theorem steady_refl (s : UdtSocket_send) : Steady s s := ⟨rfl, rfl, rfl, rfl⟩

theorem steady_trans {s t u : UdtSocket_send} (h1 : Steady s t) (h2 : Steady t u) : Steady s u :=
  ⟨h2.1.trans h1.1, h2.2.1.trans h1.2.1, h2.2.2.1.trans h1.2.2.1, h2.2.2.2.trans h1.2.2.2⟩

theorem resetEXP_steady (s : UdtSocket_send) : Steady s (resetEXP s) := ⟨rfl, rfl, rfl, rfl⟩

theorem processSendExpire_steady (s : UdtSocket_send) : Steady s (processSendExpire s).2 := by
  obtain ⟨pend, loss, extra, h, -⟩ := processSendExpire_frame s
  obtain ⟨extra2, h2, hx⟩ := processSendExpire_socket s
  rw [h] at h2 ⊢
  simp only [List.append_cancel_left_eq] at h2
  subst h2
  refine ⟨rfl, rfl, rfl, ?_⟩
  simp only [shutdownPackets_append]
  rcases hx with hx | ⟨d, hx⟩ <;> simp [hx, shutdownPackets]

theorem assertValidSentPktID_steady (packetID : PacketID) (s : UdtSocket_send) :
    Steady s (assertValidSentPktID packetID s).2 := by
  unfold assertValidSentPktID
  split_ifs
  · exact ⟨rfl, rfl, rfl, by simp [shutdownPackets_append, shutdownPackets]⟩
  · exact steady_refl s

theorem ingestAck_releasePend_steady (o l : PacketID) (fuel : Nat) (s : UdtSocket_send) :
    Steady s (ingestAck_releasePend o l fuel s) := by
  obtain ⟨pend, h⟩ := ingestAck_releasePend_frame o l fuel s
  rw [h]
  exact ⟨rfl, rfl, rfl, rfl⟩

theorem ingestAck_releaseLoss_steady (o l : PacketID) (fuel : Nat) (s : UdtSocket_send) :
    Steady s (ingestAck_releaseLoss o l fuel s) := by
  obtain ⟨loss, h⟩ := ingestAck_releaseLoss_frame o l fuel s
  rw [h]
  exact ⟨rfl, rfl, rfl, rfl⟩

theorem ingestAck_steady (a : ACKPacket) (t : Nat) (s : UdtSocket_send) :
    Steady s (ingestAck a t s) := by
  have h1 : Steady s (ingestAck_light a s).2 := by
    unfold ingestAck_light
    have h := assertValidSentPktID_steady a._lastPacketReceived s
    simp only []
    split_ifs <;> first | exact h | exact ⟨rfl, rfl, rfl, rfl⟩
  have h2 : ∀ s : UdtSocket_send, Steady s (ingestAck_ack2 a s) := by
    intro s
    unfold ingestAck_ack2
    split_ifs
    · exact ⟨rfl, rfl, rfl, by simp [shutdownPackets_append, shutdownPackets]⟩
    · exact steady_refl s
  have h3 := assertValidSentPktID_steady a._lastPacketReceived
    (ingestAck_ack2 a (ingestAck_light a s).2)
  have h123 := steady_trans (steady_trans h1 (h2 _)) h3
  unfold ingestAck
  simp only []
  split_ifs
  · exact h1
  · exact h123
  · exact h123
  · refine steady_trans h123 (steady_trans ?_ (steady_trans
      (ingestAck_releasePend_steady _ _ _ _) (ingestAck_releaseLoss_steady _ _ _ _)))
    exact ⟨rfl, rfl, rfl, by simp [shutdownPackets_append, shutdownPackets]⟩
  · refine steady_trans h123 (steady_trans ?_ (steady_trans
      (ingestAck_releasePend_steady _ _ _ _) (ingestAck_releaseLoss_steady _ _ _ _)))
    exact ⟨rfl, rfl, rfl, by simp [shutdownPackets_append, shutdownPackets]⟩

theorem ingestNak_steady (lossData : List Nat) (t : Nat) (s : UdtSocket_send) :
    Steady s (ingestNak lossData t s) := by
  obtain ⟨loss, h⟩ := ingestNak_loop_frame lossData.length lossData [] s (le_refl _)
  unfold ingestNak
  rcases hr : ingestNak_loop lossData [] s with ⟨r1, r2⟩
  rw [hr] at h
  simp only at h
  subst h
  cases r1 <;> exact ⟨rfl, rfl, rfl, by simp [shutdownPackets_append, shutdownPackets]⟩

theorem processExpEvent_steady (s : UdtSocket_send) : Steady s (processExpEvent s) := by
  by_cases h : expTimedOut s
  · rw [processExpEvent_of_timedOut s h]
    exact ⟨rfl, rfl, rfl, by simp [shutdownPackets_append, shutdownPackets]⟩
  · rw [processExpEvent_of_not_timedOut s h]
    refine ⟨rfl, rfl, rfl, ?_⟩
    simp only [resetEXP, shutdownPackets_append]
    cases s._sendPktPend.isEmpty <;> simp [shutdownPackets]

theorem processSendLoss_loop_steady (fuel : Nat) (s : UdtSocket_send) :
    Steady s (outcomeState (processSendLoss_loop none fuel s)) := by
  induction fuel generalizing s with
  | zero => exact ⟨rfl, rfl, rfl, rfl⟩
  | succ n ih =>
    rw [processSendLoss_loop]
    split
    · exact ⟨rfl, rfl, rfl, rfl⟩
    · simp only []
      split
      · exact steady_trans ⟨rfl, rfl, rfl, rfl⟩ (ih _)
      · exact ⟨rfl, rfl, rfl, rfl⟩

theorem processSendLoss_steady (s : UdtSocket_send) :
    Steady s (outcomeState (processSendLoss s)) := by
  unfold processSendLoss
  split_ifs
  · exact ⟨rfl, rfl, rfl, rfl⟩
  · exact processSendLoss_loop_steady _ s

theorem processEvent_resend_steady (s : UdtSocket_send) :
    Steady s (outcomeState (processEvent_resend s)) := by
  have h := processSendLoss_steady s
  unfold processEvent_resend
  split
  · rename_i e heq
    rw [heq] at h
    exact h
  · rename_i r s1 heq
    rw [heq] at h
    split_ifs
    · exact steady_trans h (processSendExpire_steady s1)
    · exact h

theorem processEvent_dispatch_steady (recvPacket : ReceivedPacket) (s : UdtSocket_send) :
    Steady s (processEvent_dispatch recvPacket s) := by
  unfold processEvent_dispatch
  split
  · exact ingestAck_steady _ _ _
  · exact ingestNak_steady _ _ _
  · exact ⟨rfl, rfl, rfl, rfl⟩
  · exact ⟨rfl, rfl, rfl, rfl⟩

theorem processEvent_events_steady (s : UdtSocket_send) :
    Steady s (outcomeState (processEvent_events s)) := by
  have hq : ∀ t : UdtSocket_send, Steady s t →
      Steady s (outcomeState
        (if t._flagRecentEXPevent then
          Except.ok (true, processExpEvent { t with _flagRecentEXPevent := false })
        else if t._flagRecentSNDevent then
          if ({ t with _flagRecentSNDevent := false } : UdtSocket_send)._sendState = SendState.Sending then
            processEvent_resend { ({ t with _flagRecentSNDevent := false } : UdtSocket_send) with
              _sendState := reevalSendState { t with _flagRecentSNDevent := false } }
          else Except.ok (false, { t with _flagRecentSNDevent := false })
        else Except.ok (false, t))) := by
    intro t ht
    split_ifs
    · exact steady_trans ht (steady_trans ⟨rfl, rfl, rfl, rfl⟩ (processExpEvent_steady _))
    · exact steady_trans ht (steady_trans ⟨rfl, rfl, rfl, rfl⟩ (processEvent_resend_steady _))
    · exact steady_trans ht ⟨rfl, rfl, rfl, rfl⟩
    · exact ht
  unfold processEvent_events
  cases hr : s._receivedPacketList with
  | nil => exact hq s ⟨rfl, rfl, rfl, rfl⟩
  | cons recvPacket rest =>
    exact hq _ (steady_trans (steady_trans ⟨rfl, rfl, rfl, rfl⟩
      (processEvent_dispatch_steady recvPacket { s with _receivedPacketList := rest }))
      ⟨rfl, rfl, rfl, rfl⟩)

theorem processEvent_switch_halfClosed (s : UdtSocket_send)
    (h : s._socketState = UdtSocketState.HalfClosed) :
    Steady s (outcomeState (processEvent_switch s))
    ∧ Quiet s (outcomeState (processEvent_switch s)) := by
  unfold processEvent_switch
  cases h1 : s._sendState <;> simp only [h] <;>
    first
    | exact ⟨steady_trans ⟨rfl, rfl, rfl, rfl⟩ (processEvent_resend_steady _),
        Quiet.trans ⟨rfl, rfl⟩ (processEvent_resend_quiet _)⟩
    | exact ⟨⟨rfl, rfl, rfl, rfl⟩, ⟨rfl, rfl⟩⟩
    | exact ⟨processEvent_events_steady s, processEvent_events_quiet s⟩

theorem findFirstEntry_eq (keys : List PacketID) (low high : PacketID) :
    findFirstEntry keys low high = (keys.filter (inWindow low high)).foldl (nearer low) none := rfl

theorem foldl_nearer_some (low : PacketID) (l : List PacketID) (b : PacketID) :
    ∃ k, l.foldl (nearer low) (some b) = some k ∧ (k = b ∨ k ∈ l)
      ∧ PacketID.offset low k ≤ PacketID.offset low b
      ∧ ∀ y ∈ l, PacketID.offset low k ≤ PacketID.offset low y := by
  induction l generalizing b with
  | nil => exact ⟨b, rfl, Or.inl rfl, le_refl _, by simp⟩
  | cons x rest ih =>
    simp only [List.foldl_cons, nearer]
    by_cases hx : PacketID.offset low x < PacketID.offset low b
    · simp only [hx, if_true]
      obtain ⟨k, h1, h2, h3, h4⟩ := ih x
      refine ⟨k, h1, ?_, by omega, ?_⟩
      · rcases h2 with h2 | h2
        · exact Or.inr (by simp [h2])
        · exact Or.inr (List.mem_cons_of_mem _ h2)
      · intro y hy
        rcases List.mem_cons.mp hy with rfl | hy
        · exact h3
        · exact h4 y hy
    · simp only [hx, if_false]
      obtain ⟨k, h1, h2, h3, h4⟩ := ih b
      refine ⟨k, h1, ?_, h3, ?_⟩
      · rcases h2 with h2 | h2
        · exact Or.inl h2
        · exact Or.inr (List.mem_cons_of_mem _ h2)
      · intro y hy
        rcases List.mem_cons.mp hy with rfl | hy
        · omega
        · exact h4 y hy

/-- What `findFirstEntry` returns: nothing when no key lies in the window, else
a key of the window that no key of the window precedes. -/
theorem findFirstEntry_spec (keys : List PacketID) (low high : PacketID) :
    (findFirstEntry keys low high = none ∧ ∀ y ∈ keys, inWindow low high y = false)
    ∨ ∃ k, findFirstEntry keys low high = some k ∧ k ∈ keys ∧ inWindow low high k = true
        ∧ ∀ y ∈ keys, inWindow low high y = true →
            PacketID.offset low k ≤ PacketID.offset low y := by
  rw [findFirstEntry_eq]
  cases hf : keys.filter (inWindow low high) with
  | nil =>
    left
    refine ⟨rfl, ?_⟩
    intro y hy
    by_contra hc
    have : y ∈ keys.filter (inWindow low high) := List.mem_filter.mpr ⟨hy, by simpa using hc⟩
    rw [hf] at this
    simp at this
  | cons x rest =>
    right
    simp only [List.foldl_cons, nearer]
    obtain ⟨k, h1, h2, h3, h4⟩ := foldl_nearer_some low rest x
    have hmem : ∀ y, y ∈ x :: rest → y ∈ keys ∧ inWindow low high y = true := by
      intro y hy
      rw [← hf] at hy
      exact List.mem_filter.mp hy
    have hk : k ∈ x :: rest := by
      rcases h2 with h2 | h2
      · simp [h2]
      · exact List.mem_cons_of_mem _ h2
    refine ⟨k, h1, (hmem k hk).1, (hmem k hk).2, ?_⟩
    intro y hy hw
    have hy2 : y ∈ x :: rest := by
      rw [← hf]
      exact List.mem_filter.mpr ⟨hy, hw⟩
    rcases List.mem_cons.mp hy2 with rfl | hy2
    · exact h3
    · exact h4 y hy2

theorem PacketID.mod_eq_of_offset_eq (o y k : PacketID)
    (h : PacketID.offset o y = PacketID.offset o k) :
    y % PacketID.MODULUS = k % PacketID.MODULUS := by
  have key : ∀ a b c : Nat,
      (a % 2147483648 + 2147483648 - c % 2147483648) % 2147483648
        = (b % 2147483648 + 2147483648 - c % 2147483648) % 2147483648 →
      a % 2147483648 = b % 2147483648 := by
    intro a b c
    omega
  exact key y k o h

theorem PacketID.le_congr_offset (o l y k : PacketID)
    (h : PacketID.offset o y = PacketID.offset o k) : PacketID.le l y = PacketID.le l k := by
  have hm := PacketID.mod_eq_of_offset_eq o y k h
  unfold PacketID.le PacketID.blindDifference
  simp only [hm]

theorem released_of_not_inWindow (o l h : PacketID) (keys : List PacketID) (x : PacketID)
    (hx : inWindow o h x = false) : ¬ released o l h keys x := by
  intro hr
  rw [hr.1] at hx
  exact Bool.noConfusion hx

/-- The release loop of `ingestAck` on a list of keys, with fuel for every key:
it removes exactly the keys that are `released`. -/
theorem releaseKeys_eq (o l h : PacketID) (fuel : Nat) : ∀ keys : List PacketID,
    keys.length ≤ fuel →
    releaseKeys o l h fuel keys = keys.filter (fun x => decide (¬ released o l h keys x)) := by
  induction fuel with
  | zero =>
    intro keys hf
    have : keys = [] := List.length_eq_zero.mp (by omega)
    subst this
    rfl
  | succ n ih =>
    intro keys hf
    rw [releaseKeys]
    rcases findFirstEntry_spec keys o h with ⟨hnone, hall⟩ | ⟨k, hsome, hk, hkw, hmin⟩
    · simp only [hnone]
      symm
      rw [List.filter_eq_self]
      intro x hx
      simpa using released_of_not_inWindow o l h keys x (hall x hx)
    · simp only [hsome]
      by_cases hle : PacketID.le l k = true
      · simp only [hle, if_true]
        symm
        rw [List.filter_eq_self]
        intro x hx
        have : ¬ released o l h keys x := by
          intro hr
          have := hr.2 k hk hkw (hmin x hx hr.1)
          rw [hle] at this
          exact Bool.noConfusion this
        simpa using this
      · have hle' : PacketID.le l k = false := by simpa using hle
        simp only [hle', Bool.false_eq_true, if_false]
        have hlen : (keys.filter (fun x => !decide (x = k))).length ≤ n := by
          have hlt : (keys.filter (fun x => !decide (x = k))).length < keys.length := by
            apply List.length_filter_lt_length_iff_exists.mpr
            exact ⟨k, hk, by simp⟩
          omega
        rw [ih _ hlen, List.filter_filter]
        apply List.filter_congr
        intro x hx
        by_cases hxk : x = k
        · subst hxk
          have hr : released o l h keys x := by
            refine ⟨hkw, ?_⟩
            intro y hy hyw hyo
            have heq : PacketID.offset o y = PacketID.offset o x :=
              le_antisymm hyo (hmin y hy hyw)
            rw [PacketID.le_congr_offset o l y x heq]
            exact hle'
          simp [hr]
        · have hiff : released o l h (keys.filter (fun x => !decide (x = k))) x
              ↔ released o l h keys x := by
            constructor
            · rintro ⟨h1, h2⟩
              refine ⟨h1, ?_⟩
              intro y hy hyw hyo
              by_cases hyk : y = k
              · rw [hyk]; exact hle'
              · exact h2 y (List.mem_filter.mpr ⟨hy, by simp [hyk]⟩) hyw hyo
            · rintro ⟨h1, h2⟩
              exact ⟨h1, fun y hy => h2 y (List.mem_filter.mp hy).1⟩
          simp [hxk, hiff]

/-- Releasing over a larger list of keys releases no more of the smaller one. -/
theorem released_mono (o l h : PacketID) (small large : List PacketID) (x : PacketID)
    (hsub : ∀ k ∈ small, k ∈ large) (hr : released o l h large x) : released o l h small x :=
  ⟨hr.1, fun y hy => hr.2 y (hsub y hy)⟩

theorem releaseKeys_subset (o l h : PacketID) (small large : List PacketID)
    (hsub : ∀ k ∈ small, k ∈ large) :
    ∀ k ∈ releaseKeys o l h small.length small, k ∈ releaseKeys o l h large.length large := by
  intro k hk
  rw [releaseKeys_eq o l h _ _ (le_refl _)] at hk ⊢
  obtain ⟨hk1, hk2⟩ := List.mem_filter.mp hk
  refine List.mem_filter.mpr ⟨hsub k hk1, ?_⟩
  simp only [decide_not, Bool.not_eq_true', decide_eq_false_iff_not] at hk2 ⊢
  exact fun hr => hk2 (released_mono o l h small large k hsub hr)

theorem SendPacketEntryMap.erase_keys (m : SendPacketEntryMap) (k : PacketID) :
    (SendPacketEntryMap.erase m k).map Prod.fst
      = (m.map Prod.fst).filter (fun x => !decide (x = k)) := by
  unfold SendPacketEntryMap.erase
  induction m with
  | nil => rfl
  | cons kv rest ih =>
    by_cases h : kv.1 = k <;> simp [List.filter_cons, h, ih]

theorem ingestAck_releaseLoss_keys (o l : PacketID) (fuel : Nat) (s : UdtSocket_send) :
    ingestAck_releaseLoss o l fuel s =
      { s with _sendLossList := releaseKeys o l s._sendPacketID fuel s._sendLossList } := by
  induction fuel generalizing s with
  | zero => rfl
  | succ n ih =>
    rw [ingestAck_releaseLoss, releaseKeys]
    cases hf : findFirstEntry s._sendLossList o s._sendPacketID with
    | none => rfl
    | some k =>
      simp only []
      split_ifs
      · rfl
      · rw [ih]
        rfl

theorem ingestAck_releasePend_keys (o l : PacketID) (fuel : Nat) (s : UdtSocket_send) :
    (ingestAck_releasePend o l fuel s)._sendPktPend.map Prod.fst
      = releaseKeys o l s._sendPacketID fuel (s._sendPktPend.map Prod.fst) := by
  induction fuel generalizing s with
  | zero => rfl
  | succ n ih =>
    rw [ingestAck_releasePend, releaseKeys]
    cases hf : findFirstEntry (s._sendPktPend.map Prod.fst) o s._sendPacketID with
    | none => rfl
    | some k =>
      simp only []
      split_ifs
      · rfl
      · rw [ih]
        simp only [SendPacketEntryMap.erase_keys]

/-- The two release loops of `ingestAck`, run one after the other, keep the loss
set inside the keys of the unacked table. -/
theorem ingestAck_release_lossInTable (o l : PacketID) (f1 f2 : Nat) (s : UdtSocket_send)
    (hf1 : s._sendPktPend.length ≤ f1) (hf2 : s._sendLossList.length ≤ f2) (h : LossInTable s) :
    LossInTable (ingestAck_releaseLoss o l f2 (ingestAck_releasePend o l f1 s)) := by
  obtain ⟨pend, hp⟩ := ingestAck_releasePend_frame o l f1 s
  have hk := ingestAck_releasePend_keys o l f1 s
  rw [ingestAck_releaseLoss_keys]
  rw [hp] at hk ⊢
  simp only at hk
  intro k hkm
  simp only [unackedIDs] at hkm ⊢
  rw [hk, releaseKeys_eq o l s._sendPacketID f1 _ (by simpa using hf1)]
  rw [releaseKeys_eq o l s._sendPacketID f2 _ hf2] at hkm
  obtain ⟨hk1, hk2⟩ := List.mem_filter.mp hkm
  refine List.mem_filter.mpr ⟨h k hk1, ?_⟩
  simp only [decide_not, Bool.not_eq_true', decide_eq_false_iff_not] at hk2 ⊢
  exact fun hr => hk2 (released_mono o l s._sendPacketID s._sendLossList _ k h hr)

theorem ingestAck_lossInTable (a : ACKPacket) (t : Nat) (s : UdtSocket_send) (h : LossInTable s) :
    LossInTable (ingestAck a t s) := by
  have key : ∀ u : UdtSocket_send, u._sendPktPend = s._sendPktPend →
      u._sendLossList = s._sendLossList → LossInTable u := by
    intro u h1 h2 k hk
    unfold unackedIDs
    rw [h1]
    rw [h2] at hk
    exact h k hk
  have h1 : (ingestAck_light a s).2._sendPktPend = s._sendPktPend
      ∧ (ingestAck_light a s).2._sendLossList = s._sendLossList := by
    unfold ingestAck_light assertValidSentPktID
    simp only []
    split_ifs <;> exact ⟨rfl, rfl⟩
  obtain ⟨-, -, c3, c4, -, -, -⟩ := ingestAck_ack2_core a (ingestAck_light a s).2
  have h3 : (assertValidSentPktID a._lastPacketReceived
        (ingestAck_ack2 a (ingestAck_light a s).2)).2._sendPktPend = s._sendPktPend
      ∧ (assertValidSentPktID a._lastPacketReceived
        (ingestAck_ack2 a (ingestAck_light a s).2)).2._sendLossList = s._sendLossList := by
    unfold assertValidSentPktID
    split_ifs
    · exact ⟨c3.trans h1.1, c4.trans h1.2⟩
    · exact ⟨c3.trans h1.1, c4.trans h1.2⟩
  unfold ingestAck
  simp only []
  split_ifs
  · exact key _ h1.1 h1.2
  · exact key _ h3.1 h3.2
  · exact key _ h3.1 h3.2
  · refine ingestAck_release_lossInTable _ _ _ _ _ ?_ ?_ (key _ h3.1 h3.2)
    · exact le_refl _
    · obtain ⟨pend, hp⟩ := ingestAck_releasePend_frame
        (assertValidSentPktID a._lastPacketReceived
          (ingestAck_ack2 a (ingestAck_light a s).2)).2._lastAckPacketID a._lastPacketReceived
        (assertValidSentPktID a._lastPacketReceived
          (ingestAck_ack2 a (ingestAck_light a s).2)).2._sendPktPend.length
        _
      rw [hp]
  · refine ingestAck_release_lossInTable _ _ _ _ _ ?_ ?_ (key _ h3.1 h3.2)
    · exact le_refl _
    · obtain ⟨pend, hp⟩ := ingestAck_releasePend_frame
        (assertValidSentPktID a._lastPacketReceived
          (ingestAck_ack2 a (ingestAck_light a s).2)).2._lastAckPacketID a._lastPacketReceived
        (assertValidSentPktID a._lastPacketReceived
          (ingestAck_ack2 a (ingestAck_light a s).2)).2._sendPktPend.length
        _
      rw [hp]

theorem PacketIDSet.mem_insert (l : PacketIDSet) (k x : PacketID) :
    x ∈ PacketIDSet.insert l k ↔ x = k ∨ x ∈ l := by
  induction l with
  | nil => simp [PacketIDSet.insert]
  | cons k1 rest ih =>
    simp only [PacketIDSet.insert]
    split_ifs with h1 h2
    · subst h1
      simp
    · simp
    · simp only [List.mem_cons, ih]
      tauto

theorem PacketIDSet.mem_foldl_insert (ids : List PacketID) (l : PacketIDSet) (x : PacketID) :
    x ∈ ids.foldl PacketIDSet.insert l ↔ x ∈ l ∨ x ∈ ids := by
  induction ids generalizing l with
  | nil => simp
  | cons k rest ih =>
    simp only [List.foldl_cons, ih, PacketIDSet.mem_insert, List.mem_cons]
    tauto

theorem SendPacketEntryMap.mem_keys_insert (m : SendPacketEntryMap) (k : PacketID)
    (e : SendPacketEntry) (x : PacketID) :
    x ∈ (SendPacketEntryMap.insert m k e).map Prod.fst ↔ x = k ∨ x ∈ m.map Prod.fst := by
  induction m with
  | nil => simp [SendPacketEntryMap.insert]
  | cons kv rest ih =>
    obtain ⟨k1, e1⟩ := kv
    simp only [SendPacketEntryMap.insert]
    split_ifs with h1 h2
    · subst h1
      simp
    · simp
    · simp only [List.map_cons, List.mem_cons, ih]
      tauto

theorem processSendExpire_lossInTable (s : UdtSocket_send) (h : LossInTable s) :
    LossInTable (processSendExpire s).2 := by
  by_cases hall : ∀ kv ∈ s._sendPktPend, QDeadlineTimer.hasExpired s._clock kv.2.expireTime = false
  · have hres : processSendExpire s = (false, s) := by
      unfold processSendExpire
      split_ifs
      · rfl
      · exact processSendExpire_scan_none _ _ s hall
    rw [hres]
    exact h
  · have hex : ∃ kv ∈ s._sendPktPend, QDeadlineTimer.hasExpired s._clock kv.2.expireTime = true := by
      by_contra hc
      apply hall
      intro kv hkv
      by_contra hne
      exact hc ⟨kv, hkv, by simpa using hne⟩
    obtain ⟨pre, k0, e0, post, heq, hp, he⟩ := exists_first_expired s._clock s._sendPktPend hex
    rw [processSendExpire_of_first_expired s pre post k0 e0 heq hp he]
    intro k hk
    simp only [unackedIDs] at hk ⊢
    obtain ⟨hk1, hk2⟩ := List.mem_filter.mp hk
    have hk3 := h k hk1
    simp only [unackedIDs, List.mem_map] at hk3
    obtain ⟨kv, hkv, rfl⟩ := hk3
    exact List.mem_map.mpr ⟨kv, List.mem_filter.mpr ⟨hkv, hk2⟩, rfl⟩

theorem sendDataPacket_lossInTable (e : SendPacketEntry) (r : Bool) (s : UdtSocket_send)
    (h : LossInTable s) : LossInTable (sendDataPacket e r s) := by
  have hemit : ∀ st : SendState, ∀ timer : Option Int,
      LossInTable { sendDataPacket_emit e s with _sendState := st, _SNDtimer := timer } := by
    intro st timer k hk
    simp only [unackedIDs, sendDataPacket_emit]
    rw [SendPacketEntryMap.mem_keys_insert]
    exact Or.inr (h k hk)
  unfold sendDataPacket
  simp only []
  split_ifs with h1 h2 h3
  · exact hemit _ _
  · exact processSendExpire_lossInTable _ (hemit _ _)
  · exact hemit _ _
  · exact hemit _ _

theorem processDataMsg_loop_sends_loss (isFirst : Bool) (pending : List MessageEntry)
    (s : UdtSocket_send) (m : MessageEntry) (hs : s._msgPartialSend = some m) :
    ∃ entry s1, processDataMsg_loop isFirst pending s = sendDataPacket entry false s1
      ∧ s1._sendPktPend = s._sendPktPend
      ∧ s1._sendLossList = s._sendLossList := by
  induction pending generalizing s m with
  | nil =>
    rw [processDataMsg_loop]
    simp only [hs]
    split_ifs <;> exact ⟨_, _, rfl, rfl, rfl⟩
  | cons more rest ih =>
    rw [processDataMsg_loop]
    simp only [hs]
    split_ifs
    all_goals first
      | exact ⟨_, _, rfl, rfl, rfl⟩
      | exact ih _ { m with content := m.content ++ more.content } rfl

theorem processDataMsg_lossInTable (isFirst : Bool) (s : UdtSocket_send) (h : LossInTable s) :
    LossInTable (processDataMsg isFirst s) := by
  cases hs : s._msgPartialSend with
  | none => rw [processDataMsg_none isFirst s hs]; exact h
  | some m =>
    obtain ⟨entry, s1, h1, h2, h3⟩ := processDataMsg_loop_sends_loss isFirst s._pendingMessages s m hs
    unfold processDataMsg
    rw [h1]
    apply sendDataPacket_lossInTable
    intro k hk
    unfold unackedIDs
    rw [h2]
    rw [h3] at hk
    exact h k hk

theorem processSendLoss_loop_loss (fuel : Nat) (s : UdtSocket_send) :
    (outcomeState (processSendLoss_loop none fuel s))._sendPktPend = s._sendPktPend
    ∧ ∀ k ∈ (outcomeState (processSendLoss_loop none fuel s))._sendLossList,
        k ∈ s._sendLossList := by
  induction fuel generalizing s with
  | zero => exact ⟨rfl, fun k hk => hk⟩
  | succ n ih =>
    rw [processSendLoss_loop]
    split
    · exact ⟨rfl, fun k hk => hk⟩
    · rename_i k0 hk0
      simp only []
      split
      · obtain ⟨i1, i2⟩ := ih { s with _sendLossList := PacketIDSet.erase s._sendLossList k0 }
        exact ⟨i1, fun k hk => (List.mem_filter.mp (i2 k hk)).1⟩
      · exact ⟨rfl, fun k hk => (List.mem_filter.mp hk).1⟩

theorem processSendLoss_lossInTable (s : UdtSocket_send) (h : LossInTable s) :
    LossInTable (outcomeState (processSendLoss s)) := by
  unfold processSendLoss
  split_ifs
  · exact h
  · obtain ⟨i1, i2⟩ := processSendLoss_loop_loss s._sendLossList.length s
    intro k hk
    unfold unackedIDs
    rw [i1]
    exact h k (i2 k hk)

/-- The loss set after the loop of `ingestNak`, whether or not the loop ran to
the end: every member was in the loss set before or is one of the identifiers
of the loss list. -/
theorem ingestNak_loop_loss (n : Nat) : ∀ (l : List Nat) (acc : List PacketID) (s : UdtSocket_send),
    l.length ≤ n →
    ∀ k ∈ (ingestNak_loop l acc s).2._sendLossList, k ∈ s._sendLossList ∨ k ∈ nakIdentifiers l := by
  induction n with
  | zero =>
    intro l acc s hl
    have : l = [] := List.length_eq_zero.mp (by omega)
    subst this
    intro k hk
    exact Or.inl hk
  | succ n ih =>
    intro l acc s hl
    cases l with
    | nil => intro k hk; exact Or.inl hk
    | cons thisEntry rest =>
      have hv := fun id => assertValidSentPktID_of_false id s
      rw [ingestNak_loop]
      split_ifs with h1
      · cases rest with
        | nil => intro k hk; exact Or.inl hk
        | cons lastEntry rest2 =>
          simp only []
          split_ifs with h2 h3 h4
          · rw [hv _ (by simpa using h2)]
            intro k hk; exact Or.inl hk
          · intro k hk; exact Or.inl hk
          · rw [hv _ (by simpa using h4)]
            intro k hk; exact Or.inl hk
          · intro k hk
            rw [nakIdentifiers_range _ _ _ h1]
            rcases ih rest2
              (acc ++ spanList (PacketID.ofWord thisEntry) (PacketID.ofWord lastEntry))
              { s with _sendLossList := (spanList (PacketID.ofWord thisEntry)
                  (PacketID.ofWord lastEntry)).foldl PacketIDSet.insert s._sendLossList }
              (by simp only [List.length_cons] at hl; omega) k hk with hi | hi
            · rcases (PacketIDSet.mem_foldl_insert _ _ _).mp hi with hi | hi
              · exact Or.inl hi
              · exact Or.inr (List.mem_append_left _ hi)
            · exact Or.inr (List.mem_append_right _ hi)
      · simp only []
        split_ifs with h2
        · rw [hv _ (by simpa using h2)]
          intro k hk; exact Or.inl hk
        · intro k hk
          rw [nakIdentifiers_single _ _ h1]
          rcases ih rest (acc ++ [PacketID.ofWord thisEntry])
            { s with _sendLossList := PacketIDSet.insert s._sendLossList (PacketID.ofWord thisEntry) }
            (by simp only [List.length_cons] at hl; omega) k hk with hi | hi
          · rcases (PacketIDSet.mem_insert _ _ _).mp hi with hi | hi
            · exact Or.inr (by simp [hi])
            · exact Or.inl hi
          · exact Or.inr (List.mem_cons_of_mem _ hi)

theorem ingestNak_loss (l : List Nat) (t : Nat) (s : UdtSocket_send) :
    (ingestNak l t s)._sendPktPend = s._sendPktPend
    ∧ ∀ k ∈ (ingestNak l t s)._sendLossList, k ∈ s._sendLossList ∨ k ∈ nakIdentifiers l := by
  obtain ⟨loss, hf⟩ := ingestNak_loop_frame l.length l [] s (le_refl _)
  have hl := ingestNak_loop_loss l.length l [] s (le_refl _)
  unfold ingestNak
  rcases hr : ingestNak_loop l [] s with ⟨r1, r2⟩
  rw [hr] at hf hl
  simp only at hf hl
  cases r1 with
  | none => exact ⟨by rw [hf], hl⟩
  | some ids => exact ⟨by rw [hf], hl⟩

theorem reevalSendState_range (s : UdtSocket_send) :
    reevalSendState s = SendState.Idle ∨ reevalSendState s = SendState.Sending
    ∨ reevalSendState s = SendState.Waiting := by
  unfold reevalSendState
  simp only []
  split_ifs <;> simp

theorem processSendExpire_sendState (s : UdtSocket_send) :
    (processSendExpire s).2._sendState = s._sendState
    ∧ (processSendExpire s).2._SNDtimer = s._SNDtimer := by
  obtain ⟨pend, loss, extra, h, -⟩ := processSendExpire_frame s
  rw [h]
  exact ⟨rfl, rfl⟩

theorem ack2Packets_append (a b : List SocketCall) :
    ack2Packets (a ++ b) = ack2Packets a ++ ack2Packets b := by
  induction a with
  | nil => simp [ack2Packets]
  | cons c a ih =>
    cases c with
    | sendPacket p => cases p <;> simp [ack2Packets, ih]
    | _ => simp [ack2Packets, ih]

theorem sameAck2_refl (s : UdtSocket_send) : SameAck2 s s := ⟨rfl, rfl, rfl, rfl⟩

theorem sameAck2_trans {s t u : UdtSocket_send} (h1 : SameAck2 s t) (h2 : SameAck2 t u) :
    SameAck2 s u :=
  ⟨h2.1.trans h1.1, h2.2.1.trans h1.2.1, h2.2.2.1.trans h1.2.2.1, h2.2.2.2.trans h1.2.2.2⟩

theorem assertValidSentPktID_sameAck2 (packetID : PacketID) (s : UdtSocket_send) :
    SameAck2 s (assertValidSentPktID packetID s).2 := by
  unfold assertValidSentPktID
  split_ifs
  · exact ⟨by simp [ack2Packets_append, ack2Packets], rfl, rfl, rfl⟩
  · exact sameAck2_refl s

theorem ingestAck_releasePend_sameAck2 (o l : PacketID) (fuel : Nat) (s : UdtSocket_send) :
    SameAck2 s (ingestAck_releasePend o l fuel s) := by
  obtain ⟨pend, h⟩ := ingestAck_releasePend_frame o l fuel s
  rw [h]
  exact ⟨rfl, rfl, rfl, rfl⟩

theorem ingestAck_releaseLoss_sameAck2 (o l : PacketID) (fuel : Nat) (s : UdtSocket_send) :
    SameAck2 s (ingestAck_releaseLoss o l fuel s) := by
  obtain ⟨loss, h⟩ := ingestAck_releaseLoss_frame o l fuel s
  rw [h]
  exact ⟨rfl, rfl, rfl, rfl⟩

/-- The ACK2 block of `ingestAck`: when its test holds it hands one ACK2 packet
with the sequence number of the ACK to the socket and sets the deadline to SYN
from now, leaving `_sentAck2` at its value; otherwise it changes nothing. -/
theorem ingestAck_ack2_effect (a : ACKPacket) (s : UdtSocket_send) :
    (ack2Due a s →
      ack2Packets (ingestAck_ack2 a s)._socket
          = ack2Packets s._socket ++ [a._ackSequence % UINT_MODULUS]
      ∧ (ingestAck_ack2 a s)._ACK2SentTimer = some (s._clock + SYN)
      ∧ (ingestAck_ack2 a s)._sentAck2 = s._sentAck2
      ∧ (ingestAck_ack2 a s)._clock = s._clock)
    ∧ (¬ ack2Due a s → ingestAck_ack2 a s = s) := by
  unfold ack2Due ingestAck_ack2
  constructor
  · rintro ⟨h1, h2⟩
    simp only [h1, h2, decide_True, Bool.and_self, if_true]
    simp [ack2Packets_append, ack2Packets]
  · intro h
    have : (QDeadlineTimer.hasExpired s._clock s._ACK2SentTimer
        && decide (a._ackSequence = s._sentAck2)) = false := by
      by_contra hc
      simp only [Bool.not_eq_false, Bool.and_eq_true, decide_eq_true_eq] at hc
      exact h hc
    simp only [this, Bool.false_eq_true, if_false]

/-- The Light block of `ingestAck` hands no ACK2 packet to the socket; it lets
the call go on unless the ACK is a Light ACK ahead of the send PacketID. -/
theorem ingestAck_light_sameAck2 (a : ACKPacket) (s : UdtSocket_send) :
    SameAck2 s (ingestAck_light a s).2
    ∧ ((ingestAck_light a s).1 = false ↔
        a._ackType = AckType.Light
        ∧ PacketID.blindDifference s._sendPacketID a._lastPacketReceived < 0) := by
  unfold ingestAck_light
  by_cases hl : a._ackType = AckType.Light
  · by_cases hv : PacketID.blindDifference s._sendPacketID a._lastPacketReceived < 0
    · simp only [hl, if_true, assertValidSentPktID, hv, Bool.not_false]
      exact ⟨⟨by simp [ack2Packets_append, ack2Packets], rfl, rfl, rfl⟩, by simp⟩
    · simp only [hl, if_true, assertValidSentPktID, hv, if_false, Bool.not_true,
        Bool.false_eq_true]
      split_ifs
      · exact ⟨⟨rfl, rfl, rfl, rfl⟩, by simp⟩
      · exact ⟨⟨rfl, rfl, rfl, rfl⟩, by simp⟩
  · simp only [hl, if_false]
    exact ⟨⟨rfl, rfl, rfl, rfl⟩, by simp⟩

/-- The ACK2 history of a call of `ingestAck`: nothing when the Light block
returns, else what the ACK2 block makes of the state the Light block left. -/
theorem ingestAck_sameAck2 (a : ACKPacket) (t : Nat) (s : UdtSocket_send) :
    ((ingestAck_light a s).1 = false → SameAck2 s (ingestAck a t s))
    ∧ ((ingestAck_light a s).1 = true →
        SameAck2 (ingestAck_ack2 a (ingestAck_light a s).2) (ingestAck a t s)) := by
  have h3 := assertValidSentPktID_sameAck2 a._lastPacketReceived
    (ingestAck_ack2 a (ingestAck_light a s).2)
  constructor
  · intro h
    unfold ingestAck
    simp only [h, Bool.not_false, if_true]
    exact (ingestAck_light_sameAck2 a s).1
  · intro h
    unfold ingestAck
    simp only [h, Bool.not_true, Bool.false_eq_true, if_false]
    split_ifs
    · exact h3
    · exact h3
    · refine sameAck2_trans h3 (sameAck2_trans ?_ (sameAck2_trans
        (ingestAck_releasePend_sameAck2 _ _ _ _) (ingestAck_releaseLoss_sameAck2 _ _ _ _)))
      exact ⟨by simp [ack2Packets_append, ack2Packets], rfl, rfl, rfl⟩
    · refine sameAck2_trans h3 (sameAck2_trans ?_ (sameAck2_trans
        (ingestAck_releasePend_sameAck2 _ _ _ _) (ingestAck_releaseLoss_sameAck2 _ _ _ _)))
      exact ⟨by simp [ack2Packets_append, ack2Packets], rfl, rfl, rfl⟩

/-- The ACK2 packets of a call of `ingestAck`: one, with the sequence number of
the ACK, when the call reaches the ACK2 block and the test of the block holds,
none otherwise. -/
theorem ingestAck_ack2_history (a : ACKPacket) (t : Nat) (s : UdtSocket_send) :
    (¬ (a._ackType = AckType.Light
          ∧ PacketID.blindDifference s._sendPacketID a._lastPacketReceived < 0)
        ∧ ack2Due a s →
      ack2Packets (ingestAck a t s)._socket
          = ack2Packets s._socket ++ [a._ackSequence % UINT_MODULUS]
      ∧ (ingestAck a t s)._ACK2SentTimer = some (s._clock + SYN))
    ∧ (¬ (¬ (a._ackType = AckType.Light
            ∧ PacketID.blindDifference s._sendPacketID a._lastPacketReceived < 0)
          ∧ ack2Due a s) →
      ack2Packets (ingestAck a t s)._socket = ack2Packets s._socket
      ∧ (ingestAck a t s)._ACK2SentTimer = s._ACK2SentTimer) := by
  obtain ⟨hl, hiff⟩ := ingestAck_light_sameAck2 a s
  obtain ⟨p1, p2⟩ := ingestAck_sameAck2 a t s
  have hdue : ack2Due a (ingestAck_light a s).2 ↔ ack2Due a s := by
    unfold ack2Due
    rw [hl.2.1, hl.2.2.1, hl.2.2.2]
  by_cases hr : (ingestAck_light a s).1 = false
  · have hret := hiff.mp hr
    have hs := p1 hr
    exact ⟨fun h => absurd hret h.1, fun _ => ⟨hs.1, hs.2.1⟩⟩
  · have hr' : (ingestAck_light a s).1 = true := by simpa using hr
    have hnot : ¬ (a._ackType = AckType.Light
        ∧ PacketID.blindDifference s._sendPacketID a._lastPacketReceived < 0) :=
      fun h => hr (hiff.mpr h)
    have hs := p2 hr'
    obtain ⟨e1, e2⟩ := ingestAck_ack2_effect a (ingestAck_light a s).2
    constructor
    · rintro ⟨-, hd⟩
      obtain ⟨c1, c2, -, -⟩ := e1 (hdue.mpr hd)
      exact ⟨by rw [hs.1, c1, hl.1], by rw [hs.2.1, c2, hl.2.2.2]⟩
    · intro hn
      have hnd : ¬ ack2Due a (ingestAck_light a s).2 := fun hd => hn ⟨hnot, hdue.mp hd⟩
      have := e2 hnd
      rw [this] at hs
      exact ⟨by rw [hs.1, hl.1], by rw [hs.2.1, hl.2.1]⟩

theorem processSendExpire_sentAck2 (s : UdtSocket_send) :
    (processSendExpire s).2._sentAck2 = s._sentAck2 := by
  obtain ⟨pend, loss, extra, h, -⟩ := processSendExpire_frame s
  rw [h]

theorem sendDataPacket_sentAck2 (e : SendPacketEntry) (r : Bool) (s : UdtSocket_send) :
    (sendDataPacket e r s)._sentAck2 = s._sentAck2 := by
  obtain ⟨pend, loss, st, timer, extra, h, -⟩ := sendDataPacket_frame e r s
  rw [h]

theorem processDataMsg_loop_sentAck2 (isFirst : Bool) (pending : List MessageEntry)
    (s : UdtSocket_send) :
    (processDataMsg_loop isFirst pending s)._sentAck2 = s._sentAck2 := by
  induction pending generalizing s with
  | nil =>
    rw [processDataMsg_loop]
    cases hs : s._msgPartialSend with
    | none => rfl
    | some m =>
      simp only []
      split_ifs <;> rw [sendDataPacket_sentAck2]
  | cons more rest ih =>
    rw [processDataMsg_loop]
    cases hs : s._msgPartialSend with
    | none => rfl
    | some m =>
      simp only []
      split_ifs
      all_goals first
        | rw [sendDataPacket_sentAck2]
        | rw [ih]

theorem processDataMsg_sentAck2 (isFirst : Bool) (s : UdtSocket_send) :
    (processDataMsg isFirst s)._sentAck2 = s._sentAck2 :=
  processDataMsg_loop_sentAck2 isFirst s._pendingMessages s

theorem ingestAck_sentAck2 (a : ACKPacket) (t : Nat) (s : UdtSocket_send) :
    (ingestAck a t s)._sentAck2 = s._sentAck2 := by
  obtain ⟨hl, -⟩ := ingestAck_light_sameAck2 a s
  obtain ⟨p1, p2⟩ := ingestAck_sameAck2 a t s
  cases hr : (ingestAck_light a s).1 with
  | false => exact (p1 hr).2.2.1
  | true =>
    have hb : (ingestAck_ack2 a (ingestAck_light a s).2)._sentAck2
        = (ingestAck_light a s).2._sentAck2 := by
      obtain ⟨e1, e2⟩ := ingestAck_ack2_effect a (ingestAck_light a s).2
      by_cases hd : ack2Due a (ingestAck_light a s).2
      · exact (e1 hd).2.2.1
      · rw [e2 hd]
    rw [(p2 hr).2.2.1, hb, hl.2.2.1]

theorem ingestNak_sentAck2 (l : List Nat) (t : Nat) (s : UdtSocket_send) :
    (ingestNak l t s)._sentAck2 = s._sentAck2 := by
  obtain ⟨loss, hf⟩ := ingestNak_loop_frame l.length l [] s (le_refl _)
  unfold ingestNak
  rcases hr : ingestNak_loop l [] s with ⟨r1, r2⟩
  rw [hr] at hf
  simp only at hf
  subst hf
  cases r1 <;> rfl

theorem processExpEvent_sentAck2 (s : UdtSocket_send) :
    (processExpEvent s)._sentAck2 = s._sentAck2 := by
  by_cases h : expTimedOut s
  · rw [processExpEvent_of_timedOut s h]
  · rw [processExpEvent_of_not_timedOut s h]
    rfl

theorem processSendLoss_loop_sentAck2 (fuel : Nat) (s : UdtSocket_send) :
    (outcomeState (processSendLoss_loop none fuel s))._sentAck2 = s._sentAck2 := by
  induction fuel generalizing s with
  | zero => rfl
  | succ n ih =>
    rw [processSendLoss_loop]
    split
    · rfl
    · simp only []
      split
      · rw [ih]
      · rfl

theorem processSendLoss_sentAck2 (s : UdtSocket_send) :
    (outcomeState (processSendLoss s))._sentAck2 = s._sentAck2 := by
  unfold processSendLoss
  split_ifs
  · rfl
  · exact processSendLoss_loop_sentAck2 _ s

theorem processEvent_resend_sentAck2 (s : UdtSocket_send) :
    (outcomeState (processEvent_resend s))._sentAck2 = s._sentAck2 := by
  have h := processSendLoss_sentAck2 s
  unfold processEvent_resend
  split
  · rename_i e heq
    rw [heq] at h
    exact h
  · rename_i r s1 heq
    rw [heq] at h
    split_ifs
    · exact (processSendExpire_sentAck2 s1).trans h
    · exact h

theorem processEvent_dispatch_sentAck2 (recvPacket : ReceivedPacket) (s : UdtSocket_send) :
    (processEvent_dispatch recvPacket s)._sentAck2 = s._sentAck2 := by
  unfold processEvent_dispatch
  split
  · exact ingestAck_sentAck2 _ _ _
  · exact ingestNak_sentAck2 _ _ _
  · rfl
  · rfl

theorem processEvent_events_sentAck2 (s : UdtSocket_send) :
    (outcomeState (processEvent_events s))._sentAck2 = s._sentAck2 := by
  have hq : ∀ t : UdtSocket_send, t._sentAck2 = s._sentAck2 →
      (outcomeState
        (if t._flagRecentEXPevent then
          Except.ok (true, processExpEvent { t with _flagRecentEXPevent := false })
        else if t._flagRecentSNDevent then
          if ({ t with _flagRecentSNDevent := false } : UdtSocket_send)._sendState = SendState.Sending then
            processEvent_resend { ({ t with _flagRecentSNDevent := false } : UdtSocket_send) with
              _sendState := reevalSendState { t with _flagRecentSNDevent := false } }
          else Except.ok (false, { t with _flagRecentSNDevent := false })
        else Except.ok (false, t)))._sentAck2 = s._sentAck2 := by
    intro t ht
    split_ifs
    · exact (processExpEvent_sentAck2 _).trans ht
    · exact (processEvent_resend_sentAck2 _).trans ht
    · exact ht
    · exact ht
  unfold processEvent_events
  cases hr : s._receivedPacketList with
  | nil => exact hq s rfl
  | cons recvPacket rest =>
    exact hq _ (processEvent_dispatch_sentAck2 recvPacket { s with _receivedPacketList := rest })

theorem processEvent_send_sentAck2 (canSendPacket : Bool) (s : UdtSocket_send) :
    (outcomeState (processEvent_send canSendPacket s))._sentAck2 = s._sentAck2 := by
  unfold processEvent_send
  by_cases hc : canSendPacket = true
  · simp only [hc, if_true]
    cases hs : s._msgPartialSend with
    | some m => exact processDataMsg_sentAck2 false s
    | none =>
      cases hp : s._pendingMessages with
      | cons first rest =>
        exact processDataMsg_sentAck2 true
          { s with _msgPartialSend := some first, _pendingMessages := rest }
      | nil =>
        by_cases hf : s._flagSendDisconnect = true
        · simp only [hf, if_true]
          rfl
        · simp only [hf]
          exact processEvent_events_sentAck2 s
  · simp only [hc]
    exact processEvent_events_sentAck2 s

theorem processEvent_switch_sentAck2 (s : UdtSocket_send) :
    (outcomeState (processEvent_switch s))._sentAck2 = s._sentAck2 := by
  unfold processEvent_switch
  cases h1 : s._sendState <;> cases h2 : s._socketState <;> simp only [] <;>
    first
    | exact processEvent_resend_sentAck2 _
    | exact processEvent_send_sentAck2 _ s
    | rfl
    | (split_ifs
       · rfl
       · exact processEvent_send_sentAck2 _ s)

theorem processEvent_sentAck2 (s : UdtSocket_send) :
    (outcomeState (processEvent s))._sentAck2 = s._sentAck2 := by
  unfold processEvent
  simp only []
  split_ifs
  · exact processEvent_switch_sentAck2 _
  · exact processEvent_switch_sentAck2 s

theorem applyEvent_sentAck2 (s : UdtSocket_send) (e : SenderEvent) (h : s._sentAck2 = 0) :
    (match applyEvent s e with
      | Except.ok t => t
      | Except.error t => t)._sentAck2 = 0 := by
  cases e with
  | processEvent =>
    have hp := processEvent_sentAck2 s
    simp only [applyEvent]
    cases hr : processEvent s with
    | ok r => rw [hr] at hp; exact hp.trans h
    | error x => rw [hr] at hp; exact hp.trans h
  | startupInit => rfl
  | _ => exact h

theorem runEvents_sentAck2 (es : List SenderEvent) (s : UdtSocket_send) (h : s._sentAck2 = 0) :
    (runEvents es s)._sentAck2 = 0 := by
  induction es generalizing s with
  | nil => exact h
  | cons e rest ih =>
    have hstep := applyEvent_sentAck2 s e h
    rw [runEvents]
    cases hr : applyEvent s e with
    | ok t => rw [hr] at hstep; exact ih t hstep
    | error t => rw [hr] at hstep; exact hstep

/-- The loop of `ingestNak` over a well-formed prefix whose identifiers are not
ahead of the send PacketID: the identifiers of the prefix are inserted, and the
loop goes on with the rest of the list. -/
theorem ingestNak_loop_leading (n : Nat) : ∀ (p rest : List Nat) (acc : List PacketID)
    (s : UdtSocket_send),
    p.length ≤ n → ¬ NakMalformed p →
    (∀ w ∈ p, ¬ PacketID.blindDifference s._sendPacketID (PacketID.ofWord w) < 0) →
    ingestNak_loop (p ++ rest) acc s =
      ingestNak_loop rest (acc ++ nakIdentifiers p)
        { s with _sendLossList := (nakIdentifiers p).foldl PacketIDSet.insert s._sendLossList } := by
  induction n with
  | zero =>
    intro p rest acc s hl hm hv
    have : p = [] := List.length_eq_zero.mp (by omega)
    subst this
    simp [nakIdentifiers]
  | succ n ih =>
    intro p rest acc s hl hm hv
    cases p with
    | nil => simp [nakIdentifiers]
    | cons thisEntry tl =>
      rw [NakMalformed_cons] at hm
      push_neg at hm
      have hv1 : (assertValidSentPktID (PacketID.ofWord thisEntry) s).1 = true := by
        rw [assertValidSentPktID_fst]; simpa using hv thisEntry (by simp)
      by_cases h1 : thisEntry &&& 0x80000000 ≠ 0
      · cases tl with
        | nil => exact absurd rfl (hm.1 h1).1
        | cons lastEntry tl2 =>
          have h3 : ¬ isRangeStart lastEntry := fun h => (hm.1 h1).2 lastEntry tl2 rfl h
          have hv2 : (assertValidSentPktID (PacketID.ofWord lastEntry) s).1 = true := by
            rw [assertValidSentPktID_fst]; simpa using hv lastEntry (by simp)
          have hm2 : ¬ NakMalformed tl2 := by
            have := hm.2
            rw [NakMalformed_cons] at this
            push_neg at this
            exact this.2
          have h3' : ¬ (lastEntry &&& 0x80000000 ≠ 0) := h3
          rw [List.cons_append, List.cons_append, ingestNak_loop, if_pos h1]
          simp only [hv1, hv2, h3', Bool.not_true, Bool.false_eq_true, if_false]
          rw [ih tl2 rest _ { s with _sendLossList := (spanList (PacketID.ofWord thisEntry)
              (PacketID.ofWord lastEntry)).foldl PacketIDSet.insert s._sendLossList }
            (by simp only [List.length_cons] at hl; omega) hm2
            (fun w hw => hv w (by simp [hw]))]
          rw [nakIdentifiers_range _ _ _ h1]
          simp [List.foldl_append]
      · rw [List.cons_append, ingestNak_loop, if_neg h1]
        simp only [hv1, Bool.not_true, Bool.false_eq_true, if_false]
        rw [ih tl rest _
          { s with _sendLossList := PacketIDSet.insert s._sendLossList (PacketID.ofWord thisEntry) }
          (by simp only [List.length_cons] at hl; omega) hm.2
          (fun w hw => hv w (by simp [hw]))]
        rw [nakIdentifiers_single _ _ h1]
        simp [List.foldl_append]

/-- The loop of `ingestNak` at an offending entry: it returns from `ingestNak`
after one request for a Corrupted shutdown and inserts nothing. -/
theorem ingestNak_loop_offending (rest : List Nat) (acc : List PacketID) (s : UdtSocket_send)
    (h : nakOffending s rest) :
    ingestNak_loop rest acc s =
      (none, { s with
        _socket := s._socket ++ [SocketCall.requestShutdown UdtSocketState.Corrupted] }) := by
  have hinv : ∀ w : Nat, PacketID.blindDifference s._sendPacketID (PacketID.ofWord w) < 0 →
      assertValidSentPktID (PacketID.ofWord w) s =
        (false, { s with
          _socket := s._socket ++ [SocketCall.requestShutdown UdtSocketState.Corrupted] }) := by
    intro w hw
    simp [assertValidSentPktID, hw]
  have hval : ∀ w : Nat, ¬ PacketID.blindDifference s._sendPacketID (PacketID.ofWord w) < 0 →
      assertValidSentPktID (PacketID.ofWord w) s = (true, s) := by
    intro w hw
    simp [assertValidSentPktID, hw]
  cases rest with
  | nil => exact absurd h (by simp [nakOffending])
  | cons w tl =>
    cases tl with
    | nil =>
      simp only [nakOffending] at h
      rw [ingestNak_loop]
      by_cases h1 : w &&& 0x80000000 ≠ 0
      · rw [if_pos h1]
      · have hw : PacketID.blindDifference s._sendPacketID (PacketID.ofWord w) < 0 := by
          rcases h with h | h
          · exact absurd h h1
          · exact h
        rw [if_neg h1]
        simp only [hinv w hw, Bool.not_false, if_true]
    | cons w2 tl2 =>
      simp only [nakOffending] at h
      rw [ingestNak_loop]
      by_cases h1 : w &&& 0x80000000 ≠ 0
      · have h1' : isRangeStart w := h1
        rw [if_pos h1'] at h
        rw [if_pos h1]
        by_cases hw : PacketID.blindDifference s._sendPacketID (PacketID.ofWord w) < 0
        · simp only [hinv w hw, Bool.not_false, if_true]
        · simp only [hval w hw, Bool.not_true, Bool.false_eq_true, if_false]
          by_cases h2 : w2 &&& 0x80000000 ≠ 0
          · rw [if_pos h2]
          · have hw2 : PacketID.blindDifference s._sendPacketID (PacketID.ofWord w2) < 0 := by
              rcases h with h | h | h
              · exact absurd h hw
              · exact absurd h h2
              · exact h
            rw [if_neg h2]
            simp only [hinv w2 hw2, Bool.not_false, if_true]
      · have h1' : ¬ isRangeStart w := h1
        rw [if_neg h1'] at h
        rw [if_neg h1]
        simp only [hinv w h, Bool.not_false, if_true]

theorem nakOffending_of_sendPacketID (s u : UdtSocket_send) (rest : List Nat)
    (h : u._sendPacketID = s._sendPacketID) (ho : nakOffending s rest) : nakOffending u rest := by
  cases rest with
  | nil => exact ho
  | cons w tl =>
    cases tl with
    | nil =>
      simp only [nakOffending] at ho ⊢
      rw [h]
      exact ho
    | cons w2 tl2 =>
      simp only [nakOffending] at ho ⊢
      rw [h]
      exact ho

/-! ### The 64-bit send period -/

/-- C1 (code evaluated at the failing input): with the SND timer inactive, a
congestion window of 0 and one unacknowledged packet, `reevalSendState` returns
Idle, because the comparison of the window with the table size is the wrong way
round: the state is Waiting when min(flow window, congestion window) is at least
the size of the table. -/
theorem C1_reevalSendState_empty_congestion_window :
    reevalSendState
        { UdtSocket_send.new with
          _congestWindow := 0
          _sendPktPend := [(100, SendPacketEntry.ofPacket
            { _packetID := 100, _messagePosition := MessagePosition.Only, _isOrdered := true,
              _messageNumber := 1, _contents := [] })] } = SendState.Idle
      ∧ reevalSendState
        { UdtSocket_send.new with
          _congestWindow := 16
          _sendPktPend := [(100, SendPacketEntry.ofPacket
            { _packetID := 100, _messagePosition := MessagePosition.Only, _isOrdered := true,
              _messageNumber := 1, _contents := [] })] } = SendState.Waiting := by
  constructor <;> rfl

/-- C2 (the claim fails on the code): in the stream scenario the three packets
carry the message numbers 1, 2, 3, not 1, 1, 1. -/
theorem C2_stream_message_numbers_differ :
    (dataPackets (processDataMsg_calls true 3 streamScenario)._socket).map
        (fun p => p._messageNumber) = [1, 2, 3]
    ∧ ¬ (∀ p ∈ dataPackets (processDataMsg_calls true 3 streamScenario)._socket,
          p._messageNumber = 1) := by
  have h := (stream_scenario (List.replicate 3000 0) (List.length_replicate _ _)).1
  have h' : dataPackets (processDataMsg_calls true 3 streamScenario)._socket = _ := h
  rw [h']
  refine ⟨rfl, ?_⟩
  intro hall
  have h2 : (2 : Nat) = 1 := hall _ (List.mem_cons_of_mem _ (List.mem_cons_self _ _))
  exact absurd h2 (by decide)

/-- C2 (amended): in stream mode the message number advances on every call of
`processDataMsg` that sends a packet, on the first fragment of a message and on
the later ones alike, and the packet carries the advanced number with position
Only and ordered = true. Starting with next send PacketID 100, message number 0,
MTU 1000 and one 3000-byte message, the three calls (isFirst = true, false,
false) send the PacketIDs 100, 101, 102, all Only and ordered, with payload
lengths 1000, 1000, 1000 and message numbers 1, 2, 3. -/
theorem C2_stream_message_number_advances_per_packet :
    (∀ (isFirst : Bool) (s : UdtSocket_send) (m : MessageEntry),
        s._isDatagram = false → s._msgPartialSend = some m →
        (s._mtu ≤ m.content.length ∨ s._pendingMessages = []) →
        (processDataMsg isFirst s)._messageSequence = SequenceNumber.incr s._messageSequence
        ∧ ∃ p, dataPackets (processDataMsg isFirst s)._socket = dataPackets s._socket ++ [p]
            ∧ p._packetID = s._sendPacketID
            ∧ p._messagePosition = MessagePosition.Only
            ∧ p._isOrdered = true
            ∧ p._messageNumber = SequenceNumber.incr s._messageSequence)
    ∧ (∀ c : ByteSlice, c.length = 3000 →
        dataPackets (processDataMsg_calls true 3
            { scenarioStart false 1000 with
              _msgPartialSend := some (MessageEntry.ofContent c) })._socket =
          [{ _packetID := 100, _messagePosition := MessagePosition.Only, _isOrdered := true,
             _messageNumber := 1, _contents := c.take 1000 },
           { _packetID := 101, _messagePosition := MessagePosition.Only, _isOrdered := true,
             _messageNumber := 2, _contents := (c.drop 1000).take 1000 },
           { _packetID := 102, _messagePosition := MessagePosition.Only, _isOrdered := true,
             _messageNumber := 3, _contents := c.drop 2000 }]
        ∧ (c.take 1000).length = 1000 ∧ ((c.drop 1000).take 1000).length = 1000
        ∧ (c.drop 2000).length = 1000) := by
  refine ⟨?_, stream_scenario⟩
  intro isFirst s m hd hs h
  obtain ⟨-, -, -, -, e5, -, e7⟩ := processDataMsg_stream_step isFirst s m hd hs h
  exact ⟨e5, _, e7, rfl, rfl, rfl, rfl⟩

/-- The scenario of C2 on a message of 3000 zero bytes. -/
theorem C2_stream_message_number_advances_per_packet_witness :
    (streamScenario._isDatagram = false
      ∧ (processDataMsg true streamScenario)._messageSequence = SequenceNumber.incr 0)
    ∧ (List.replicate 3000 (0 : UInt8)).length = 3000
    ∧ ((List.replicate 3000 (0 : UInt8)).drop 2000).length = 1000 :=
  ⟨⟨rfl, (C2_stream_message_number_advances_per_packet.1 true streamScenario
      (MessageEntry.ofContent (List.replicate 3000 0)) rfl rfl (Or.inr rfl)).1⟩,
   List.length_replicate _ _,
   (C2_stream_message_number_advances_per_packet.2 (List.replicate 3000 0)
      (List.length_replicate _ _)).2.2.2⟩

/-- C3 (code evaluated at the failing input): in datagram mode with MTU 1000, a
1000-byte message in the partial-send slot fits in one MTU, yet the packet that
`processDataMsg` sends is tagged First when `isFirst = true` and Middle when
`isFirst = false`, and the slot is cleared: the branch `msgLen >= _mtu` also takes
the case `msgLen == _mtu`, in which no Only or Last packet is ever sent. -/
theorem C3_exact_fit_is_tagged_First_or_Middle :
    dataPackets (processDataMsg true
        { scenarioStart true 1000 with
          _msgPartialSend := some (MessageEntry.ofContent (List.replicate 1000 0)) })._socket =
      [{ _packetID := 100, _messagePosition := MessagePosition.First, _isOrdered := false,
         _messageNumber := 1, _contents := List.replicate 1000 0 }]
    ∧ dataPackets (processDataMsg false
        { scenarioStart true 1000 with
          _msgPartialSend := some (MessageEntry.ofContent (List.replicate 1000 0)) })._socket =
      [{ _packetID := 100, _messagePosition := MessagePosition.Middle, _isOrdered := false,
         _messageNumber := 0, _contents := List.replicate 1000 0 }]
    ∧ (processDataMsg true
        { scenarioStart true 1000 with
          _msgPartialSend := some (MessageEntry.ofContent (List.replicate 1000 0)) })._msgPartialSend
        = none := by
  have h1 := processDataMsg_datagram_exact_fit true
    { scenarioStart true 1000 with
      _msgPartialSend := some (MessageEntry.ofContent (List.replicate 1000 0)) }
    (MessageEntry.ofContent (List.replicate 1000 0)) rfl rfl (List.length_replicate _ _)
  have h2 := processDataMsg_datagram_exact_fit false
    { scenarioStart true 1000 with
      _msgPartialSend := some (MessageEntry.ofContent (List.replicate 1000 0)) }
    (MessageEntry.ofContent (List.replicate 1000 0)) rfl rfl (List.length_replicate _ _)
  exact ⟨h1.1, h2.1, h1.2⟩

/-- C4: in datagram mode every packet sent by successive `processDataMsg` calls
for one message carries the same message number, the successor of the message
number before the first fragment, and is not ordered; the counter itself
advances on the first call only. A 2500-byte message with MTU 1000, send
PacketID 100 and message number 0 yields the packets 100 (First, 1000 B), 101
(Middle, 1000 B), 102 (Last, 500 B), all with message number 1. -/
theorem C4_datagram_fragments_share_message_number :
    (∀ (s : UdtSocket_send) (m : MessageEntry) (n : Nat),
        s._isDatagram = true → s._msgPartialSend = some m →
        (∃ ps, dataPackets (processDataMsg_calls true n s)._socket = dataPackets s._socket ++ ps
          ∧ ∀ p ∈ ps, p._messageNumber = SequenceNumber.incr s._messageSequence
              ∧ p._isOrdered = false)
        ∧ (1 ≤ n → (processDataMsg_calls true n s)._messageSequence =
              SequenceNumber.incr s._messageSequence))
    ∧ (∀ c : ByteSlice, c.length = 2500 →
        dataPackets (processDataMsg_calls true 3
            { scenarioStart true 1000 with
              _msgPartialSend := some (MessageEntry.ofContent c) })._socket =
          [{ _packetID := 100, _messagePosition := MessagePosition.First, _isOrdered := false,
             _messageNumber := 1, _contents := c.take 1000 },
           { _packetID := 101, _messagePosition := MessagePosition.Middle, _isOrdered := false,
             _messageNumber := 1, _contents := (c.drop 1000).take 1000 },
           { _packetID := 102, _messagePosition := MessagePosition.Last, _isOrdered := false,
             _messageNumber := 1, _contents := c.drop 2000 }]
        ∧ (c.take 1000).length = 1000 ∧ ((c.drop 1000).take 1000).length = 1000
        ∧ (c.drop 2000).length = 500) := by
  refine ⟨?_, datagram_scenario⟩
  intro s m n hd hs
  obtain ⟨h1, -, h3⟩ := processDataMsg_calls_datagram n true s m hd hs
  refine ⟨⟨_, h1, ?_⟩, ?_⟩
  · intro p hp
    obtain ⟨e1, e2, -⟩ := datagramFragments_mem _ _ _ _ _ _ p hp
    exact ⟨by simpa using e1, e2⟩
  · intro hn
    rw [h3]
    have : n ≠ 0 := by omega
    simp [this]

/-- The scenario of C4 on a message of 2500 zero bytes. -/
theorem C4_datagram_fragments_share_message_number_witness :
    (List.replicate 2500 (0 : UInt8)).length = 2500
    ∧ (∃ ps, dataPackets (processDataMsg_calls true 3 datagramScenario)._socket =
          dataPackets datagramScenario._socket ++ ps
        ∧ ∀ p ∈ ps, p._messageNumber = SequenceNumber.incr 0 ∧ p._isOrdered = false)
    ∧ ((List.replicate 2500 (0 : UInt8)).drop 2000).length = 500 :=
  ⟨List.length_replicate _ _,
   (C4_datagram_fragments_share_message_number.1 datagramScenario
      (MessageEntry.ofContent (List.replicate 2500 0)) 3 rfl rfl).1,
   (C4_datagram_fragments_share_message_number.2 (List.replicate 2500 0)
      (List.length_replicate _ _)).2.2.2⟩

/-- C5: in datagram mode with MTU at least 1, the packets sent by `n` successive
`processDataMsg` calls for the message in the partial-send slot have as
PacketIDs the successive successors of the send PacketID at the start, every
payload is at most one MTU long, the payloads concatenated in emission order are
the first `n * MTU` bytes of the message, and once `n * MTU` covers the message
the slot is empty and the concatenation is the whole message. -/
theorem C5_datagram_fragments_in_PacketID_order (s : UdtSocket_send) (m : MessageEntry) (n : Nat)
    (hd : s._isDatagram = true) (hs : s._msgPartialSend = some m) (hM : 1 ≤ s._mtu) :
    ∃ ps, dataPackets (processDataMsg_calls true n s)._socket = dataPackets s._socket ++ ps
      ∧ ps.map (fun p => p._packetID) =
          (List.range ps.length).map (fun k => PacketID.incr^[k] s._sendPacketID)
      ∧ (∀ p ∈ ps, p._contents.length ≤ s._mtu)
      ∧ (ps.map (fun p => p._contents)).flatten = m.content.take (n * s._mtu)
      ∧ (1 ≤ n → m.content.length ≤ n * s._mtu →
          (processDataMsg_calls true n s)._msgPartialSend = none
          ∧ (ps.map (fun p => p._contents)).flatten = m.content)
      ∧ ∃ k, m.content.length ≤ k * s._mtu ∧ 1 ≤ k := by
  obtain ⟨h1, h2, -⟩ := processDataMsg_calls_datagram n true s m hd hs
  refine ⟨_, h1, datagramFragments_ids _ _ _ _ _ _, ?_, datagramFragments_flatten _ _ _ _ _ _, ?_, ?_⟩
  · intro p hp
    exact (datagramFragments_mem _ _ _ _ _ _ p hp).2.2
  · intro hn hle
    constructor
    · rw [h2]
      have h0 : n ≠ 0 := by omega
      have h3 : ¬ (n * s._mtu < m.content.length) := by omega
      simp [h0, h3]
    · rw [datagramFragments_flatten, List.take_of_length_le hle]
  · refine ⟨m.content.length + 1, ?_, by omega⟩
    calc m.content.length ≤ (m.content.length + 1) * 1 := by omega
      _ ≤ (m.content.length + 1) * s._mtu := Nat.mul_le_mul_left _ hM

/-- The scenario of C5: three calls on the 2500-byte datagram message. -/
theorem C5_datagram_fragments_in_PacketID_order_witness :
    datagramScenario._isDatagram = true ∧ 1 ≤ datagramScenario._mtu
    ∧ ∃ ps, dataPackets (processDataMsg_calls true 3 datagramScenario)._socket =
        dataPackets datagramScenario._socket ++ ps
      ∧ ps.map (fun p => p._packetID) =
          (List.range ps.length).map (fun k => PacketID.incr^[k] datagramScenario._sendPacketID)
      ∧ (∀ p ∈ ps, p._contents.length ≤ datagramScenario._mtu)
      ∧ (ps.map (fun p => p._contents)).flatten =
          (MessageEntry.ofContent (List.replicate 2500 0)).content.take (3 * datagramScenario._mtu)
      ∧ (1 ≤ 3 → (MessageEntry.ofContent (List.replicate 2500 0)).content.length
            ≤ 3 * datagramScenario._mtu →
          (processDataMsg_calls true 3 datagramScenario)._msgPartialSend = none
          ∧ (ps.map (fun p => p._contents)).flatten =
              (MessageEntry.ofContent (List.replicate 2500 0)).content)
      ∧ ∃ k, (MessageEntry.ofContent (List.replicate 2500 0)).content.length
            ≤ k * datagramScenario._mtu ∧ 1 ≤ k :=
  ⟨rfl, by decide,
   C5_datagram_fragments_in_PacketID_order datagramScenario
     (MessageEntry.ofContent (List.replicate 2500 0)) 3 rfl rfl (by decide)⟩

/-- C6: in stream mode with MTU at least 1, after the messages `msgs` have been
enqueued by `sendMessage` on a sender with empty slot and empty FIFO, repeated
sending steps drain the slot and the FIFO (from some step on both are empty),
and at every step at which both are empty the payloads of the data packets sent,
concatenated in emission order, are the message contents concatenated in the
order of the `sendMessage` calls. A pass of `processEvent` in send state Idle on
a Connected socket is such a sending step while the slot or the FIFO holds
content. -/
theorem C6_stream_payloads_follow_sendMessage_order (s : UdtSocket_send)
    (msgs : List (ByteSlice × QDeadlineTimer))
    (hd : s._isDatagram = false) (hM : 1 ≤ s._mtu) (hs : s._msgPartialSend = none)
    (hp : s._pendingMessages = []) :
    (∀ k, ∃ ps,
        dataPackets (fragmentSteps k (msgs.foldl (fun st x => sendMessage x.1 x.2 st) s))._socket =
          dataPackets s._socket ++ ps
        ∧ ((fragmentSteps k (msgs.foldl (fun st x => sendMessage x.1 x.2 st) s))._msgPartialSend = none →
            (fragmentSteps k (msgs.foldl (fun st x => sendMessage x.1 x.2 st) s))._pendingMessages = [] →
            (ps.map (fun p => p._contents)).flatten = (msgs.map (fun x => x.1)).flatten))
    ∧ (∃ n, ∀ k, n ≤ k →
        (fragmentSteps k (msgs.foldl (fun st x => sendMessage x.1 x.2 st) s))._msgPartialSend = none
        ∧ (fragmentSteps k (msgs.foldl (fun st x => sendMessage x.1 x.2 st) s))._pendingMessages = [])
    ∧ (∀ t : UdtSocket_send, t._sendState = SendState.Idle →
        t._socketState = UdtSocketState.Connected → t._flagRecentReceivedPacket = false →
        (t._msgPartialSend ≠ none ∨ t._pendingMessages ≠ []) →
        processEvent t = Except.ok (true, fragmentStep t)) :=
  ⟨(stream_drain s msgs hd hM hs hp).1, (stream_drain s msgs hd hM hs hp).2,
   processEvent_fragmentStep⟩

/-- The statement of C6 for two short messages enqueued on a stream sender with
MTU 1000. -/
theorem C6_stream_payloads_follow_sendMessage_order_witness :
    (scenarioStart false 1000)._isDatagram = false ∧ 1 ≤ (scenarioStart false 1000)._mtu
    ∧ (scenarioStart false 1000)._msgPartialSend = none
    ∧ (scenarioStart false 1000)._pendingMessages = []
    ∧ ∃ n, ∀ k, n ≤ k →
        (fragmentSteps k (([([1, 2, 3], none), ([4, 5], none)] :
            List (ByteSlice × QDeadlineTimer)).foldl
          (fun st x => sendMessage x.1 x.2 st) (scenarioStart false 1000)))._msgPartialSend = none
        ∧ (fragmentSteps k (([([1, 2, 3], none), ([4, 5], none)] :
            List (ByteSlice × QDeadlineTimer)).foldl
          (fun st x => sendMessage x.1 x.2 st) (scenarioStart false 1000)))._pendingMessages = [] :=
  ⟨rfl, by decide, rfl, rfl,
   (C6_stream_payloads_follow_sendMessage_order (scenarioStart false 1000)
      [([1, 2, 3], none), ([4, 5], none)] rfl (by decide) rfl rfl).2.1⟩

/-- C7: in datagram mode with MTU `M >= 1`, a message of length `L >= 1` in the
partial-send slot is sent in exactly `ceil(L / M)` calls of `processDataMsg`:
after `n` calls `min n (ceil(L / M))` data packets have been sent, none of them
empty, and the slot is empty exactly from call `ceil(L / M)` on. When `L = M`
one packet carries the whole message, the slot is cleared by the first call and
every further call sends nothing. -/
theorem C7_datagram_fragmentation_terminates (s : UdtSocket_send) (m : MessageEntry)
    (hd : s._isDatagram = true) (hs : s._msgPartialSend = some m)
    (hM : 1 ≤ s._mtu) (hL : 1 ≤ m.content.length) :
    (∀ n, ∃ ps, dataPackets (processDataMsg_calls true n s)._socket = dataPackets s._socket ++ ps
        ∧ ps.length = min n ((m.content.length + s._mtu - 1) / s._mtu)
        ∧ (∀ p ∈ ps, 1 ≤ p._contents.length)
        ∧ ((processDataMsg_calls true n s)._msgPartialSend = none
            ↔ (m.content.length + s._mtu - 1) / s._mtu ≤ n))
    ∧ (m.content.length = s._mtu →
        (m.content.length + s._mtu - 1) / s._mtu = 1
        ∧ ∀ n, 1 ≤ n →
          (∃ p, dataPackets (processDataMsg_calls true n s)._socket = dataPackets s._socket ++ [p]
            ∧ p._contents = m.content)
          ∧ (processDataMsg_calls true n s)._msgPartialSend = none) := by
  have hslot : ∀ n, ((processDataMsg_calls true n s)._msgPartialSend = none
      ↔ (m.content.length + s._mtu - 1) / s._mtu ≤ n) := by
    intro n
    rw [(processDataMsg_calls_datagram n true s m hd hs).2.1]
    have hk : (m.content.length + s._mtu - 1) / s._mtu ≤ n ↔ m.content.length ≤ n * s._mtu := by
      rw [← Nat.lt_succ_iff, Nat.div_lt_iff_lt_mul (by omega), Nat.succ_mul]
      omega
    rw [hk]
    by_cases h : n = 0 ∨ n * s._mtu < m.content.length
    · simp only [h, if_true]
      constructor
      · intro h'; cases h'
      · intro h'
        rcases h with h | h
        · subst h; omega
        · omega
    · simp only [h, if_false, true_iff]
      omega
  constructor
  · intro n
    obtain ⟨h1, -, -⟩ := processDataMsg_calls_datagram n true s m hd hs
    exact ⟨_, h1, datagramFragments_length _ _ _ _ _ _ hM hL,
      datagramFragments_nonempty _ _ _ _ _ _ hM hL, hslot n⟩
  · intro hlen
    have hk : (m.content.length + s._mtu - 1) / s._mtu = 1 := by
      have h1 : m.content.length + s._mtu - 1 = (m.content.length - 1) + s._mtu := by omega
      rw [h1, Nat.add_div_right _ (by omega), Nat.div_eq_of_lt (by omega)]
    refine ⟨hk, ?_⟩
    intro n hn
    obtain ⟨k, rfl⟩ : ∃ k, n = k + 1 := ⟨n - 1, by omega⟩
    refine ⟨?_, (hslot (k + 1)).2 (by omega)⟩
    obtain ⟨h1, -, -⟩ := processDataMsg_calls_datagram (k + 1) true s m hd hs
    rw [h1]
    have hnlt : ¬ (s._mtu < m.content.length) := by omega
    refine ⟨_, by simp only [datagramFragments, hnlt, if_false]; rfl, ?_⟩
    exact List.take_of_length_le (by omega)

/-- The scenario of C7: the 2500-byte datagram message with MTU 1000. -/
theorem C7_datagram_fragmentation_terminates_witness :
    datagramScenario._isDatagram = true ∧ 1 ≤ datagramScenario._mtu
    ∧ 1 ≤ (MessageEntry.ofContent (List.replicate 2500 0)).content.length
    ∧ ∃ ps, dataPackets (processDataMsg_calls true 3 datagramScenario)._socket =
        dataPackets datagramScenario._socket ++ ps
      ∧ ps.length = min 3 (((MessageEntry.ofContent (List.replicate 2500 0)).content.length
          + datagramScenario._mtu - 1) / datagramScenario._mtu)
      ∧ (∀ p ∈ ps, 1 ≤ p._contents.length)
      ∧ ((processDataMsg_calls true 3 datagramScenario)._msgPartialSend = none
          ↔ ((MessageEntry.ofContent (List.replicate 2500 0)).content.length
              + datagramScenario._mtu - 1) / datagramScenario._mtu ≤ 3) :=
  ⟨rfl, by decide, by rw [MessageEntry.ofContent, List.length_replicate]; decide,
   (C7_datagram_fragmentation_terminates datagramScenario
     (MessageEntry.ofContent (List.replicate 2500 0)) rfl rfl (by decide)
     (by rw [MessageEntry.ofContent, List.length_replicate]; decide)).1 3⟩

/-- C8: for any sequence of sender events, run from any sender state with an
empty call log, the PacketIDs of the data packets handed to the socket are in
strictly increasing modular order from one packet to the next; each is in fact
the successor of the one before it. The resend path of `processSendLoss` hands
no packet to the socket: it faults on its null `dataPacketEntry` before it
reaches `sendDataPacket`. -/
theorem C8_transmitted_PacketIDs_increase (s : UdtSocket_send) (evs : List SenderEvent) :
    List.Chain' (fun a b => PacketID.lt a b = true)
        (sentPacketIDs (runEvents evs { s with _socket := [] }))
    ∧ List.Chain' (fun a b => b = PacketID.incr a)
        (sentPacketIDs (runEvents evs { s with _socket := [] })) := by
  have h := (runEvents_sentPacketIDs evs { s with _socket := [] }
    ⟨by simp [sentPacketIDs, dataPackets], by simp [sentPacketIDs, dataPackets]⟩).1
  refine ⟨List.Chain'.imp ?_ h, h⟩
  intro a b hb
  rw [hb]
  exact PacketID.lt_incr a

/-- C9: a call of `processDataMsg` with a message in the partial-send slot ends
in one call `sendDataPacket(dataPacketEntry, false)` for a record that carries
the send PacketID as its own and the expiry deadline of the slot's message;
`sendDataPacket` first inserts that record into the unacked table under this
PacketID (so that it is the record found there when none was stored under the
PacketID before), and the calls the whole `processDataMsg` makes on the socket
are `onDataPktSent` with this PacketID, then one `sendPacket` of the data
packet, then at most one MessageDropRequest of the expiry-drop scan. When the
call returns the record is still in the table unless that scan, run for a
16-aligned PacketID, has dropped it. -/
theorem C9_sent_packet_recorded_reported_transmitted (isFirst : Bool) (s : UdtSocket_send)
    (m : MessageEntry) (hs : s._msgPartialSend = some m) :
    ∃ entry s1 extra,
      processDataMsg isFirst s = sendDataPacket entry false s1
      ∧ entry.packet._packetID = s._sendPacketID
      ∧ entry.expireTime = m.expireTime
      ∧ (sendDataPacket_emit entry s1)._sendPktPend =
          SendPacketEntryMap.insert s._sendPktPend s._sendPacketID entry
      ∧ (SendPacketEntryMap.find s._sendPktPend s._sendPacketID = none →
          SendPacketEntryMap.find (sendDataPacket_emit entry s1)._sendPktPend s._sendPacketID
              = some entry
          ∧ (SendPacketEntryMap.find (processDataMsg isFirst s)._sendPktPend s._sendPacketID
                = some entry
              ∨ (s._sendPacketID % UINT_MODULUS % 16 = 0
                  ∧ SendPacketEntryMap.find (processDataMsg isFirst s)._sendPktPend s._sendPacketID
                      = none)))
      ∧ (processDataMsg isFirst s)._socket =
          s._socket ++ ([SocketCall.onDataPktSent s._sendPacketID,
            SocketCall.sendPacket (Packet.Data entry.packet)] ++ extra)
      ∧ (extra = [] ∨ ∃ d, extra = [SocketCall.sendPacket (Packet.MsgDropReq d)]) := by
  obtain ⟨entry, s1, h1, h2, h3, h4, h5⟩ :=
    processDataMsg_loop_sends isFirst s._pendingMessages s m hs
  obtain ⟨extra, e1, e2, e3⟩ := sendDataPacket_socket entry s1
  have hp : processDataMsg isFirst s = sendDataPacket entry false s1 := h1
  have hemit : (sendDataPacket_emit entry s1)._sendPktPend =
      SendPacketEntryMap.insert s._sendPktPend s._sendPacketID entry := by
    simp only [sendDataPacket_emit, h2, h4]
  refine ⟨entry, s1, extra, hp, h2, h3, hemit, ?_, ?_, e2⟩
  · intro hnone
    have hfound := SendPacketEntryMap.find_insert_of_none _ _ entry hnone
    rw [← hemit] at hfound
    refine ⟨hfound, ?_⟩
    rw [hp, ← h2]
    rw [← h2] at hfound
    rcases e3 with h | ⟨h, h'⟩
    · exact Or.inl (h.trans hfound)
    · exact Or.inr ⟨h, h'⟩
  · rw [hp, e1, h5, h2]

/-- The statement of C9 for the first call on the datagram scenario. -/
theorem C9_sent_packet_recorded_reported_transmitted_witness :
    datagramScenario._msgPartialSend = some (MessageEntry.ofContent (List.replicate 2500 0))
    ∧ ∃ entry s1 extra,
      processDataMsg true datagramScenario = sendDataPacket entry false s1
      ∧ entry.packet._packetID = datagramScenario._sendPacketID
      ∧ entry.expireTime = (MessageEntry.ofContent (List.replicate 2500 0)).expireTime
      ∧ (sendDataPacket_emit entry s1)._sendPktPend =
          SendPacketEntryMap.insert datagramScenario._sendPktPend datagramScenario._sendPacketID entry
      ∧ (SendPacketEntryMap.find datagramScenario._sendPktPend datagramScenario._sendPacketID = none →
          SendPacketEntryMap.find (sendDataPacket_emit entry s1)._sendPktPend
              datagramScenario._sendPacketID = some entry
          ∧ (SendPacketEntryMap.find (processDataMsg true datagramScenario)._sendPktPend
                datagramScenario._sendPacketID = some entry
              ∨ (datagramScenario._sendPacketID % UINT_MODULUS % 16 = 0
                  ∧ SendPacketEntryMap.find (processDataMsg true datagramScenario)._sendPktPend
                      datagramScenario._sendPacketID = none)))
      ∧ (processDataMsg true datagramScenario)._socket =
          datagramScenario._socket ++ ([SocketCall.onDataPktSent datagramScenario._sendPacketID,
            SocketCall.sendPacket (Packet.Data entry.packet)] ++ extra)
      ∧ (extra = [] ∨ ∃ d, extra = [SocketCall.sendPacket (Packet.MsgDropReq d)]) :=
  ⟨rfl, C9_sent_packet_recorded_reported_transmitted true datagramScenario
    (MessageEntry.ofContent (List.replicate 2500 0)) rfl⟩

/-- C10 (code evaluated at the failing input): with the packets 100, 101, 102
sent and the frontier at 100, a Light ACK for 102 (difference 2) widens the flow
window from 16 to 18 and moves the frontier to 102, as the claim says; a later
Light ACK for 101, which is behind the frontier (difference -1) and valid,
moves the frontier back to 101 and overwrites the flow window with the
advertised buffer size 7, because the test `_lastAckPacketID <= lastPacketReceived`
after the ACK2 block returns for the ACKs that advance and lets the stale ones
through. -/
theorem C10_stale_light_ack_moves_frontier_back :
    PacketID.blindDifference 102 100 = 2
    ∧ (ingestAck (lightAck 1 102 7) 0 threeSent)._lastAckPacketID = 102
    ∧ (ingestAck (lightAck 1 102 7) 0 threeSent)._flowWindowSize = 18
    ∧ PacketID.blindDifference 101 102 = -1
    ∧ PacketID.blindDifference 103 101 = 2
    ∧ (ingestAck (lightAck 2 101 7) 0 (ingestAck (lightAck 1 102 7) 0 threeSent))._lastAckPacketID
        = 101
    ∧ (ingestAck (lightAck 2 101 7) 0 (ingestAck (lightAck 1 102 7) 0 threeSent))._flowWindowSize
        = 7 := by
  decide

/-- C11 (the claim fails on the code): after the packets 100, 101, 102 were sent,
a Light ACK for 102 moves the acked frontier to 102 and leaves the entries 100
and 101, which are below 102, in the unacked table. -/
theorem C11_light_ack_leaves_entries_below_frontier :
    (ingestAck (lightAck 1 102 7) 0 threeSent)._lastAckPacketID = 102
    ∧ unackedIDs (ingestAck (lightAck 1 102 7) 0 threeSent) = [100, 101, 102]
    ∧ PacketID.lt 100 102 = true ∧ PacketID.lt 101 102 = true
    ∧ ¬ (∀ k ∈ unackedIDs (ingestAck (lightAck 1 102 7) 0 threeSent),
          PacketID.lt k (ingestAck (lightAck 1 102 7) 0 threeSent)._lastAckPacketID = false) := by
  decide

/-- C11 (amended): a valid Light ACK that advances the acked frontier to F moves
the frontier to F, widens the flow window by the signed difference and retires
nothing: the unacked table and the loss set are left as they were. After the
packets 100, 101, 102 were sent, a Light ACK for 102 moves the frontier from 100
to 102, widens the flow window from 16 to 18 and leaves 100, 101, 102 in the
unacked table. -/
theorem C11_light_ack_retires_nothing :
    (∀ (a : ACKPacket) (t : Nat) (s : UdtSocket_send),
        a._ackType = AckType.Light →
        0 ≤ PacketID.blindDifference s._sendPacketID a._lastPacketReceived →
        0 < PacketID.blindDifference a._lastPacketReceived s._lastAckPacketID →
        (ingestAck a t s)._lastAckPacketID = a._lastPacketReceived
        ∧ (ingestAck a t s)._flowWindowSize =
            (((s._flowWindowSize : Int)
              + PacketID.blindDifference a._lastPacketReceived s._lastAckPacketID)
              % (UINT_MODULUS : Int)).toNat
        ∧ (ingestAck a t s)._sendPktPend = s._sendPktPend
        ∧ (ingestAck a t s)._sendLossList = s._sendLossList)
    ∧ ((ingestAck (lightAck 1 102 7) 0 threeSent)._lastAckPacketID = 102
        ∧ (ingestAck (lightAck 1 102 7) 0 threeSent)._flowWindowSize = 18
        ∧ unackedIDs (ingestAck (lightAck 1 102 7) 0 threeSent) = [100, 101, 102]
        ∧ (ingestAck (lightAck 1 102 7) 0 threeSent)._sendLossList = []) := by
  refine ⟨?_, by decide⟩
  intro a t s hl hv hd
  rw [ingestAck_of_light_advance a t s hl (by omega) hd]
  obtain ⟨c1, c2, c3, c4, -, -, -⟩ := ingestAck_ack2_core a { s with
    _flowWindowSize := (((s._flowWindowSize : Int)
      + PacketID.blindDifference a._lastPacketReceived s._lastAckPacketID)
      % (UINT_MODULUS : Int)).toNat
    _lastAckPacketID := a._lastPacketReceived }
  exact ⟨c1, c2, c3, c4⟩

/-- The general part of C11 at the Light ACK for 102 after three packets. -/
theorem C11_light_ack_retires_nothing_witness :
    (lightAck 1 102 7)._ackType = AckType.Light
    ∧ 0 ≤ PacketID.blindDifference threeSent._sendPacketID (lightAck 1 102 7)._lastPacketReceived
    ∧ 0 < PacketID.blindDifference (lightAck 1 102 7)._lastPacketReceived threeSent._lastAckPacketID
    ∧ (ingestAck (lightAck 1 102 7) 0 threeSent)._sendPktPend = threeSent._sendPktPend :=
  ⟨rfl, by decide, by decide,
   (C11_light_ack_retires_nothing.1 (lightAck 1 102 7) 0 threeSent rfl (by decide)
      (by decide)).2.2.1⟩

/-- C12 (code evaluated at the failing input): after the packets 100, 101, 102
were sent with the frontier at 100 and the flow window at 16, a valid Full ACK
for 102 with advertised buffer size 7 changes nothing: the flow window stays
16, the frontier stays 100 and neither `applyRTT`, `applyReceiveRates` nor
`onACK` is called, because `ingestAck` returns at the test
`_lastAckPacketID <= lastPacketReceived`. -/
theorem C12_advancing_full_ack_is_ignored :
    PacketID.lt 100 102 = true
    ∧ PacketID.blindDifference 103 102 = 1
    ∧ (ingestAck (fullAck 1 102 7) 0 threeSent)._flowWindowSize = 16
    ∧ (ingestAck (fullAck 1 102 7) 0 threeSent)._lastAckPacketID = 100
    ∧ ackNotifications (ingestAck (fullAck 1 102 7) 0 threeSent)._socket = [] := by
  decide

/-- C13 (code evaluated at the failing input): with the packets 100, 101, 102
sent and the frontier at 102, a valid Full ACK for 101, which is behind the
frontier, moves the frontier back to 101. -/
theorem C13_stale_full_ack_moves_frontier_back :
    PacketID.lt 101 102 = true
    ∧ PacketID.le 102 101 = false
    ∧ ({ threeSent with _lastAckPacketID := 102 } : UdtSocket_send)._lastAckPacketID = 102
    ∧ (ingestAck (fullAck 1 101 7) 0 { threeSent with _lastAckPacketID := 102 })._lastAckPacketID
        = 101 := by
  decide

/-- C14: for every sender state and every ACK packet, a second `ingestAck` with
the same ACK right after the first leaves the acked frontier, the flow window,
the unacked table and the loss set as the first call left them, and calls
neither `applyRTT`, `applyReceiveRates` nor `onACK` again. -/
theorem C14_ingestAck_replay_is_idempotent (a : ACKPacket) (t : Nat) (s : UdtSocket_send) :
    (ingestAck a t (ingestAck a t s))._lastAckPacketID = (ingestAck a t s)._lastAckPacketID
    ∧ (ingestAck a t (ingestAck a t s))._flowWindowSize = (ingestAck a t s)._flowWindowSize
    ∧ (ingestAck a t (ingestAck a t s))._sendPktPend = (ingestAck a t s)._sendPktPend
    ∧ (ingestAck a t (ingestAck a t s))._sendLossList = (ingestAck a t s)._sendLossList
    ∧ ackNotifications (ingestAck a t (ingestAck a t s))._socket =
        ackNotifications (ingestAck a t s)._socket :=
  ingestAck_replay a t s

/-- C15 (the claim fails on the code): after the packets 100, 101, 102 were sent,
a Light ACK for 103 is ahead of the largest PacketID transmitted, 102, yet no
shutdown is requested and the frontier moves to 103. -/
theorem C15_ack_for_next_PacketID_is_accepted :
    sentPacketIDs threeSent = [100, 101, 102]
    ∧ (∀ id ∈ sentPacketIDs threeSent, PacketID.lt id 103 = true)
    ∧ shutdownRequests (ingestAck (lightAck 1 103 7) 0 threeSent)._socket = []
    ∧ (ingestAck (lightAck 1 103 7) 0 threeSent)._lastAckPacketID = 103 := by
  decide

/-- C15 (amended): `ingestAck` requests a Corrupted shutdown exactly for an ACK
whose last-received PacketID is ahead of the send PacketID, the PacketID that
the next fresh packet will carry (one past the largest transmitted): for such
an ACK it makes that one request and leaves the acked frontier, the flow window,
the unacked table and the loss set unchanged; for every other ACK it requests
no shutdown. -/
theorem C15_shutdown_iff_ahead_of_send_PacketID (a : ACKPacket) (t : Nat) (s : UdtSocket_send) :
    (PacketID.blindDifference s._sendPacketID a._lastPacketReceived < 0 →
        shutdownRequests (ingestAck a t s)._socket =
          shutdownRequests s._socket ++ [UdtSocketState.Corrupted]
        ∧ (ingestAck a t s)._lastAckPacketID = s._lastAckPacketID
        ∧ (ingestAck a t s)._flowWindowSize = s._flowWindowSize
        ∧ (ingestAck a t s)._sendPktPend = s._sendPktPend
        ∧ (ingestAck a t s)._sendLossList = s._sendLossList)
    ∧ (¬ PacketID.blindDifference s._sendPacketID a._lastPacketReceived < 0 →
        shutdownRequests (ingestAck a t s)._socket = shutdownRequests s._socket) := by
  refine ⟨?_, (ingestAck_shutdownRequests a t s).2⟩
  intro hv
  obtain ⟨e1, e2, e3, e4, -, -⟩ := ingestAck_early a t s (Or.inl hv)
  exact ⟨(ingestAck_shutdownRequests a t s).1 hv, e1, e2, e3, e4⟩

/-- The statement of C15 for a Light ACK for 104 and one for 103 after the
packets 100, 101, 102. -/
theorem C15_shutdown_iff_ahead_of_send_PacketID_witness :
    PacketID.blindDifference threeSent._sendPacketID (lightAck 1 104 7)._lastPacketReceived < 0
    ∧ shutdownRequests (ingestAck (lightAck 1 104 7) 0 threeSent)._socket =
        shutdownRequests threeSent._socket ++ [UdtSocketState.Corrupted]
    ∧ ¬ PacketID.blindDifference threeSent._sendPacketID (lightAck 1 103 7)._lastPacketReceived < 0
    ∧ shutdownRequests (ingestAck (lightAck 1 103 7) 0 threeSent)._socket =
        shutdownRequests threeSent._socket :=
  ⟨by decide,
   ((C15_shutdown_iff_ahead_of_send_PacketID (lightAck 1 104 7) 0 threeSent).1 (by decide)).1,
   by decide,
   (C15_shutdown_iff_ahead_of_send_PacketID (lightAck 1 103 7) 0 threeSent).2 (by decide)⟩

/-- C16, as the code behaves: a well-formed NAK with the valid range from 100 to
102 puts 100 and 101 in the loss set and in the list given to `onNAK`, and
leaves the range end 102 out of both. -/
theorem C16_nak_range_end_is_left_out :
    ¬ isRangeStart 102 ∧ isRangeStart 2147483748 ∧ PacketID.ofWord 2147483748 = 100
    ∧ (∀ w ∈ [2147483748, 102],
        ¬ PacketID.blindDifference threeSent._sendPacketID (PacketID.ofWord w) < 0)
    ∧ (ingestNak [2147483748, 102] 0 threeSent)._sendLossList = [100, 101]
    ∧ 102 ∉ (ingestNak [2147483748, 102] 0 threeSent)._sendLossList
    ∧ nakNotifications (ingestNak [2147483748, 102] 0 threeSent)._socket = [[100, 101]] := by
  decide

/-- C17: a NAK whose loss list holds a range start that ends the list or that is
followed at once by another range start makes `ingestNak` request a Corrupted
shutdown, with no call of `onNAK` and the send state left as it was; a loss list
without such a range start, whose identifiers are all not ahead of the send
PacketID, causes no shutdown request. -/
theorem C17_malformed_nak_requests_shutdown (l : List Nat) (t : Nat) (s : UdtSocket_send) :
    (NakMalformed l →
      (ingestNak l t s)._socket =
          s._socket ++ [SocketCall.requestShutdown UdtSocketState.Corrupted]
      ∧ nakNotifications (ingestNak l t s)._socket = nakNotifications s._socket
      ∧ (ingestNak l t s)._sendState = s._sendState)
    ∧ (¬ NakMalformed l →
        (∀ w ∈ l, ¬ PacketID.blindDifference s._sendPacketID (PacketID.ofWord w) < 0) →
        shutdownRequests (ingestNak l t s)._socket = shutdownRequests s._socket) := by
  constructor
  · intro h
    obtain ⟨loss, he⟩ := ingestNak_of_malformed l t s h
    rw [he]
    refine ⟨rfl, ?_, rfl⟩
    simp [nakNotifications_append, nakNotifications]
  · intro hm hv
    rw [ingestNak_of_wellformed l t s hm hv]
    simp [shutdownRequests_append, shutdownRequests]

theorem C17_malformed_nak_requests_shutdown_witness :
    (NakMalformed [101, 2147483748]
      ∧ (ingestNak [101, 2147483748] 0 threeSent)._socket =
          threeSent._socket ++ [SocketCall.requestShutdown UdtSocketState.Corrupted]
      ∧ nakNotifications (ingestNak [101, 2147483748] 0 threeSent)._socket =
          nakNotifications threeSent._socket
      ∧ (ingestNak [101, 2147483748] 0 threeSent)._sendState = threeSent._sendState)
    ∧ (¬ NakMalformed [2147483748, 102]
      ∧ shutdownRequests (ingestNak [2147483748, 102] 0 threeSent)._socket =
          shutdownRequests threeSent._socket) :=
  have hm : NakMalformed [101, 2147483748] :=
    ⟨[101], 2147483748, [], rfl, by decide, Or.inl rfl⟩
  have hw : ¬ NakMalformed [2147483748, 102] := by
    rw [NakMalformed_cons, NakMalformed_cons]
    simp only [NakMalformed_nil, or_false, not_or, not_and]
    refine ⟨fun _ => ?_, fun h => absurd h (by decide)⟩
    simp only [List.cons.injEq, reduceCtorEq, false_or, not_exists, not_and]
    refine ⟨not_false, ?_⟩
    rintro w2 post2 ⟨rfl, -⟩
    decide
  ⟨⟨hm, (C17_malformed_nak_requests_shutdown [101, 2147483748] 0 threeSent).1 hm⟩,
    hw, (C17_malformed_nak_requests_shutdown [2147483748, 102] 0 threeSent).2 hw (by decide)⟩

/-- C18: for a well-formed NAK whose identifiers are all not ahead of the send
PacketID, `ingestNak` makes one call, `onNAK`, after the loop, with the list of
the identifiers that the loop inserted into the loss set, and leaves the send
state ProcessDrop. -/
theorem C18_wellformed_nak_notifies_once (l : List Nat) (t : Nat) (s : UdtSocket_send)
    (hm : ¬ NakMalformed l)
    (hv : ∀ w ∈ l, ¬ PacketID.blindDifference s._sendPacketID (PacketID.ofWord w) < 0) :
    (ingestNak l t s)._socket = s._socket ++ [SocketCall.onNAK (nakIdentifiers l)]
    ∧ nakNotifications (ingestNak l t s)._socket =
        nakNotifications s._socket ++ [nakIdentifiers l]
    ∧ (ingestNak l t s)._sendLossList =
        (nakIdentifiers l).foldl PacketIDSet.insert s._sendLossList
    ∧ (ingestNak l t s)._sendState = SendState.ProcessDrop := by
  rw [ingestNak_of_wellformed l t s hm hv]
  refine ⟨rfl, ?_, rfl, rfl⟩
  simp [nakNotifications_append, nakNotifications]

theorem C18_wellformed_nak_notifies_once_witness :
    (ingestNak [101] 0 threeSent)._socket = threeSent._socket ++ [SocketCall.onNAK (nakIdentifiers [101])]
    ∧ nakNotifications (ingestNak [101] 0 threeSent)._socket =
        nakNotifications threeSent._socket ++ [nakIdentifiers [101]]
    ∧ (ingestNak [101] 0 threeSent)._sendLossList =
        (nakIdentifiers [101]).foldl PacketIDSet.insert threeSent._sendLossList
    ∧ (ingestNak [101] 0 threeSent)._sendState = SendState.ProcessDrop :=
  C18_wellformed_nak_notifies_once [101] 0 threeSent
    (not_NakMalformed_of_no_rangeStart [101] (by decide)) (by decide)

/-- C19, as the code behaves: with 100, 101, 102 sent and unacknowledged and the
socket Connected, the pass of `processEvent` that dispatches a NAK for 101 calls
`onNAK` and ends in the send state Waiting, not ProcessDrop, with 101 still in
the loss set and no data packet sent; the next pass does nothing, and a pass
started in ProcessDrop from there faults in `processSendLoss` with no data
packet sent. -/
theorem C19_nak_pass_ends_in_Waiting :
    returned (processEvent (packetReceived (Packet.Nak [101]) 0 threeSent)) = some false
    ∧ (outcomeState (processEvent (packetReceived (Packet.Nak [101]) 0 threeSent)))._sendState
        = SendState.Waiting
    ∧ (outcomeState (processEvent (packetReceived (Packet.Nak [101]) 0 threeSent)))._sendLossList
        = [101]
    ∧ nakNotifications
        (outcomeState (processEvent (packetReceived (Packet.Nak [101]) 0 threeSent)))._socket
        = [[101]]
    ∧ sentPacketIDs (outcomeState (processEvent (packetReceived (Packet.Nak [101]) 0 threeSent)))
        = [100, 101, 102]
    ∧ returned (processEvent
        (outcomeState (processEvent (packetReceived (Packet.Nak [101]) 0 threeSent)))) = some false
    ∧ sentPacketIDs (outcomeState (processEvent
        (outcomeState (processEvent (packetReceived (Packet.Nak [101]) 0 threeSent)))))
        = [100, 101, 102]
    ∧ (outcomeState (processEvent
        (outcomeState (processEvent (packetReceived (Packet.Nak [101]) 0 threeSent)))))._sendLossList
        = [101]
    ∧ faulted (processEvent
        { outcomeState (processEvent (packetReceived (Packet.Nak [101]) 0 threeSent)) with
          _sendState := SendState.ProcessDrop }) = true
    ∧ sentPacketIDs (outcomeState (processEvent
        { outcomeState (processEvent (packetReceived (Packet.Nak [101]) 0 threeSent)) with
          _sendState := SendState.ProcessDrop })) = [100, 101, 102] := by
  decide

/-- C20, as the code behaves: with 101 in the loss set, in the window and in the
unacked table with no deadline, `processSendLoss` removes 101 from the loss set
and faults on the null `dataPacketEntry` without sending a packet; no call of
`processSendLoss` returns true or sends a data packet. An identifier absent from
the unacked table is removed and skipped, and with no loss-set entry in the
window the call returns false. -/
theorem C20_processSendLoss_faults_before_resending :
    ((SendPacketEntryMap.find threeSent._sendPktPend 101).map
        (fun e => (e.packet._packetID, e.expireTime)) = some (101, none)
    ∧ findFirstEntry [101] threeSent._lastAckPacketID threeSent._sendPacketID = some 101
    ∧ faulted (processSendLoss { threeSent with _sendLossList := [101] }) = true
    ∧ (outcomeState (processSendLoss { threeSent with _sendLossList := [101] }))._sendLossList = []
    ∧ sentPacketIDs (outcomeState (processSendLoss { threeSent with _sendLossList := [101] }))
        = [100, 101, 102])
    ∧ (∀ s : UdtSocket_send, returned (processSendLoss s) ≠ some true)
    ∧ (∀ s : UdtSocket_send,
        dataPackets (outcomeState (processSendLoss s))._socket = dataPackets s._socket)
    ∧ (returned (processSendLoss
        { threeSent with
          _sendLossList := [101], _sendPktPend := [sentPacket 100 1, sentPacket 102 3] })
        = some false
      ∧ (outcomeState (processSendLoss
        { threeSent with
          _sendLossList := [101], _sendPktPend := [sentPacket 100 1, sentPacket 102 3] }))._sendLossList
        = [])
    ∧ returned (processSendLoss { threeSent with _sendLossList := [99, 104] }) = some false := by
  refine ⟨by decide, processSendLoss_never_true,
    fun s => (processSendLoss_quiet s).1, by decide, by decide⟩

/-- C22: `processExpEvent` requests a Timeout shutdown exactly when `_expCount`
is above 16 and more than 10 s have passed on the last-receive clock; it then
returns with every other field as it was (the loss set, the send state,
`_expCount`, the EXP timer) and with that request as its only call. Otherwise
it requests no shutdown. -/
theorem C22_processExpEvent_timeout (s : UdtSocket_send) :
    (expTimedOut s →
      processExpEvent s =
        { s with _socket := s._socket ++ [SocketCall.requestShutdown UdtSocketState.Timeout] })
    ∧ (¬ expTimedOut s →
      shutdownRequests (processExpEvent s)._socket = shutdownRequests s._socket) := by
  refine ⟨processExpEvent_of_timedOut s, fun h => ?_⟩
  rw [processExpEvent_of_not_timedOut s h]
  simp only [resetEXP]
  rw [shutdownRequests_append]
  cases s._sendPktPend.isEmpty <;> simp [shutdownRequests]

theorem C22_processExpEvent_timeout_witness :
    (expTimedOut { threeSent with _expCount := 17, _clock := 10001 }
      ∧ processExpEvent { threeSent with _expCount := 17, _clock := 10001 } =
        { ({ threeSent with _expCount := 17, _clock := 10001 } : UdtSocket_send) with
          _socket := threeSent._socket ++ [SocketCall.requestShutdown UdtSocketState.Timeout] })
    ∧ (¬ expTimedOut { threeSent with _expCount := 17, _clock := 10000 }
      ∧ shutdownRequests (processExpEvent { threeSent with _expCount := 17, _clock := 10000 })._socket
        = shutdownRequests threeSent._socket) :=
  ⟨⟨by decide,
     (C22_processExpEvent_timeout { threeSent with _expCount := 17, _clock := 10001 }).1 (by decide)⟩,
   by decide,
   (C22_processExpEvent_timeout { threeSent with _expCount := 17, _clock := 10000 }).2 (by decide)⟩

/-- C23, as the code behaves: with 100, 101, 102 sent and unacknowledged, the
frontier at 100, `_expCount` 2 and an empty loss set, `processExpEvent` calls
`onTimeout`, sets ProcessDrop and fills the loss set with 101, 102 and 103; 103
is the send PacketID, which no packet has carried yet and which is not in the
unacked table. A loss set that is not empty is left as it is. -/
theorem C23_exp_recovery_adds_unsent_PacketID :
    ¬ expTimedOut { threeSent with _expCount := 2 }
    ∧ sentPacketIDs { threeSent with _expCount := 2 } = [100, 101, 102]
    ∧ unackedIDs { threeSent with _expCount := 2 } = [100, 101, 102]
    ∧ ({ threeSent with _expCount := 2 } : UdtSocket_send)._lastAckPacketID = 100
    ∧ (processExpEvent { threeSent with _expCount := 2 })._sendLossList = [101, 102, 103]
    ∧ 103 ∉ sentPacketIDs (processExpEvent { threeSent with _expCount := 2 })
    ∧ 103 ∉ unackedIDs (processExpEvent { threeSent with _expCount := 2 })
    ∧ (processExpEvent { threeSent with _expCount := 2 })._socket.drop threeSent._socket.length
        = [SocketCall.onTimeout]
    ∧ (processExpEvent { threeSent with _expCount := 2 })._sendState = SendState.ProcessDrop
    ∧ (processExpEvent { threeSent with _expCount := 2, _sendLossList := [101] })._sendLossList
        = [101] := by
  decide

/-- C24: when `processExpEvent` does not time out, an empty unacked table makes
it hand exactly one Keepalive packet to the socket and leave the loss set and
the send state as they were; with or without unacked packets `_expCount` goes
up by one (as an `unsigned`) and the EXP timer is started again, for the
interval `resetEXP` computes from the new `_expCount`. -/
theorem C24_processExpEvent_keepalive_and_rearm (s : UdtSocket_send) (h : ¬ expTimedOut s) :
    (s._sendPktPend = [] →
      (processExpEvent s)._socket = s._socket ++ [SocketCall.sendPacket Packet.Keepalive]
      ∧ (processExpEvent s)._sendLossList = s._sendLossList
      ∧ (processExpEvent s)._sendState = s._sendState)
    ∧ (processExpEvent s)._expCount = (s._expCount + 1) % UINT_MODULUS
    ∧ (s._expCount + 1 < UINT_MODULUS → (processExpEvent s)._expCount = s._expCount + 1)
    ∧ (processExpEvent s)._EXPtimer =
        (resetEXP { s with _expCount := (s._expCount + 1) % UINT_MODULUS })._EXPtimer
    ∧ (processExpEvent s)._EXPtimer.isSome = true
    ∧ (processExpEvent s)._lastReceiveTime = s._clock := by
  rw [processExpEvent_of_not_timedOut s h]
  refine ⟨fun he => ?_, rfl, fun hlt => ?_, rfl, rfl, rfl⟩
  · simp [resetEXP, he]
  · simp only [resetEXP]
    exact Nat.mod_eq_of_lt hlt

theorem C24_processExpEvent_keepalive_and_rearm_witness :
    (scenarioStart false 1000)._sendPktPend = []
    ∧ (processExpEvent (scenarioStart false 1000))._socket
        = (scenarioStart false 1000)._socket ++ [SocketCall.sendPacket Packet.Keepalive]
    ∧ (scenarioStart false 1000)._expCount + 1 < UINT_MODULUS
    ∧ (processExpEvent (scenarioStart false 1000))._expCount
        = (scenarioStart false 1000)._expCount + 1
    ∧ (processExpEvent (scenarioStart false 1000))._EXPtimer.isSome = true :=
  ⟨rfl,
   ((C24_processExpEvent_keepalive_and_rearm (scenarioStart false 1000) (by decide)).1 rfl).1,
   by decide,
   (C24_processExpEvent_keepalive_and_rearm (scenarioStart false 1000) (by decide)).2.2.1
     (by decide),
   (C24_processExpEvent_keepalive_and_rearm (scenarioStart false 1000) (by decide)).2.2.2.2.1⟩

/-- C25: `processSendExpire` returns false exactly when no record of the
unacked table (an empty table included) has a deadline that has passed, and it
then leaves the whole sender state as it was: the unacked table, the loss set
and the log of socket calls. -/
theorem C25_processSendExpire_false_iff_none_expired (s : UdtSocket_send) :
    ((processSendExpire s).1 = false ↔
      ∀ kv ∈ s._sendPktPend, QDeadlineTimer.hasExpired s._clock kv.2.expireTime = false)
    ∧ ((processSendExpire s).1 = false → (processSendExpire s).2 = s) := by
  by_cases hall : ∀ kv ∈ s._sendPktPend, QDeadlineTimer.hasExpired s._clock kv.2.expireTime = false
  · have hres : processSendExpire s = (false, s) := by
      unfold processSendExpire
      split_ifs
      · rfl
      · exact processSendExpire_scan_none _ _ s hall
    rw [hres]
    exact ⟨⟨fun _ => hall, fun _ => rfl⟩, fun _ => rfl⟩
  · have hex : ∃ kv ∈ s._sendPktPend, QDeadlineTimer.hasExpired s._clock kv.2.expireTime = true := by
      by_contra hc
      apply hall
      intro kv hkv
      by_contra hne
      exact hc ⟨kv, hkv, by simpa using hne⟩
    obtain ⟨pre, k0, e0, post, heq, hp, he⟩ := exists_first_expired s._clock s._sendPktPend hex
    have hmem : (k0, e0) ∈ s._sendPktPend := by rw [heq]; simp
    have hne : s._sendPktPend.isEmpty = false := by
      rw [heq]; cases pre <;> rfl
    have hres : (processSendExpire s).1 = true := by
      unfold processSendExpire
      simp only [hne, Bool.false_eq_true, if_false]
      conv_lhs => rw [heq]
      rw [processSendExpire_scan_first _ pre post k0 e0 s hp he
        (SendPacketEntryMap.find_ne_none_of_mem _ _ _ hmem)]
    rw [hres]
    exact ⟨⟨fun h => absurd h (by simp), fun h => absurd h hall⟩, fun h => absurd h (by simp)⟩

theorem C25_processSendExpire_false_iff_none_expired_witness :
    (∀ kv ∈ threeSent._sendPktPend,
        QDeadlineTimer.hasExpired threeSent._clock kv.2.expireTime = false)
    ∧ (processSendExpire threeSent).1 = false
    ∧ (processSendExpire threeSent).2 = threeSent :=
  have h : (processSendExpire threeSent).1 = false :=
    (C25_processSendExpire_false_iff_none_expired threeSent).1.2 (by decide)
  ⟨by decide, h, (C25_processSendExpire_false_iff_none_expired threeSent).2 h⟩

/-- C26: when the first expired record of the unacked table is `(k0, e0)`, of
message `m`, `processSendExpire` returns true and hands the socket exactly one
MessageDropRequest, for `m`; its first and last PacketID are keys of records of
`m` and bound the keys of all records of `m` in the modular order (the keys of
`m` lie within half the PacketID space past `base`, where that order is
defined); the records of `m` are gone from the unacked table and their keys from
the loss set, and every other record, loss-set member and field is as before. -/
theorem C26_processSendExpire_drops_one_message (s : UdtSocket_send)
    (pre post : List (PacketID × SendPacketEntry)) (k0 : PacketID) (e0 : SendPacketEntry)
    (base : PacketID)
    (hk : (s._sendPktPend.map Prod.fst).Nodup)
    (hs : s._sendPktPend = pre ++ (k0, e0) :: post)
    (hpre : ∀ kv ∈ pre, QDeadlineTimer.hasExpired s._clock kv.2.expireTime = false)
    (he : QDeadlineTimer.hasExpired s._clock e0.expireTime = true)
    (hw : ∀ k ∈ messagePacketIDs e0.packet._messageNumber s._sendPktPend,
      PacketID.offset base k < 2 ^ 30) :
    ∃ first last,
      processSendExpire s =
        (true,
          { s with
            _sendPktPend := s._sendPktPend.filter
              (fun kv => decide (kv.2.packet._messageNumber ≠ e0.packet._messageNumber))
            _sendLossList := s._sendLossList.filter
              (fun x => decide (x ∉ messagePacketIDs e0.packet._messageNumber s._sendPktPend))
            _socket := s._socket ++
              [SocketCall.sendPacket (Packet.MsgDropReq
                { _messageID := e0.packet._messageNumber
                  _firstPacketID := first
                  _lastPacketID := last })] })
      ∧ first ∈ messagePacketIDs e0.packet._messageNumber s._sendPktPend
      ∧ last ∈ messagePacketIDs e0.packet._messageNumber s._sendPktPend
      ∧ ∀ k ∈ messagePacketIDs e0.packet._messageNumber s._sendPktPend,
          PacketID.le first k = true ∧ PacketID.le k last = true := by
  have hmem : (k0, e0) ∈ s._sendPktPend := by rw [hs]; simp
  have hk0 : k0 ∈ messagePacketIDs e0.packet._messageNumber s._sendPktPend :=
    (mem_messagePacketIDs _ _ _).mpr ⟨e0, hmem, rfl⟩
  have hsub : ∀ x ∈ k0 :: messagePacketIDs e0.packet._messageNumber s._sendPktPend,
      x ∈ messagePacketIDs e0.packet._messageNumber s._sendPktPend := by
    intro x hx
    rcases List.mem_cons.mp hx with rfl | hx
    · exact hk0
    · exact hx
  have hf := foldl_first_mem (messagePacketIDs e0.packet._messageNumber s._sendPktPend) k0
  have hl := foldl_last_mem (messagePacketIDs e0.packet._messageNumber s._sendPktPend) k0
  have hfle := foldl_first_le base _ k0 (hw k0 hk0) hw
  have hlle := foldl_last_le base _ k0 (hw k0 hk0) hw
  refine ⟨_, _, ?_, hsub _ hf, hsub _ hl, ?_⟩
  · rw [processSendExpire_of_first_expired s pre post k0 e0 hs hpre he,
      messagePacketIDs_filter _ _ hk]
  · intro k hkm
    exact ⟨(PacketID.le_iff_offset base _ k (hw _ (hsub _ hf)) (hw k hkm)).mpr
        (hfle k (List.mem_cons_of_mem _ hkm)),
      (PacketID.le_iff_offset base k _ (hw k hkm) (hw _ (hsub _ hl))).mpr
        (hlle k (List.mem_cons_of_mem _ hkm))⟩

theorem C26_processSendExpire_drops_one_message_witness :
    ∃ first last,
      processSendExpire expiredSent =
        (true,
          { expiredSent with
            _sendPktPend := expiredSent._sendPktPend.filter
              (fun kv => decide (kv.2.packet._messageNumber
                ≠ (sentRecord 100 1 (some 5)).2.packet._messageNumber))
            _sendLossList := expiredSent._sendLossList.filter
              (fun x => decide (x ∉ messagePacketIDs
                (sentRecord 100 1 (some 5)).2.packet._messageNumber expiredSent._sendPktPend))
            _socket := expiredSent._socket ++
              [SocketCall.sendPacket (Packet.MsgDropReq
                { _messageID := (sentRecord 100 1 (some 5)).2.packet._messageNumber
                  _firstPacketID := first
                  _lastPacketID := last })] })
      ∧ first ∈ messagePacketIDs (sentRecord 100 1 (some 5)).2.packet._messageNumber
          expiredSent._sendPktPend
      ∧ last ∈ messagePacketIDs (sentRecord 100 1 (some 5)).2.packet._messageNumber
          expiredSent._sendPktPend
      ∧ ∀ k ∈ messagePacketIDs (sentRecord 100 1 (some 5)).2.packet._messageNumber
          expiredSent._sendPktPend,
          PacketID.le first k = true ∧ PacketID.le k last = true :=
  C26_processSendExpire_drops_one_message expiredSent []
    [sentRecord 101 1 (some 5), sentRecord 102 2 none] 100 (sentRecord 100 1 (some 5)).2 100
    (by decide) rfl (by simp) (by decide) (by decide)

/-- C27 (the claim fails on the code): after one packet, 100, was sent, a
well-formed NAK for 99, which is not ahead of the send PacketID, puts 99 in the
loss set; 99 is not a key of the unacked table. -/
theorem C27_nak_adds_PacketID_absent_from_table :
    LossInTable (fragmentStep (sendMessage [1, 2, 3] none (scenarioStart false 1000)))
    ∧ unackedIDs (ingestNak [99] 0
        (fragmentStep (sendMessage [1, 2, 3] none (scenarioStart false 1000)))) = [100]
    ∧ (ingestNak [99] 0
        (fragmentStep (sendMessage [1, 2, 3] none (scenarioStart false 1000))))._sendLossList = [99]
    ∧ shutdownRequests (ingestNak [99] 0
        (fragmentStep (sendMessage [1, 2, 3] none (scenarioStart false 1000))))._socket = []
    ∧ ¬ LossInTable (ingestNak [99] 0
        (fragmentStep (sendMessage [1, 2, 3] none (scenarioStart false 1000)))) := by
  decide

/-- C27 (amended): from a state whose loss set is inside the keys of the unacked
table, a fragment send (`processDataMsg`), `ingestAck`, `processSendLoss` and
`processSendExpire` each end in such a state again; `ingestNak` leaves the
unacked table as it was and adds only identifiers of its loss list, so that
every member of the loss set after it is a key of the unacked table or one of
the identifiers the NAK names. -/
theorem C27_loss_set_stays_in_table_except_by_nak (s : UdtSocket_send) (h : LossInTable s) :
    (∀ isFirst : Bool, LossInTable (processDataMsg isFirst s))
    ∧ (∀ (a : ACKPacket) (t : Nat), LossInTable (ingestAck a t s))
    ∧ LossInTable (outcomeState (processSendLoss s))
    ∧ LossInTable (processSendExpire s).2
    ∧ (∀ (l : List Nat) (t : Nat),
        unackedIDs (ingestNak l t s) = unackedIDs s
        ∧ ∀ k ∈ (ingestNak l t s)._sendLossList, k ∈ unackedIDs s ∨ k ∈ nakIdentifiers l) := by
  refine ⟨fun isFirst => processDataMsg_lossInTable isFirst s h,
    fun a t => ingestAck_lossInTable a t s h,
    processSendLoss_lossInTable s h, processSendExpire_lossInTable s h, fun l t => ?_⟩
  obtain ⟨h1, h2⟩ := ingestNak_loss l t s
  refine ⟨by unfold unackedIDs; rw [h1], fun k hk => ?_⟩
  rcases h2 k hk with hi | hi
  · exact Or.inl (h k hi)
  · exact Or.inr hi

theorem C27_loss_set_stays_in_table_except_by_nak_witness :
    LossInTable { expiredSent with _lastAckPacketID := 102 }
    ∧ LossInTable (ingestAck (fullAck 1 101 7) 0 { expiredSent with _lastAckPacketID := 102 })
    ∧ LossInTable (processSendExpire { expiredSent with _lastAckPacketID := 102 }).2
    ∧ ∀ k ∈ (ingestNak [99] 0 { expiredSent with _lastAckPacketID := 102 })._sendLossList,
        k ∈ unackedIDs { expiredSent with _lastAckPacketID := 102 } ∨ k ∈ nakIdentifiers [99] :=
  have h : LossInTable { expiredSent with _lastAckPacketID := 102 } := by decide
  ⟨h,
   (C27_loss_set_stays_in_table_except_by_nak { expiredSent with _lastAckPacketID := 102 } h).2.1
     (fullAck 1 101 7) 0,
   (C27_loss_set_stays_in_table_except_by_nak
     { expiredSent with _lastAckPacketID := 102 } h).2.2.2.1,
   ((C27_loss_set_stays_in_table_except_by_nak
     { expiredSent with _lastAckPacketID := 102 } h).2.2.2.2 [99] 0).2⟩

/-- C28, as the code behaves: after `configureHandshake` with initial sequence
`2^31 - 2` the five data packets carry the PacketIDs `2^31 - 2`, `2^31 - 1`, 0,
1, 2 and the send PacketID is 3; a valid Full ACK for 3, which acknowledges all
five, requests no shutdown and leaves all five in the unacked table with the
frontier at `2^31 - 2`, and so do a Light ACK for 3 (which moves the frontier)
and a Full ACK for 2. -/
theorem C28_wrapped_packets_are_not_retired :
    sentPacketIDs wrapSent = [2147483646, 2147483647, 0, 1, 2]
    ∧ wrapSent._sendPacketID = 3
    ∧ wrapSent._lastAckPacketID = 2147483646
    ∧ PacketID.blindDifference 3 2147483646 = 5
    ∧ (unackedIDs wrapSent).length = 5
    ∧ shutdownRequests (ingestAck (fullAck 1 3 7) 0 wrapSent)._socket = []
    ∧ unackedIDs (ingestAck (fullAck 1 3 7) 0 wrapSent) = unackedIDs wrapSent
    ∧ (ingestAck (fullAck 1 3 7) 0 wrapSent)._lastAckPacketID = 2147483646
    ∧ unackedIDs (ingestAck (lightAck 1 3 7) 0 wrapSent) = unackedIDs wrapSent
    ∧ (ingestAck (lightAck 1 3 7) 0 wrapSent)._lastAckPacketID = 3
    ∧ unackedIDs (ingestAck (fullAck 1 2 7) 0 wrapSent) = unackedIDs wrapSent := by
  decide

/-- C29: a pass of `processEvent` on a HalfClosed socket, from any sender state,
leaves the pending-messages FIFO and the partial-send slot as they were and
hands no data packet to the socket. -/
theorem C29_halfClosed_pass_takes_no_message (s : UdtSocket_send)
    (h : s._socketState = UdtSocketState.HalfClosed) :
    (outcomeState (processEvent s))._pendingMessages = s._pendingMessages
    ∧ (outcomeState (processEvent s))._msgPartialSend = s._msgPartialSend
    ∧ dataPackets (outcomeState (processEvent s))._socket = dataPackets s._socket := by
  unfold processEvent
  simp only []
  split_ifs
  · have hp := processEvent_switch_halfClosed
      (resetEXP
        { s with _flagRecentReceivedPacket := false, _flagRecentEXPevent := false, _expCount := 1 }) h
    exact ⟨hp.1.1, hp.1.2.1, hp.2.1⟩
  · have hp := processEvent_switch_halfClosed s h
    exact ⟨hp.1.1, hp.1.2.1, hp.2.1⟩

theorem C29_halfClosed_pass_takes_no_message_witness :
    halfClosedQueued._sendState = SendState.Idle
    ∧ (outcomeState (processEvent halfClosedQueued))._pendingMessages
        = [MessageEntry.ofContent [4, 5]]
    ∧ (outcomeState (processEvent halfClosedQueued))._msgPartialSend
        = some (MessageEntry.ofContent [1, 2, 3])
    ∧ dataPackets (outcomeState (processEvent halfClosedQueued))._socket = [] :=
  ⟨rfl, C29_halfClosed_pass_takes_no_message halfClosedQueued rfl⟩

/-- C31, as the code behaves: a freshly started sender on a Connected socket,
with the send state Closed of its member initialiser, gets false from its first
`processEvent` pass with the send state still Closed, so `run` returns while the
socket state is Connected; a message queued before the pass stays in the FIFO. -/
theorem C31_fresh_sender_leaves_loop_while_Connected :
    freshSender._sendState = SendState.Closed
    ∧ freshSender._socketState = UdtSocketState.Connected
    ∧ returned (processEvent freshSender) = some false
    ∧ (outcomeState (processEvent freshSender))._sendState = SendState.Closed
    ∧ (outcomeState (processEvent freshSender))._socketState = UdtSocketState.Connected
    ∧ run_returns freshSender = true
    ∧ run_returns (sendMessage [1, 2, 3] none freshSender) = true
    ∧ (outcomeState (processEvent (sendMessage [1, 2, 3] none freshSender)))._pendingMessages.length
        = 1 := by
  decide

/-- C32: `sendDataPacket` inserts the record, calls `onDataPktSent` and
`sendPacket`, and sets the send state to `reevalSendState()`. If that is Waiting
it stops. Else, for a fresh packet whose PacketID is a multiple of 16, it runs
one expiry-drop scan and leaves the SND timer alone. Else a send period above 0
arms the SND timer with it and makes the state Sending, and a send period of 0
leaves the state as re-evaluated. The send state after the call is Idle,
Sending or Waiting. -/
theorem C32_sendDataPacket_finalisation (e : SendPacketEntry) (isResend : Bool)
    (s : UdtSocket_send) :
    (reevalSendState (sendDataPacket_emit e s) = SendState.Waiting →
      sendDataPacket e isResend s =
        { sendDataPacket_emit e s with _sendState := SendState.Waiting })
    ∧ (reevalSendState (sendDataPacket_emit e s) ≠ SendState.Waiting →
        isResend = false → e.packet._packetID % 16 = 0 →
      sendDataPacket e isResend s =
        (processSendExpire { sendDataPacket_emit e s with
          _sendState := reevalSendState (sendDataPacket_emit e s) }).2
      ∧ (sendDataPacket e isResend s)._SNDtimer = s._SNDtimer
      ∧ (sendDataPacket e isResend s)._sendState = reevalSendState (sendDataPacket_emit e s))
    ∧ (reevalSendState (sendDataPacket_emit e s) ≠ SendState.Waiting →
        ¬ (isResend = false ∧ e.packet._packetID % 16 = 0) →
      (0 < s._sndPeriod →
        sendDataPacket e isResend s =
          { sendDataPacket_emit e s with
            _SNDtimer := some s._sndPeriod, _sendState := SendState.Sending })
      ∧ (s._sndPeriod = 0 →
        sendDataPacket e isResend s =
          { sendDataPacket_emit e s with
            _sendState := reevalSendState (sendDataPacket_emit e s) }))
    ∧ ((sendDataPacket e isResend s)._sendState = SendState.Idle
      ∨ (sendDataPacket e isResend s)._sendState = SendState.Sending
      ∨ (sendDataPacket e isResend s)._sendState = SendState.Waiting) := by
  have h16 : e.packet._packetID % UINT_MODULUS % 16 = e.packet._packetID % 16 :=
    Nat.mod_mod_of_dvd _ (by norm_num [UINT_MODULUS])
  have hr := reevalSendState_range (sendDataPacket_emit e s)
  have hx := processSendExpire_sendState { sendDataPacket_emit e s with
    _sendState := reevalSendState (sendDataPacket_emit e s) }
  refine ⟨?_, ?_, ?_, ?_⟩
  · intro hw
    unfold sendDataPacket
    simp only [hw, if_true]
  · intro hw hf ha
    have hres : sendDataPacket e isResend s =
        (processSendExpire { sendDataPacket_emit e s with
          _sendState := reevalSendState (sendDataPacket_emit e s) }).2 := by
      unfold sendDataPacket
      simp only [hw, if_false, hf, h16, ha, Bool.not_false, decide_True, Bool.and_self, if_true]
    rw [hres]
    exact ⟨rfl, hx.2, hx.1⟩
  · intro hw hn
    have hc : (!isResend && decide (e.packet._packetID % UINT_MODULUS % 16 = 0)) = false := by
      rw [h16]
      cases isResend
      · simp only [Bool.not_false, Bool.true_and, decide_eq_false_iff_not]
        exact fun ha => hn ⟨rfl, ha⟩
      · rfl
    constructor
    · intro hp
      unfold sendDataPacket
      simp only [hw, if_false, hc, Bool.false_eq_true]
      simp only [sendDataPacket_emit, gt_iff_lt, hp, if_true]
    · intro hp
      unfold sendDataPacket
      simp only [hw, if_false, hc, Bool.false_eq_true]
      simp only [sendDataPacket_emit, hp, gt_iff_lt, lt_self_iff_false, if_false]
  · unfold sendDataPacket
    simp only []
    split_ifs with h1 h2 h3
    · exact Or.inr (Or.inr h1)
    · rw [hx.1]; exact hr
    · exact Or.inr (Or.inl rfl)
    · exact hr

theorem C32_sendDataPacket_finalisation_witness :
    (reevalSendState (sendDataPacket_emit (sentRecord 103 3 none).2 expiredSent) = SendState.Waiting
      ∧ sendDataPacket (sentRecord 103 3 none).2 false expiredSent =
        { sendDataPacket_emit (sentRecord 103 3 none).2 expiredSent with
          _sendState := SendState.Waiting })
    ∧ (reevalSendState (sendDataPacket_emit (sentRecord 103 3 none).2
          { expiredSent with _congestWindow := 0, _sndPeriod := 5 }) ≠ SendState.Waiting
      ∧ sendDataPacket (sentRecord 103 3 none).2 false
          { expiredSent with _congestWindow := 0, _sndPeriod := 5 } =
        { sendDataPacket_emit (sentRecord 103 3 none).2
            { expiredSent with _congestWindow := 0, _sndPeriod := 5 } with
          _SNDtimer := some 5, _sendState := SendState.Sending }) :=
  ⟨⟨by decide,
     (C32_sendDataPacket_finalisation (sentRecord 103 3 none).2 false expiredSent).1 (by decide)⟩,
   by decide,
   ((C32_sendDataPacket_finalisation (sentRecord 103 3 none).2 false
      { expiredSent with _congestWindow := 0, _sndPeriod := 5 }).2.2.1 (by decide)
      (fun h => absurd h.2 (by decide))).1 (by decide)⟩

/-- C33: `resetEXP` starts the EXP timer for the RTO override when that is
above 0; otherwise for the larger of `_expCount * (rtt + 4 * rttVariance) / 1000
+ SYN` (the microsecond product divided to milliseconds) and `_expCount * 300`,
so without an override never for less than `_expCount * 300` ms. -/
theorem C33_resetEXP_duration (s : UdtSocket_send) :
    (0 < s._rtoPeriod → (resetEXP s)._EXPtimer = some s._rtoPeriod)
    ∧ (¬ 0 < s._rtoPeriod →
      (resetEXP s)._EXPtimer =
        some (max
          (((s._expCount * (s._rtt + 4 * s._rttVariance) / 1000 + SYN : Nat) : Int))
          (((s._expCount * MIN_EXP_INTERVAL : Nat) : Int)))
      ∧ ∃ d : Int, (resetEXP s)._EXPtimer = some d
          ∧ ((s._expCount * 300 : Nat) : Int) ≤ d) := by
  constructor
  · intro h
    unfold resetEXP
    simp only [gt_iff_lt, h, if_true]
  · intro h
    have hdiv : Int.tdiv ((s._expCount : Int) * ((s._rtt : Int) + 4 * (s._rttVariance : Int))) 1000
        = ((s._expCount * (s._rtt + 4 * s._rttVariance) / 1000 : Nat) : Int) := by
      rw [Int.tdiv_eq_ediv (by positivity) (by norm_num)]
      push_cast
      rfl
    have hres : (resetEXP s)._EXPtimer =
        some (max
          (((s._expCount * (s._rtt + 4 * s._rttVariance) / 1000 + SYN : Nat) : Int))
          (((s._expCount * MIN_EXP_INTERVAL : Nat) : Int))) := by
      unfold resetEXP
      simp only [gt_iff_lt, h, if_false, hdiv]
      congr 1
      push_cast
      split_ifs with hlt
      · rw [max_eq_right (le_of_lt hlt)]
      · rw [max_eq_left (not_lt.mp hlt)]
    refine ⟨hres, _, hres, ?_⟩
    have : MIN_EXP_INTERVAL = 300 := rfl
    rw [this]
    exact le_max_right _ _

theorem C33_resetEXP_duration_witness :
    (resetEXP { idleSender with _rtoPeriod := 1000 })._EXPtimer = some 1000
    ∧ (resetEXP { idleSender with _expCount := 2, _rtt := 700999, _rttVariance := 500 })._EXPtimer =
        some (max
          (((2 * (700999 + 4 * 500) / 1000 + SYN : Nat) : Int))
          (((2 * MIN_EXP_INTERVAL : Nat) : Int))) :=
  ⟨(C33_resetEXP_duration { idleSender with _rtoPeriod := 1000 }).1 (by decide),
   ((C33_resetEXP_duration
      { idleSender with _expCount := 2, _rtt := 700999, _rttVariance := 500 }).2 (by decide)).1⟩

/-- C34, as the code behaves: with two NAK packets queued and no timer flag set,
a `processEvent` pass takes the first packet from the FIFO, dispatches it
(`onNAK` is called) and returns false although one packet is still queued. -/
theorem C34_pass_that_dispatches_returns_false :
    twoNaksQueued._receivedPacketList.length = 2
    ∧ twoNaksQueued._flagRecentEXPevent = false
    ∧ twoNaksQueued._flagRecentSNDevent = false
    ∧ (outcomeState (processEvent twoNaksQueued))._receivedPacketList.length = 1
    ∧ nakNotifications (outcomeState (processEvent twoNaksQueued))._socket = [[101]]
    ∧ (outcomeState (processEvent twoNaksQueued))._sendLossList = [101]
    ∧ returned (processEvent twoNaksQueued) = some false := by
  decide

/-- C35 (the claim fails on the code): a started sender with no peer contact
after clock 0 and no RTO override lets the EXP timer fire at the intervals
`resetEXP` armed it for. After 17 firings in a row, 45.9 s after the last peer
contact, `_expCount` is 18 and the last-receive clock was restarted at the 17th
firing; the 18th firing, 5.4 s later, requests no shutdown, and none is
requested up to the 33rd firing, 168.3 s after the last peer contact. -/
theorem C35_exp_event_restarts_last_receive_clock :
    idleSender._lastReceiveTime = 0
    ∧ (runEvents (expRounds 17) idleSender)._expCount = 18
    ∧ (runEvents (expRounds 17) idleSender)._clock = 45900
    ∧ (runEvents (expRounds 17) idleSender)._lastReceiveTime = 45900
    ∧ (runEvents (expRounds 18) idleSender)._clock = 51300
    ∧ shutdownRequests (runEvents (expRounds 18) idleSender)._socket = []
    ∧ (runEvents (expRounds 33) idleSender)._clock = 168300
    ∧ (runEvents (expRounds 33) idleSender)._expCount = 34
    ∧ shutdownRequests (runEvents (expRounds 33) idleSender)._socket = [] := by
  decide

/-- C35 (amended): the last-receive clock is restarted by every `resetEXP`: in
`startupInit`, in the `processEvent` pass that finds the recent-received-packet
flag set, and at the end of every `processExpEvent` that does not time out.
`processExpEvent` requests a Timeout shutdown exactly when `_expCount` is above
16 and more than 10 s have passed since the last restart of that clock. -/
theorem C35_timeout_measured_from_last_resetEXP (s : UdtSocket_send) :
    (resetEXP s)._lastReceiveTime = s._clock
    ∧ (startupInit s)._lastReceiveTime = s._clock
    ∧ (s._flagRecentReceivedPacket = true → s._sendState ≠ SendState.Shutdown →
        processEvent s = processEvent_switch (resetEXP
          { s with _flagRecentReceivedPacket := false, _flagRecentEXPevent := false, _expCount := 1 }))
    ∧ (¬ (s._expCount > 16 ∧ s._clock - s._lastReceiveTime > 10000) →
        (processExpEvent s)._lastReceiveTime = s._clock
        ∧ shutdownRequests (processExpEvent s)._socket = shutdownRequests s._socket)
    ∧ (s._expCount > 16 ∧ s._clock - s._lastReceiveTime > 10000 →
        shutdownRequests (processExpEvent s)._socket
            = shutdownRequests s._socket ++ [UdtSocketState.Timeout]
        ∧ (processExpEvent s)._lastReceiveTime = s._lastReceiveTime) := by
  refine ⟨rfl, rfl, ?_, ?_, ?_⟩
  · intro hf hs
    unfold processEvent
    simp only [hf, hs, Bool.true_and, ne_eq, not_false_eq_true, decide_True, if_true]
  · intro h
    have h' : ¬ expTimedOut s := h
    rw [processExpEvent_of_not_timedOut s h']
    refine ⟨rfl, ?_⟩
    simp only [resetEXP, shutdownRequests_append]
    cases s._sendPktPend.isEmpty <;> simp [shutdownRequests]
  · intro h
    have h' : expTimedOut s := h
    rw [processExpEvent_of_timedOut s h']
    exact ⟨by simp [shutdownRequests_append, shutdownRequests], rfl⟩

theorem C35_timeout_measured_from_last_resetEXP_witness :
    ((processExpEvent { idleSender with _expCount := 18, _clock := 5400 })._lastReceiveTime = 5400
      ∧ shutdownRequests (processExpEvent { idleSender with _expCount := 18, _clock := 5400 })._socket
          = shutdownRequests idleSender._socket)
    ∧ (shutdownRequests (processExpEvent { idleSender with _expCount := 18, _clock := 10001 })._socket
          = shutdownRequests idleSender._socket ++ [UdtSocketState.Timeout]
      ∧ (processExpEvent { idleSender with _expCount := 18, _clock := 10001 })._lastReceiveTime
          = idleSender._lastReceiveTime) :=
  ⟨(C35_timeout_measured_from_last_resetEXP
      { idleSender with _expCount := 18, _clock := 5400 }).2.2.2.1 (by decide),
   (C35_timeout_measured_from_last_resetEXP
      { idleSender with _expCount := 18, _clock := 10001 }).2.2.2.2 (by decide)⟩

/-- C36 (the claim fails on the code): after the packets 100, 101, 102 a valid
Light ACK with sequence number 0, which equals `_sentAck2`, at an expired
ACK2-sent deadline makes `ingestAck` hand an ACK2 packet to the socket. -/
theorem C36_light_ack_causes_ack2 :
    (lightAck 0 101 7)._ackType = AckType.Light
    ∧ ack2Due (lightAck 0 101 7) threeSent
    ∧ ack2Packets threeSent._socket = []
    ∧ ack2Packets (ingestAck (lightAck 0 101 7) 0 threeSent)._socket = [0] := by
  decide

/-- C36 (amended): `ingestAck` hands an ACK2 packet to the socket exactly when
the ACK reaches the ACK2 block (every Full ACK, and every Light ACK that is not
ahead of the send PacketID), the ACK2-sent deadline has expired and the
sequence number of the ACK equals `_sentAck2`; the ACK2 carries that sequence
number as a 32-bit word and the deadline is set to SYN from now. In every other
case no ACK2 packet is handed over and the deadline stays. -/
theorem C36_ack2_exactly_when_block_is_due (a : ACKPacket) (t : Nat) (s : UdtSocket_send) :
    (¬ (a._ackType = AckType.Light
          ∧ PacketID.blindDifference s._sendPacketID a._lastPacketReceived < 0)
        ∧ ack2Due a s →
      ack2Packets (ingestAck a t s)._socket
          = ack2Packets s._socket ++ [a._ackSequence % UINT_MODULUS]
      ∧ (ingestAck a t s)._ACK2SentTimer = some (s._clock + SYN))
    ∧ (¬ (¬ (a._ackType = AckType.Light
            ∧ PacketID.blindDifference s._sendPacketID a._lastPacketReceived < 0)
          ∧ ack2Due a s) →
      ack2Packets (ingestAck a t s)._socket = ack2Packets s._socket
      ∧ (ingestAck a t s)._ACK2SentTimer = s._ACK2SentTimer) :=
  ingestAck_ack2_history a t s

theorem C36_ack2_exactly_when_block_is_due_witness :
    (ack2Due (fullAck 0 101 7) threeSent
      ∧ ack2Packets (ingestAck (fullAck 0 101 7) 0 threeSent)._socket
          = ack2Packets threeSent._socket ++ [(fullAck 0 101 7)._ackSequence % UINT_MODULUS]
      ∧ (ingestAck (fullAck 0 101 7) 0 threeSent)._ACK2SentTimer = some (threeSent._clock + SYN))
    ∧ (¬ ack2Due (fullAck 1 101 7) threeSent
      ∧ ack2Packets (ingestAck (fullAck 1 101 7) 0 threeSent)._socket
          = ack2Packets threeSent._socket
      ∧ (ingestAck (fullAck 1 101 7) 0 threeSent)._ACK2SentTimer = threeSent._ACK2SentTimer) :=
  ⟨⟨by decide,
     (C36_ack2_exactly_when_block_is_due (fullAck 0 101 7) 0 threeSent).1
       ⟨by decide, by decide⟩⟩,
   by decide,
   (C36_ack2_exactly_when_block_is_due (fullAck 1 101 7) 0 threeSent).2
     (fun h => absurd h.2 (by decide))⟩

/-- C38: in every state that a sequence of events reaches after `startupInit`,
`_sentAck2` is 0; so `ingestAck` hands an ACK2 packet to the socket only for an
ACK whose sequence number is 0. -/
theorem C38_sentAck2_stays_zero (es : List SenderEvent) (s0 : UdtSocket_send) :
    (runEvents es (startupInit s0))._sentAck2 = 0
    ∧ ∀ (a : ACKPacket) (t : Nat),
        ack2Packets (ingestAck a t (runEvents es (startupInit s0)))._socket
            ≠ ack2Packets (runEvents es (startupInit s0))._socket →
        a._ackSequence = 0 := by
  have h0 : (runEvents es (startupInit s0))._sentAck2 = 0 := runEvents_sentAck2 es _ rfl
  refine ⟨h0, fun a t hne => ?_⟩
  by_contra hseq
  apply hne
  refine ((ingestAck_ack2_history a t (runEvents es (startupInit s0))).2 ?_).1
  rintro ⟨-, hd⟩
  exact hseq (hd.2.trans h0)

theorem C38_sentAck2_stays_zero_witness :
    ack2Packets (ingestAck (fullAck 0 101 7) 0
        (runEvents [SenderEvent.clockAdvance 5] (startupInit threeSent)))._socket
      ≠ ack2Packets (runEvents [SenderEvent.clockAdvance 5] (startupInit threeSent))._socket
    ∧ (fullAck 0 101 7)._ackSequence = 0 :=
  ⟨by decide,
   (C38_sentAck2_stays_zero [SenderEvent.clockAdvance 5] threeSent).2 (fullAck 0 101 7) 0
     (by decide)⟩

/-- C40: for a loss list that is a well-formed prefix with identifiers not ahead
of the send PacketID, followed by an offending entry, `ingestNak` requests one
Corrupted shutdown and keeps the insertions of the prefix: the loss set is the
old one with the identifiers of the prefix inserted, the send state is as it
was, `onNAK` is not called, and nothing else changes. -/
theorem C40_rejected_nak_keeps_prefix_insertions (p rest : List Nat) (t : Nat)
    (s : UdtSocket_send)
    (hm : ¬ NakMalformed p)
    (hv : ∀ w ∈ p, ¬ PacketID.blindDifference s._sendPacketID (PacketID.ofWord w) < 0)
    (ho : nakOffending s rest) :
    ingestNak (p ++ rest) t s =
        { s with
          _sendLossList := (nakIdentifiers p).foldl PacketIDSet.insert s._sendLossList
          _socket := s._socket ++ [SocketCall.requestShutdown UdtSocketState.Corrupted] }
    ∧ (∀ k, k ∈ (ingestNak (p ++ rest) t s)._sendLossList ↔
        k ∈ s._sendLossList ∨ k ∈ nakIdentifiers p)
    ∧ (ingestNak (p ++ rest) t s)._sendState = s._sendState
    ∧ nakNotifications (ingestNak (p ++ rest) t s)._socket = nakNotifications s._socket := by
  have hres : ingestNak (p ++ rest) t s =
      { s with
        _sendLossList := (nakIdentifiers p).foldl PacketIDSet.insert s._sendLossList
        _socket := s._socket ++ [SocketCall.requestShutdown UdtSocketState.Corrupted] } := by
    have ho2 := nakOffending_of_sendPacketID s
      { s with _sendLossList := (nakIdentifiers p).foldl PacketIDSet.insert s._sendLossList }
      rest rfl ho
    unfold ingestNak
    rw [ingestNak_loop_leading p.length p rest [] s (le_refl _) hm hv,
      ingestNak_loop_offending rest _ _ ho2]
  rw [hres]
  refine ⟨rfl, fun k => PacketIDSet.mem_foldl_insert _ _ _, rfl, ?_⟩
  simp [nakNotifications_append, nakNotifications]

theorem C40_rejected_nak_keeps_prefix_insertions_witness :
    (ingestNak ([101] ++ [2147483748]) 0 threeSent)._sendLossList
        = (nakIdentifiers [101]).foldl PacketIDSet.insert threeSent._sendLossList
    ∧ (ingestNak ([101] ++ [2147483748]) 0 threeSent)._sendState = threeSent._sendState
    ∧ nakNotifications (ingestNak ([101] ++ [2147483748]) 0 threeSent)._socket
        = nakNotifications threeSent._socket :=
  have h := C40_rejected_nak_keeps_prefix_insertions [101] [2147483748] 0 threeSent
    (not_NakMalformed_of_no_rangeStart [101] (by decide)) (by decide)
    (Or.inl (by decide))
  ⟨congrArg (fun u : UdtSocket_send => u._sendLossList) h.1, h.2.2.1, h.2.2.2⟩

end udt4

namespace ScriptEngineQtScript

/-- C37: `computeCastPenalty` follows its table for every script value and every
destination type id. The result is 0 exactly for a number to one of the ten
numeric types, a string, date or regular expression to `QString`, a boolean to
`Bool`, and a value that is none of these; 100 exactly for a number to
`QString`, `QByteArray`, `QDateTime` or `QDate` and for a string, date or
regular expression to `Bool` or a numeric type; 50 exactly for a boolean to
`QString`, `QByteArray`, `QDateTime` or `QDate`; 5 in every other case. -/
theorem C37_computeCastPenalty_table (val : QScriptValue) (destTypeId : Int) :
    (computeCastPenalty val destTypeId = 0 ↔
      (castsAsNumber val ∧ numericCase destTypeId)
      ∨ (castsAsText val ∧ destTypeId = QMetaType.QString)
      ∨ (castsAsBoolean val ∧ destTypeId = QMetaType.Bool)
      ∨ castsAsOther val)
    ∧ (computeCastPenalty val destTypeId = 100 ↔
      (castsAsNumber val ∧ textCase destTypeId)
      ∨ (castsAsText val ∧ (destTypeId = QMetaType.Bool ∨ numericCase destTypeId)))
    ∧ (computeCastPenalty val destTypeId = 50 ↔ castsAsBoolean val ∧ textCase destTypeId)
    ∧ (computeCastPenalty val destTypeId = 5 ↔
      ¬ ((castsAsNumber val ∧ numericCase destTypeId)
        ∨ (castsAsText val ∧ destTypeId = QMetaType.QString)
        ∨ (castsAsBoolean val ∧ destTypeId = QMetaType.Bool)
        ∨ castsAsOther val)
      ∧ ¬ ((castsAsNumber val ∧ textCase destTypeId)
        ∨ (castsAsText val ∧ (destTypeId = QMetaType.Bool ∨ numericCase destTypeId)))
      ∧ ¬ (castsAsBoolean val ∧ textCase destTypeId))
    ∧ (computeCastPenalty val destTypeId = 0 ∨ computeCastPenalty val destTypeId = 5
      ∨ computeCastPenalty val destTypeId = 50 ∨ computeCastPenalty val destTypeId = 100) := by
  have hb : ¬ numericCase QMetaType.Bool := by decide
  have hs : ¬ numericCase QMetaType.QString := by decide
  have htb : ¬ textCase QMetaType.Bool := by decide
  have hts : textCase QMetaType.QString := by decide
  have hnt : numericCase destTypeId → ¬ textCase destTypeId := by
    unfold numericCase textCase QMetaType.UInt QMetaType.ULong QMetaType.Int QMetaType.Long
      QMetaType.Short QMetaType.Double QMetaType.Float QMetaType.ULongLong QMetaType.LongLong
      QMetaType.UShort QMetaType.QString QMetaType.QByteArray QMetaType.QDateTime QMetaType.QDate
    omega
  unfold computeCastPenalty castsAsNumber castsAsText castsAsBoolean castsAsOther
  cases h1 : val.isNumber <;> cases h2 : (val.isString || val.isDate || val.isRegExp)
    <;> cases h3 : (val.isBool || val.isBoolean)
    <;> by_cases d1 : destTypeId = QMetaType.Bool
    <;> by_cases d2 : numericCase destTypeId
    <;> by_cases d3 : textCase destTypeId
    <;> by_cases d4 : destTypeId = QMetaType.QString
    <;> simp_all

end ScriptEngineQtScript
